import Mathlib

/-!
# Greenlet switching engine: a shallow embedding of `src/greenlet/greenlet.cpp`

Greenlets and thread states live in a heap indexed by handles; a C pointer is an
`Option` handle (`none` is `NULL`).  Functions of the source become functions on
`World`.  Code that the source calls but that is outside it (the platform stack
switch, Python code run by attribute lookup and by the trace function) is taken
from an `Env` record.  Loops over pointer chains take a fuel argument.
-/

namespace Greenlet

/-- Handle of a `PyGreenlet` object. -/
abbrev GId := Nat

/-- Handle of a `ThreadState` object. -/
abbrev TId := Nat

/-- Python objects, as far as the switching code looks inside them. -/
inductive PyObj where
  | None : PyObj
  | obj (n : Nat) : PyObj
  | str (s : String) : PyObj
  | tuple (items : List PyObj) : PyObj
  | dict (items : List (PyObj × PyObj)) : PyObj

/-- Exception classes the module raises or inspects. -/
inductive ExcType where
  | GreenletError : ExcType
  | GreenletExit : ExcType
  | ExitSubclass (n : Nat) : ExcType
  | AttributeError : ExcType
  | ValueError : ExcType
  | TypeError : ExcType
  | MemoryError : ExcType
  | Other (n : Nat) : ExcType
  deriving DecidableEq

/-- The test `mod_globs.PyExc_GreenletExit.PyExceptionMatches()` on the class of
the pending error: true for `GreenletExit` and its subclasses. -/
def ExcType.matchesGreenletExit : ExcType → Bool
  | .GreenletExit => true
  | .ExitSubclass _ => true
  | _ => false

/-- The pending Python error: its class and its value (`none` is a `NULL` value). -/
structure PyErr where
  type : ExcType
  value : Option PyObj

/-- The class `SwitchingArgs`: both fields `NULL` means a throw. -/
structure SwitchingArgs where
  args : Option PyObj
  kwargs : Option PyObj

/-- The result of `SwitchingArgs()` and of `CLEAR()`. -/
def SwitchingArgs.empty : SwitchingArgs := ⟨none, none⟩

/-- The conversion `operator bool` of `SwitchingArgs`. -/
def SwitchingArgs.toBool (a : SwitchingArgs) : Bool :=
  a.args.isSome || a.kwargs.isSome

/-- Modelled from the spec: the class `StackState` of `greenlet_greenlet.hpp`
(StackRegion in the spec): `stack_start` and `stack_stop` bound the part on the
native stack, `stack_copy` and `stack_saved` are the heap copy and its length,
`stack_prev` is the owner of the stack above. -/
structure StackState where
  stack_start : Option Nat
  stack_stop : Option Nat
  stack_copy : List Nat
  stack_saved : Nat
  stack_prev : Option GId

/-- Modelled from the spec: the constructor `StackState()`, the empty value
("created empty"). -/
def StackState.new : StackState := ⟨none, none, [], 0, none⟩

/-- Modelled from the spec: `StackState::started`, from the table of states in the
source ("stack_stop == NULL && stack_start == NULL: did not start yet"). -/
def StackState.started (s : StackState) : Bool := s.stack_stop.isSome

/-- Modelled from the spec: `StackState::active`, from the table of states in the
source ("stack_stop != NULL && stack_start != NULL: active"). -/
def StackState.active (s : StackState) : Bool := s.stack_start.isSome

/-- The largest address, `(char*) -1`, the `stack_stop` of a main greenlet. -/
def CHAR_PTR_MAX : Nat := 2 ^ 64 - 1

/-- Modelled from the spec: `StackState::main`: `stack_stop` is the largest
address. -/
def StackState.main (s : StackState) : Bool := s.stack_stop == some CHAR_PTR_MAX

/-- Modelled from the spec: the constructor `StackState(mark, current)` used when a
greenlet is started: `stack_stop` is the mark, nothing is on the stack yet, and
the previous owner is the current greenlet, or its predecessor when the current
greenlet is dying. -/
def StackState.start (mark : Nat) (current : GId) (cur : StackState) : StackState :=
  ⟨none, some mark, [], 0, if cur.stack_start.isSome then some current else cur.stack_prev⟩

/-- Modelled from the spec: `StackState::set_active` ("marks the coroutine
ACTIVE"): the running greenlet has an undefined but non-null `stack_start`. -/
def StackState.set_active (s : StackState) : StackState :=
  { s with stack_start := some 1 }

/-- Modelled from the spec: `StackState::set_inactive` ("mark the coroutine
DEAD"): `stack_start` becomes null, `stack_stop` stays, and a heap copy that is
still held is freed. -/
def StackState.set_inactive (s : StackState) : StackState :=
  { s with stack_start := none, stack_copy := [], stack_saved := 0 }

/-- The lifecycle state derived from a stack state, after the table of states in
the source.  ACTIVE and SUSPENDED differ only in whether the greenlet is the
current one of its thread, so both are `ACTIVE` here. -/
inductive Lifecycle where
  | NOT_STARTED : Lifecycle
  | ACTIVE : Lifecycle
  | DEAD : Lifecycle
  deriving DecidableEq

/-- The class `SwitchingState`: the pending request of its target greenlet and the
thread state captured by the constructor (`thread_state(GET_THREAD_STATE().state())`). -/
structure SwitchingState where
  switch_args : SwitchingArgs
  thread_state : TId

/-- The struct `PyGreenlet`; `thread_state` is the extra field of `PyMainGreenlet`. -/
structure PyGreenlet where
  parent : Option GId
  main_greenlet_s : Option GId
  run_callable : Option PyObj
  stack_state : StackState
  switching_state : Option SwitchingState
  thread_state : Option TId

/-- Modelled from the spec: the class `ThreadState` of `greenlet_thread_state.hpp`:
the main and the current greenlet of the thread, the trace function and the
list of greenlets another thread asked to kill. -/
structure ThreadState where
  main_greenlet : GId
  current_greenlet : GId
  tracefunc : Option PyObj
  deleteme : List GId

/-- The names of the two trace events, `mod_globs.event_switch` and
`mod_globs.event_throw`. -/
inductive EventName where
  | switch : EventName
  | throw : EventName
  deriving DecidableEq

/-- Calls recorded in the order they are made: the platform switch `slp_switch`,
`g_switchstack` called by `g_switch` on an active greenlet (resume),
`g_initialstub` called by `g_switch` (bootstrap), `g_switch` called by the parent
loop of `inner_bootstrap` with the payload and the pending error at that time
(offer), the trace function, and `Py_FatalError`. -/
inductive Event where
  | slp_switch (target : GId) : Event
  | resume (target : GId) : Event
  | bootstrap (target : GId) : Event
  | offer (parent : GId) (payload : Option PyObj) (pending : Option PyErr) : Event
  | trace (event : EventName) (origin : Option GId) (target : GId) : Event
  | fatal : Event

/-- The state the module works on. `this_thread` is the thread running the code
(`GET_THREAD_STATE()`), `pyerr` its pending Python error. -/
structure World where
  greenlets : GId → PyGreenlet
  threads : TId → ThreadState
  this_thread : TId
  pyerr : Option PyErr
  log : List Event

/-- The macro `PyGreenlet_STARTED`. -/
def PyGreenlet_STARTED (w : World) (g : GId) : Bool := (w.greenlets g).stack_state.started

/-- The macro `PyGreenlet_ACTIVE`. -/
def PyGreenlet_ACTIVE (w : World) (g : GId) : Bool := (w.greenlets g).stack_state.active

/-- The macro `PyGreenlet_MAIN`. -/
def PyGreenlet_MAIN (w : World) (g : GId) : Bool := (w.greenlets g).stack_state.main

/-- The lifecycle state of a stack state, after the table of states in the source:
without `stack_stop` it did not start yet, with `stack_stop` it is active when
it has a `stack_start` and finished when it has none. -/
def StackState.lifecycle (s : StackState) : Lifecycle :=
  if s.started then (if s.active then .ACTIVE else .DEAD) else .NOT_STARTED

/-- The lifecycle state of a greenlet. -/
def lifecycle (w : World) (g : GId) : Lifecycle := (w.greenlets g).stack_state.lifecycle

/-- Code outside the source file that the module calls. -/
structure Env where
  /-- Modelled from the spec: the platform switch with `slp_save_state` and
  `slp_restore_state` (`greenlet_slp_switch.hpp` and `StackState`, not in src):
  whether the switch succeeded (it fails only when the heap copy cannot be
  allocated) and the stack regions of all greenlets afterwards. -/
  slp_switch : World → GId → Bool × (GId → StackState)
  /-- The lookup `self.PyRequireAttr(mod_globs.str_run)`: it can run arbitrary Python
  code; the world afterwards and the attribute, or `none` when it raised (the
  error is then pending in the world returned). -/
  getattr_run : World → GId → World × Option PyObj
  /-- The call `PyObject_CallFunction(tracefunc, "O(OO)", event, origin, target)`:
  the world afterwards and whether it returned a value (on `false` the error it
  raised is pending in the world returned). -/
  call_tracefunc : World → PyObj → EventName → Option GId → GId → World × Bool
  /-- The address of the local variable `dummymarker` of `g_switch`. -/
  mark : World → Nat

/-- The world after code outside the module ran from `w` and left `w1`: that code
runs on the same thread and does not see the log. -/
def World.after (w w1 : World) : World :=
  { w1 with this_thread := w.this_thread, log := w.log }

/-- Append an event to the log. -/
def World.record (w : World) (e : Event) : World := { w with log := w.log ++ [e] }

/-- Store a greenlet at a handle. -/
def World.setGreenlet (w : World) (g : GId) (x : PyGreenlet) : World :=
  { w with greenlets := Function.update w.greenlets g x }

/-- Store a thread state at a handle. -/
def World.setThread (w : World) (t : TId) (x : ThreadState) : World :=
  { w with threads := Function.update w.threads t x }

/-- Assign `g->stack_state`. -/
def World.setStack (w : World) (g : GId) (s : StackState) : World :=
  w.setGreenlet g { w.greenlets g with stack_state := s }

/-- Replace the stack state of every greenlet. -/
def World.setStacks (w : World) (f : GId → StackState) : World :=
  { w with greenlets := fun g => { w.greenlets g with stack_state := f g } }

/-- Set or clear the pending Python error. -/
def World.setErr (w : World) (e : Option PyErr) : World := { w with pyerr := e }

/-- Assign `g->parent`. -/
def World.setParent (w : World) (g : GId) (p : Option GId) : World :=
  w.setGreenlet g { w.greenlets g with parent := p }

/-- Assign the `switch_args` of the switching state of `g`, when it has one. -/
def World.setArgs (w : World) (g : GId) (a : SwitchingArgs) : World :=
  match (w.greenlets g).switching_state with
  | none => w
  | some s => w.setGreenlet g { w.greenlets g with switching_state := some { s with switch_args := a } }

/-- The `switch_args` of the switching state of `g` (empty when it has none). -/
def World.args (w : World) (g : GId) : SwitchingArgs :=
  match (w.greenlets g).switching_state with
  | none => SwitchingArgs.empty
  | some s => s.switch_args

/-- The statement `if (!g->switching_state) g->switching_state = new SwitchingState(g)`:
the constructor captures the state of the running thread. -/
def World.ensureSwitchingState (w : World) (g : GId) : World :=
  match (w.greenlets g).switching_state with
  | some _ => w
  | none => w.setGreenlet g
      { w.greenlets g with switching_state := some ⟨SwitchingArgs.empty, w.this_thread⟩ }

/-- The method `SwitchingState::release_args` of the switching state of `g`. -/
def release_args (w : World) (g : GId) : World := w.setArgs g SwitchingArgs.empty

/-- The effect of `throw PyErrOccurred(type, msg)`: the error is set with
`PyErr_SetString`. -/
def World.raise (w : World) (t : ExcType) (msg : String) : World :=
  w.setErr (some ⟨t, some (.str msg)⟩)

/-- The function `find_and_borrow_main_greenlet_in_lineage`.  The outer `none` is
running out of fuel; the inner option is the pointer returned. -/
def find_and_borrow_main_greenlet_in_lineage : Nat → World → GId → Option (Option GId)
  | 0, _, _ => none
  | fuel + 1, w, g =>
    if PyGreenlet_STARTED w g then some (w.greenlets g).main_greenlet_s
    else match (w.greenlets g).parent with
      | none => some none
      | some p => find_and_borrow_main_greenlet_in_lineage fuel w p

/-- What a call of `check_switch_allowed` does. -/
inductive Check where
  | allowed : Check
  | throws (msg : String) : Check
  | out_of_fuel : Check
  deriving DecidableEq

/-- The method `SwitchingState::check_switch_allowed` of the switching state `s` whose
target is `target`; every error it throws is a `greenlet.error`. -/
def check_switch_allowed (fuel : Nat) (w : World) (target : GId) (s : SwitchingState) : Check :=
  match find_and_borrow_main_greenlet_in_lineage fuel w target with
  | none => .out_of_fuel
  | some none => .throws "cannot switch to a garbage collected greenlet"
  | some (some main_greenlet) =>
    match (w.greenlets main_greenlet).thread_state with
    | none => .throws "cannot switch to a different thread (which happens to have exited)"
    | some ts =>
      if ts ≠ s.thread_state
          ∨ (w.greenlets (w.threads w.this_thread).main_greenlet).thread_state ≠ some s.thread_state
      then .throws "cannot switch to a different thread"
      else .allowed

/-- The function `PyDict_Size`; `-1` is its error value. -/
def PyDict_Size : PyObj → Int
  | .dict items => items.length
  | _ => -1

/-- The function `PySequence_Length`; `-1` is its error value. -/
def PySequence_Length : Option PyObj → Int
  | some (.tuple items) => items.length
  | some (.str s) => s.length
  | _ => -1

/-- The function `single_result`. -/
def single_result : Option PyObj → Option PyObj
  | some (.tuple [result]) => some result
  | results => results

/-- The operator `OwnedObject& operator<<=(OwnedObject& lhs, SwitchingArgs& rhs)`: the
object assigned to `lhs`.  The caller clears `rhs`.  The definition covers the
requests that the module builds: args a tuple or `NULL`, kwargs a dict or
`NULL`, and no `NULL` args together with a non-empty kwargs.  Outside of them
the source sets an error in `PyDict_Size` or `PySequence_Length`, or passes
`NULL` to `PyTuple_Pack`, which the value `none` given here does not
describe. -/
def result_from_args (rhs : SwitchingArgs) : Option PyObj :=
  match rhs.kwargs with
  | none => rhs.args
  | some kwargs =>
    if PyDict_Size kwargs = 0 then rhs.args
    else if PySequence_Length rhs.args = 0 then some kwargs
    else match rhs.args with
      | some args => some (.tuple [args, kwargs])
      | none => none

/-- Modelled from the spec: the function `slp_switch` of the platform headers. It
returns a negative status when saving the stack fails, `1` on the first entry
into a greenlet and `0` when an active greenlet is resumed. -/
def slp_switch (env : Env) (w : World) (target : GId) : Int × World :=
  let r := env.slp_switch w target
  let w1 := (w.record (.slp_switch target)).setStacks r.2
  if r.1 then (if PyGreenlet_ACTIVE w target then 0 else 1, w1)
  else (-1, w1.setErr (some ⟨.MemoryError, none⟩))

/-- The struct `switchstack_result_t`. -/
structure switchstack_result_t where
  status : Int
  the_state_that_switched : Option GId
  origin_greenlet : Option GId

/-- The method `SwitchingState::g_switchstack_success` of the switching state `s` of
`target`: the previous current greenlet, and the world where `target` is current. -/
def g_switchstack_success (w : World) (target : GId) (s : SwitchingState) : GId × World :=
  let t := w.threads s.thread_state
  (t.current_greenlet, w.setThread s.thread_state { t with current_greenlet := target })

/-- The method `SwitchingState::g_switchstack` of the switching state `s` of `target`. -/
def g_switchstack (env : Env) (w : World) (target : GId) (s : SwitchingState) :
    switchstack_result_t × World :=
  let current := (w.threads s.thread_state).current_greenlet
  if current = target then (⟨0, some target, some current⟩, w)
  else
    let r := slp_switch env w target
    if r.1 < 0 then (⟨r.1, none, none⟩, release_args r.2 target)
    else
      let o := g_switchstack_success r.2 target s
      (⟨r.1, some target, some o.1⟩, o.2)

/-- The method `ThreadState::set_tracefunc(Py_None)`: the trace function is removed. -/
def clear_tracefunc (w : World) (t : TId) : World :=
  w.setThread t { w.threads t with tracefunc := none }

/-- The function `g_calltrace`: `true` when the trace function returned, `false`
when `PyErrOccurred` is thrown. -/
def g_calltrace (env : Env) (w : World) (tracefunc : PyObj) (event : EventName)
    (origin : Option GId) (target : GId) : Bool × World :=
  let saved_exc := w.pyerr
  let w0 := (w.setErr none).record (.trace event origin target)
  let r := env.call_tracefunc w0 tracefunc event origin target
  let w1 := w0.after r.1
  if r.2 then (true, w1.setErr saved_exc)
  else (false, clear_tracefunc w1 w1.this_thread)

/-- What a call of `g_switch_finish` does. -/
inductive Finish where
  | returns (result : Option PyObj) (w : World) : Finish
  | throws (w : World) : Finish

/-- The method `SwitchingState::g_switch_finish` of the switching state `s` of
`target`, with `err.origin_greenlet` as `origin`. -/
def g_switch_finish (env : Env) (w : World) (target : GId) (s : SwitchingState)
    (origin : Option GId) : Finish :=
  let traced : Bool × World :=
    match (w.threads s.thread_state).tracefunc with
    | some tracefunc =>
      g_calltrace env w tracefunc (if (w.args target).toBool then .switch else .throw)
        origin target
    | none => (true, w)
  if traced.1 && traced.2.pyerr.isNone then
    .returns (result_from_args (traced.2.args target)) (release_args traced.2 target)
  else .throws (release_args traced.2 target)

/-- The first part of `SwitchingState::inner_bootstrap`, up to the test `if (!args)`:
the local `args` at that point, and the world. -/
def inner_bootstrap_enter (env : Env) (w : World) (self : GId) (s : SwitchingState)
    (origin : Option GId) : SwitchingArgs × World :=
  let w1 := w.setStack self (w.greenlets self).stack_state.set_active
  let w2 := w1.setGreenlet self { w1.greenlets self with
    run_callable := none
    main_greenlet_s := some (w1.threads s.thread_state).main_greenlet }
  let args := w2.args self
  let w3 := release_args w2 self
  match (w3.threads s.thread_state).tracefunc with
  | some tracefunc =>
    let r := g_calltrace env w3 tracefunc (if args.toBool then .switch else .throw) origin self
    (if r.1 then args else SwitchingArgs.empty, r.2)
  | none => (args, w3)

/-- What a call of `g_initialstub` does. -/
inductive Stub where
  | returns (err : switchstack_result_t) (w : World) : Stub
  | entered (args : SwitchingArgs) (run : PyObj) (w : World) : Stub
  | throws (w : World) : Stub
  | started_while_in_python (w : World) : Stub
  | null_deref : Stub
  | out_of_fuel : Stub

/-- The method `SwitchingState::g_initialstub` of the switching state of `self`.  On
status `1` the source calls `inner_bootstrap`, which never returns: the result
is then `entered`, with the world at the test `if (!args)` of `inner_bootstrap`. -/
def g_initialstub (env : Env) (fuel : Nat) (w : World) (self : GId) : Stub :=
  match (w.greenlets self).switching_state with
  | none => .null_deref
  | some s =>
    let args := s.switch_args
    let saved := w.pyerr
    let r := env.getattr_run (w.setErr none) self
    match r.2 with
    | none => .throws (w.after r.1)
    | some run =>
      let w1 : World := (w.after r.1).setErr saved
      match check_switch_allowed fuel w1 self s with
      | .out_of_fuel => .out_of_fuel
      | .throws msg => .throws (w1.raise .GreenletError msg)
      | .allowed =>
        if PyGreenlet_STARTED w1 self then
          .started_while_in_python (w1.setArgs self args)
        else
          let current := (w1.threads s.thread_state).current_greenlet
          let w2 := w1.setStack self
            (StackState.start (env.mark w1) current (w1.greenlets current).stack_state)
          let e := g_switchstack env w2 self s
          if e.1.status = 1 then
            let b := inner_bootstrap_enter env e.2 self s e.1.origin_greenlet
            .entered b.1 run b.2
          else if e.1.status < 0 then .returns e.1 (e.2.setStack self StackState.new)
          else .returns e.1 e.2

/-- What a call of `g_switch` does, and what the parent loop of `inner_bootstrap`
ends in.  `returned` and `raised`: the call comes back to its caller with an
object (`none` is the empty `OwnedObject`) or with `PyErrOccurred`.  `resumed`
and `resumed_raise`: the stack was switched into the active greenlet `target`, whose
pending `g_switch` returns the object or throws.  `entered`: the stack was
switched into the new greenlet `self`, which is at the test `if (!args)` of
`inner_bootstrap`.  `fatal`: `Py_FatalError` was called. -/
inductive Outcome where
  | returned (result : Option PyObj) (w : World) : Outcome
  | raised (w : World) : Outcome
  | resumed (target : GId) (result : Option PyObj) (w : World) : Outcome
  | resumed_raise (target : GId) (w : World) : Outcome
  | entered (self : GId) (args : SwitchingArgs) (run : PyObj) (w : World) : Outcome
  | fatal (w : World) : Outcome
  | null_deref : Outcome
  | out_of_fuel : Outcome

/-- The statement `target->switching_state->switch_args <<= this->switch_args` of
`g_switch` (`this` is the switching state of `self`); `none` when
`target->switching_state` is `NULL`. -/
def move_args (w : World) (self target : GId) : Option World :=
  match (w.greenlets target).switching_state with
  | none => none
  | some _ =>
    if target = self then some w
    else some ((w.setArgs target (w.args self)).setArgs self SwitchingArgs.empty)

/-- The end of `g_switch`, after the loop, with the result `err` of the stack
switch. -/
def g_switch_end (env : Env) (w : World) (err : switchstack_result_t) : Outcome :=
  if err.status < 0 then .returned none w
  else match err.the_state_that_switched with
    | none => .null_deref
    | some t =>
      match (w.greenlets t).switching_state with
      | none => .null_deref
      | some s =>
        match g_switch_finish env w t s err.origin_greenlet with
        | .returns result w1 =>
          if err.origin_greenlet = some t then .returned result w1 else .resumed t result w1
        | .throws w1 =>
          if err.origin_greenlet = some t then .raised w1 else .resumed_raise t w1

/-- The branch `if (PyGreenlet_ACTIVE(target))` of the loop of `g_switch`, after the
request has been moved: `g_switchstack` on the switching state of `target`, then
the end of `g_switch`. -/
def resume_target (env : Env) (w : World) (target : GId) : Outcome :=
  match (w.greenlets target).switching_state with
  | none => .null_deref
  | some s =>
    let e := g_switchstack env (w.record (.resume target)) target s
    g_switch_end env e.2 e.1

/-- The branch `if (!PyGreenlet_STARTED(target))` of the loop of `g_switch`, after the
request has been moved: `g_initialstub` on the switching state of `target`;
`retry` is the `continue` of the loop, `self` the greenlet whose switching
state is `this`. -/
def bootstrap_target (env : Env) (fuel : Nat) (retry : World → Outcome) (w : World)
    (self target : GId) : Outcome :=
  match g_initialstub env fuel (w.record (.bootstrap target)) target with
  | .returns err w2 => g_switch_end env w2 err
  | .entered args run w2 => .entered target args run w2
  | .throws w2 => .raised (release_args w2 self)
  | .started_while_in_python w2 => retry w2
  | .null_deref => .null_deref
  | .out_of_fuel => .out_of_fuel

/-- The loop `while (target)` of `g_switch` and what follows it; `self` is the greenlet
whose switching state is `this`. -/
def g_switch_loop (env : Env) : Nat → World → GId → Option GId → Bool → Outcome
  | 0, _, _, _, _ => .out_of_fuel
  | _ + 1, _, _, none, _ => .null_deref
  | fuel + 1, w, self, some target, target_was_me =>
    if PyGreenlet_ACTIVE w target then
      match (if target_was_me then some w else move_args w self target) with
      | none => .null_deref
      | some w1 => resume_target env w1 target
    else if !PyGreenlet_STARTED w target then
      match (if target_was_me then some w
             else move_args (w.ensureSwitchingState target) self target) with
      | none => .null_deref
      | some w1 =>
        bootstrap_target env (fuel + 1)
          (fun w2 => g_switch_loop env fuel w2 self (some target) target_was_me) w1 self target
    else g_switch_loop env fuel w self (w.greenlets target).parent false

/-- The method `SwitchingState::g_switch` of the switching state of `self`. -/
def g_switch (env : Env) (fuel : Nat) (w : World) (self : GId) : Outcome :=
  match (w.greenlets self).switching_state with
  | none => .null_deref
  | some s =>
    match check_switch_allowed fuel w self s with
    | .out_of_fuel => .out_of_fuel
    | .throws msg => .raised (release_args (w.raise .GreenletError msg) self)
    | .allowed => g_switch_loop env fuel w self (some self) true

/-- The function `g_handle_exit`: the object returned, and the world (the pending
error is fetched when it is a `GreenletExit`). -/
def g_handle_exit (w : World) (greenlet_result : Option PyObj) : Option PyObj × World :=
  match greenlet_result with
  | none =>
    match w.pyerr with
    | some e =>
      if e.type.matchesGreenletExit then
        (some (match e.value with | none => PyObj.None | some val => val), w.setErr none)
      else (none, w)
    | none => (none, w)
  | some result => (some (.tuple [result]), w)

/-- The statements of the parent loop of `inner_bootstrap` before the call of
`g_switch`: the parent gets a switching state when it has none, and
`parent->switching_state->args() <<= result`. -/
def offer (w : World) (parent : GId) (result : Option PyObj) : World :=
  ((w.ensureSwitchingState parent).setArgs parent ⟨result, none⟩).record
    (.offer parent result w.pyerr)

/-- The world an outcome ends in. -/
def Outcome.world : Outcome → Option World
  | .returned _ w => some w
  | .raised w => some w
  | .resumed _ _ w => some w
  | .resumed_raise _ w => some w
  | .entered _ _ _ w => some w
  | .fatal w => some w
  | .null_deref => none
  | .out_of_fuel => none

/-- The loop over the parents at the end of `inner_bootstrap`, from the parent
`parent` with the local `result`, followed by `Py_FatalError`.  A call of
`g_switch` that switches the stack never comes back. -/
def parent_loop (env : Env) (sfuel : Nat) : Nat → World → Option GId → Option PyObj → Outcome
  | 0, _, _, _ => .out_of_fuel
  | _ + 1, w, none, _ => .fatal (w.record .fatal)
  | fuel + 1, w, some parent, result =>
    match g_switch env sfuel (offer w parent result) parent with
    | .returned r w2 => parent_loop env sfuel fuel w2 (w2.greenlets parent).parent r
    | .raised w2 => parent_loop env sfuel fuel w2 (w2.greenlets parent).parent none
    | o => o

/-- The statements of `SwitchingState::inner_bootstrap` between the call of `run` and the
parent loop, for the switching state of `self`: `w` is the world and `result`
the local `result` after the call.  The local `result` before the loop, and the
world there. -/
def inner_bootstrap_result (w : World) (self : GId) (result : Option PyObj) :
    Option PyObj × World :=
  let exiting : Bool := match w.pyerr with
    | some e => e.type.matchesGreenletExit
    | none => false
  let r : Option PyObj × World :=
    if result.isNone && exiting && (w.args self).toBool then
      (single_result (result_from_args (w.args self)), (release_args w self).setErr none)
    else (result, w)
  let h := g_handle_exit (release_args r.2 self) r.1
  (h.1, h.2.setStack self (h.2.greenlets self).stack_state.set_inactive)

/-- The second part of `SwitchingState::inner_bootstrap` of the switching state of
`self`, from the test `if (!args)` on.  `args` is the local `args` at that
point; `call` gives the world after `run.PyCall(args.args(), args.kwargs())`
and the object it returned (`none` when it raised, the error is then pending). -/
def inner_bootstrap_exit (env : Env) (sfuel fuel : Nat) (w : World) (self : GId)
    (args : SwitchingArgs) (call : World → World × Option PyObj) : Outcome :=
  let c : World × Option PyObj := if !args.toBool then (w, none) else call w
  let r := inner_bootstrap_result (w.after c.1) self c.2
  parent_loop env sfuel fuel r.2 (r.2.greenlets self).parent r.1

/-- What a call of `kill_greenlet` does.  `suspended`: the stack was switched away
inside `kill()`; the frame of `kill_greenlet` holds `oldparent` and goes on with
`kill_greenlet_return` when control comes back. -/
inductive Kill where
  | returned (w : World) : Kill
  | raised (w : World) : Kill
  | suspended (oldparent : Option GId) (o : Outcome) : Kill
  | null_deref : Kill
  | out_of_fuel : Kill

/-- The method `SwitchingState::kill` of the switching state of `self`. -/
def kill (env : Env) (fuel : Nat) (w : World) (self : GId) : Outcome :=
  g_switch env fuel
    (w.raise .GreenletExit "Killing the greenlet because all references have vanished.") self

/-- The function `kill_greenlet`. -/
def kill_greenlet (env : Env) (fuel : Nat) (w : World) (self : GId) : Kill :=
  if (w.greenlets self).main_greenlet_s = some (w.threads w.this_thread).main_greenlet then
    let oldparent := (w.greenlets self).parent
    let current := (w.threads w.this_thread).current_greenlet
    match kill env fuel (w.setParent self (some current)) self with
    | .returned _ w1 => .returned (w1.setParent self oldparent)
    | .raised w1 => .raised (w1.setParent self oldparent)
    | .null_deref => .null_deref
    | .out_of_fuel => .out_of_fuel
    | o => .suspended oldparent o
  else
    match (w.greenlets self).main_greenlet_s with
    | none => .null_deref
    | some main =>
      match (w.greenlets main).thread_state with
      | some ts =>
        .returned (w.setThread ts { w.threads ts with deleteme := (w.threads ts).deleteme ++ [self] })
      | none => .returned (w.setStack self StackState.new)

/-- The rest of `kill_greenlet` once `kill()` has come back after a stack switch:
`self->parent = oldparent`. -/
def kill_greenlet_return (w : World) (self : GId) (oldparent : Option GId) : World :=
  w.setParent self oldparent

/-- The function `green_switch`, up to the value of `g_switch`; `single_result` is
applied where `g_switch` comes back. -/
def green_switch (env : Env) (fuel : Nat) (w : World) (self : GId) (args : PyObj)
    (kwargs : Option PyObj) : Outcome :=
  match g_switch env fuel ((w.ensureSwitchingState self).setArgs self ⟨some args, kwargs⟩) self with
  | .returned r w1 => .returned (single_result r) w1
  | o => o

/-- The function `throw_greenlet`, with the error of `err_pieces`. -/
def throw_greenlet (env : Env) (fuel : Nat) (w : World) (self : GId) (err_pieces : PyErr) :
    Outcome :=
  let w0 : World := w.setErr (some err_pieces)
  let r : Option PyObj × World :=
    if PyGreenlet_STARTED w0 self && !PyGreenlet_ACTIVE w0 self then
      let h := g_handle_exit w0 none
      (h.1, h.2)
    else (none, w0)
  match g_switch env fuel ((r.2.ensureSwitchingState self).setArgs self ⟨r.1, none⟩) self with
  | .returned x w1 => .returned (single_result x) w1
  | o => o

/-- The value passed to a setter: `NULL`, a greenlet, or another object. -/
inductive Borrowed where
  | null : Borrowed
  | greenlet (g : GId) : Borrowed
  | object (o : PyObj) : Borrowed

/-- The loop of `green_setparent` from `p` with the local `run_info`: `none` is running
out of fuel, `some none` the return at `p == self`, `some (some r)` the end of
the loop with `run_info` equal to `r`. -/
def green_setparent_loop : Nat → World → GId → Option GId → Option GId →
    Option (Option (Option GId))
  | 0, _, _, _, _ => none
  | _ + 1, _, _, none, run_info => some (some run_info)
  | fuel + 1, w, self, some p, _ =>
    if p = self then some none
    else green_setparent_loop fuel w self (w.greenlets p).parent
      (if PyGreenlet_ACTIVE w p then (w.greenlets p).main_greenlet_s else none)

/-- The function `green_setparent`: its return value and the world; `none` is running
out of fuel. -/
def green_setparent (fuel : Nat) (w : World) (self : GId) (nparent : Borrowed) :
    Option (Int × World) :=
  match nparent with
  | .null => some (-1, w.raise .AttributeError "can't delete attribute")
  | .object _ => some (-1, w.raise .TypeError "Expected a greenlet")
  | .greenlet new_parent =>
    match green_setparent_loop fuel w self (some new_parent) none with
    | none => none
    | some none => some (-1, w.raise .ValueError "cyclic parent chain")
    | some (some run_info) =>
      if run_info = none then
        some (-1, w.raise .ValueError "parent must not be garbage collected")
      else if PyGreenlet_STARTED w self && (w.greenlets self).main_greenlet_s != run_info then
        some (-1, w.raise .ValueError "parent cannot be on a different thread")
      else some (0, w.setParent self (some new_parent))

/-- The function `ThreadState_DestroyWithGIL::DestroyWithGIL` on the thread state
`state`: the main greenlet loses its `thread_state`. -/
def DestroyWithGIL (w : World) (state : TId) : World :=
  let main := (w.threads state).main_greenlet
  w.setGreenlet main { w.greenlets main with thread_state := none }

/-- The operator `OwnedObject& operator<<=(OwnedObject& lhs, SwitchingArgs& rhs)` as a
whole: the object assigned to `lhs`, and `rhs` after its `CLEAR()`. -/
def consume_args (rhs : SwitchingArgs) : Option PyObj × SwitchingArgs :=
  (result_from_args rhs, SwitchingArgs.empty)

/-- The method `SwitchingState::inner_bootstrap` of the switching state `s` of `self`,
entered from `g_initialstub` in the world `w` with `origin_greenlet` and `run`.
`PyCall` is the call `run.PyCall(args.args(), args.kwargs())`: the world
afterwards and the object returned (`none` when it raised, the error is then
pending). -/
def inner_bootstrap (env : Env) (sfuel fuel : Nat) (w : World) (self : GId) (s : SwitchingState)
    (origin_greenlet : Option GId) (run : PyObj)
    (PyCall : World → PyObj → Option PyObj → Option PyObj → World × Option PyObj) : Outcome :=
  let b := inner_bootstrap_enter env w self s origin_greenlet
  inner_bootstrap_exit env sfuel fuel b.2 self b.1 (fun w1 => PyCall w1 run b.1.args b.1.kwargs)

/-- The function `green_is_gc`. -/
def green_is_gc (w : World) (self : GId) : Int :=
  let result : Int := if PyGreenlet_MAIN w self || !PyGreenlet_ACTIVE w self then 1 else 0
  match (w.greenlets self).main_greenlet_s with
  | some main => if (w.greenlets main).thread_state.isNone then 1 else result
  | none => result

/-- The expression `!self->main_greenlet_s || !self->main_greenlet_s->thread_state` of
`green_traverse`, `green_clear` and `green_dealloc`. -/
def own_top_frame (w : World) (self : GId) : Bool :=
  match (w.greenlets self).main_greenlet_s with
  | none => true
  | some main => (w.greenlets main).thread_state.isNone

/-- The function `green_traverse`, as far as the flag `visit_top_frame` that it passes
to `python_state.tp_traverse` goes. -/
def green_traverse (w : World) (self : GId) : Bool := own_top_frame w self

/-- The function `green_clear`: the flag it passes to `python_state.tp_clear`, and the
world.  The three `Py_CLEAR` come before the flag is worked out. -/
def green_clear (w : World) (self : GId) : Bool × World :=
  let w1 := w.setGreenlet self
    { w.greenlets self with parent := none, main_greenlet_s := none, run_callable := none }
  (own_top_frame w1 self, w1)

/-- What a call of `green_dealloc` does.  `freed`: `python_state.tp_clear` was called
with the flag and the object was freed.  `resurrected`: the kill left a
reference to the greenlet and the function returned early.  `killing`:
`kill_greenlet` switched the stack; the function goes on with
`green_dealloc_after_kill` when control comes back. -/
inductive Dealloc where
  | freed (own_top_frame : Bool) (w : World) : Dealloc
  | resurrected (w : World) : Dealloc
  | killing (k : Kill) : Dealloc
  | null_deref : Dealloc
  | out_of_fuel : Dealloc

/-- The statements of `green_dealloc` after the kill: the references are cleared,
`python_state.tp_clear(own_top_frame)` is called with the flag worked out
before `main_greenlet_s` is cleared, the stack state and the switching state
are destroyed. -/
def green_dealloc_finish (w : World) (self : GId) : Dealloc :=
  let w1 := w.setGreenlet self { w.greenlets self with run_callable := none, parent := none }
  let flag := own_top_frame w1 self
  .freed flag (w1.setGreenlet self
    { w1.greenlets self with
      main_greenlet_s := none, stack_state := StackState.new, switching_state := none })

/-- The rest of `_green_dealloc_kill_started_non_main_greenlet` once `kill_greenlet` has
come back, and of `green_dealloc` after it: `saved_err` is the error saved
before the kill, `REFCNT` the reference count of `self` at that point (`1` when
nothing took a new reference). -/
def green_dealloc_after_kill (w : World) (self : GId) (saved_err : Option PyErr)
    (REFCNT : Nat) : Dealloc :=
  let leaked : Nat := if REFCNT = 1 ∧ PyGreenlet_ACTIVE w self = true then REFCNT + 1 else REFCNT
  let w1 := w.setErr saved_err
  if leaked - 1 ≠ 0 then .resurrected w1 else green_dealloc_finish w1 self

/-- The function `green_dealloc`; `REFCNT` gives the reference count of `self` after
the kill. -/
def green_dealloc (env : Env) (fuel : Nat) (w : World) (self : GId) (REFCNT : World → Nat) :
    Dealloc :=
  if PyGreenlet_ACTIVE w self && (w.greenlets self).main_greenlet_s.isSome
      && !PyGreenlet_MAIN w self then
    match kill_greenlet env fuel (w.setErr none) self with
    | .returned w1 => green_dealloc_after_kill w1 self w.pyerr (REFCNT w1)
    | .raised w1 => green_dealloc_after_kill (w1.setErr none) self w.pyerr (REFCNT w1)
    | .null_deref => .null_deref
    | .out_of_fuel => .out_of_fuel
    | k => .killing k
  else green_dealloc_finish w self

/-- The cleanup queue `mod_globs.thread_states_to_destroy`, and the number of calls
`Py_AddPendingCall(ThreadState_DestroyNoGIL::DestroyQueueWithGIL, NULL)` made. -/
structure GreenletGlobals where
  thread_states_to_destroy : List TId
  pending_calls : Nat

/-- The method `GreenletGlobals::queue_to_destroy`. -/
def queue_to_destroy (g : GreenletGlobals) (ts : TId) : GreenletGlobals :=
  { g with thread_states_to_destroy := g.thread_states_to_destroy ++ [ts] }

/-- The method `GreenletGlobals::take_next_to_destroy`: the last item, taken off. -/
def take_next_to_destroy (g : GreenletGlobals) : Option TId × GreenletGlobals :=
  (g.thread_states_to_destroy.getLast?,
    { g with thread_states_to_destroy := g.thread_states_to_destroy.dropLast })

/-- The constructor `ThreadState_DestroyNoGIL::ThreadState_DestroyNoGIL`, read as one
step.  `has_main_greenlet` is `ThreadState::has_main_greenlet` and
`PyInterpreterState_Head` says whether `PyInterpreterState_Head()` is not null. -/
def ThreadState_DestroyNoGIL (w : World) (g : GreenletGlobals) (state : Option TId)
    (has_main_greenlet : TId → Bool) (PyInterpreterState_Head : Bool) :
    World × GreenletGlobals :=
  match state with
  | none => (w, g)
  | some st =>
    if has_main_greenlet st then
      let main := (w.threads st).main_greenlet
      let w1 := w.setGreenlet main { w.greenlets main with thread_state := none }
      if !PyInterpreterState_Head then (w1, g)
      else
        let g1 := queue_to_destroy g st
        if g1.thread_states_to_destroy.length = 1 then
          (w1, { g1 with pending_calls := g1.pending_calls + 1 })
        else (w1, g1)
    else (w, g)

/-- The function `ThreadState_DestroyNoGIL::DestroyQueueWithGIL`: the thread states of
the queue are taken from its end and destroyed until it is empty. -/
def DestroyQueueWithGIL (w : World) (g : GreenletGlobals) : World × GreenletGlobals :=
  (g.thread_states_to_destroy.foldr (fun ts w1 => DestroyWithGIL w1 ts) w,
    { g with thread_states_to_destroy := [] })

/-- Modelled from the spec: the native stack of a thread, a byte at every address.  The
methods of `StackState` that copy between it and the heap (`copy_stack_to_heap`,
`copy_heap_to_stack`, called by `slp_save_state` and `slp_restore_state`) are in
`greenlet_greenlet.hpp`, which is not in src. -/
abbrev NativeStack := Nat → Nat

/-- Modelled from the spec: the `n` bytes of the native stack from the address `lo`. -/
def NativeStack.read (mem : NativeStack) (lo n : Nat) : List Nat :=
  (List.range n).map fun i => mem (lo + i)

/-- Modelled from the spec: the native stack after `bytes` were copied to the address
`lo`. -/
def NativeStack.write (mem : NativeStack) (lo : Nat) (bytes : List Nat) : NativeStack :=
  fun a => if lo ≤ a ∧ a < lo + bytes.length then bytes.getD (a - lo) 0 else mem a

/-- Modelled from the spec: `StackState::copy_stack_to_heap` (evictToHeap: "computes how
much of this coroutine's stack still sits on the native stack, copies it into
heapCopy, and records savedBytes"): the bytes of the region between
`stack_start` and `upto`, the position given by the reference region, that are
not in the heap yet are appended to `stack_copy`, and `stack_saved` is the
length of the copy. -/
def StackState.copy_stack_to_heap (s : StackState) (mem : NativeStack) (upto : Nat) :
    StackState :=
  match s.stack_start with
  | none => s
  | some start =>
    if s.stack_saved < upto - start then
      { s with
        stack_copy := s.stack_copy
          ++ mem.read (start + s.stack_saved) (upto - start - s.stack_saved)
        stack_saved := upto - start }
    else s

/-- Modelled from the spec: `StackState::copy_heap_to_stack` (restoreFromHeap: "copies
heapCopy back onto the native stack at start, frees the heap buffer, clears
savedBytes to 0"): the native stack afterwards, and the region. -/
def StackState.copy_heap_to_stack (s : StackState) (mem : NativeStack) :
    NativeStack × StackState :=
  match s.stack_start with
  | none => (mem, { s with stack_copy := [], stack_saved := 0 })
  | some start => (mem.write start s.stack_copy, { s with stack_copy := [], stack_saved := 0 })

/-- What the loop `while (target)` of `g_switch` does.  `exits`: the loop is left, by
`break` or because `target` became null, with the local `err` (which the
statements after the loop read).  `entered`: the stack was switched into the
new greenlet `self`, and `inner_bootstrap` never returns.  `throws`:
`PyErrOccurred` leaves the loop, after `this->release_args()`.  `null_state`:
the loop dereferences `target->switching_state` of the greenlet `target`,
which is null. -/
inductive LoopEnd where
  | exits (err : switchstack_result_t) (w : World) : LoopEnd
  | entered (self : GId) (args : SwitchingArgs) (run : PyObj) (w : World) : LoopEnd
  | throws (w : World) : LoopEnd
  | null_state (target : GId) : LoopEnd
  | out_of_fuel : LoopEnd

/-- The loop `while (target)` of `g_switch` alone, up to the statement that leaves it;
`self` is the greenlet whose switching state is `this`.  The local `err` is
default-constructed (status `0`, null `the_state_that_switched`) and assigned
by `g_switchstack` or `g_initialstub`. -/
def g_switch_loop_end (env : Env) : Nat → World → GId → Option GId → Bool → LoopEnd
  | 0, _, _, _, _ => .out_of_fuel
  | _ + 1, w, _, none, _ => .exits ⟨0, none, none⟩ w
  | fuel + 1, w, self, some target, target_was_me =>
    if PyGreenlet_ACTIVE w target then
      match (if target_was_me then some w else move_args w self target) with
      | none => .null_state target
      | some w1 =>
        match (w1.greenlets target).switching_state with
        | none => .null_state target
        | some s =>
          .exits (g_switchstack env (w1.record (.resume target)) target s).1
            (g_switchstack env (w1.record (.resume target)) target s).2
    else if !PyGreenlet_STARTED w target then
      match (if target_was_me then some w
             else move_args (w.ensureSwitchingState target) self target) with
      | none => .null_state target
      | some w1 =>
        match g_initialstub env (fuel + 1) (w1.record (.bootstrap target)) target with
        | .returns err w2 => .exits err w2
        | .entered args run w2 => .entered target args run w2
        | .throws w2 => .throws (release_args w2 self)
        | .started_while_in_python w2 =>
          g_switch_loop_end env fuel w2 self (some target) target_was_me
        | .null_deref => .null_state target
        | .out_of_fuel => .out_of_fuel
    else g_switch_loop_end env fuel w self (w.greenlets target).parent false

/-- The statements of `g_switch` after its loop: `if (err.status < 0)` and
`err.the_state_that_switched->g_switch_finish(err)`. -/
def LoopEnd.finish (env : Env) : LoopEnd → Outcome
  | .exits err w => g_switch_end env w err
  | .entered self args run w => .entered self args run w
  | .throws w => .raised w
  | .null_state _ => .null_deref
  | .out_of_fuel => .out_of_fuel

/-! ## Specification vocabulary -/

/-- The lineage of a greenlet: `Lineage w g r` holds when following parent links from
`g` over greenlets that have not started ends in `r`: the `main_greenlet_s` of
the first started greenlet, or `NULL` when the links end before one is met. -/
inductive Lineage (w : World) : GId → Option GId → Prop where
  | started (g : GId) : PyGreenlet_STARTED w g = true →
      Lineage w g (w.greenlets g).main_greenlet_s
  | ended (g : GId) : PyGreenlet_STARTED w g = false → (w.greenlets g).parent = none →
      Lineage w g none
  | step (g p : GId) (r : Option GId) : PyGreenlet_STARTED w g = false →
      (w.greenlets g).parent = some p → Lineage w p r → Lineage w g r

/-- The world a call of `g_switch_finish` ends in. -/
def Finish.world : Finish → World
  | .returns _ w => w
  | .throws w => w

/-- The event is a call of the trace function. -/
def Event.isTrace : Event → Bool
  | .trace _ _ _ => true
  | _ => false

/-- The world a call of `g_initialstub` ends in. -/
def Stub.world : Stub → Option World
  | .returns _ w => some w
  | .entered _ _ w => some w
  | .throws w => some w
  | .started_while_in_python w => some w
  | .null_deref => none
  | .out_of_fuel => none

/-- The world a call of `kill_greenlet` ends in. -/
def Kill.world : Kill → Option World
  | .returned w => some w
  | .raised w => some w
  | .suspended _ o => o.world
  | .null_deref => none
  | .out_of_fuel => none

/-- The event is a call of `g_switch` made by the parent loop of `inner_bootstrap`. -/
def Event.isOffer : Event → Bool
  | .offer _ _ _ => true
  | _ => false

/-- The greenlet that an offer was made to. -/
def Event.offered : Event → Option GId
  | .offer parent _ _ => some parent
  | _ => none

/-- The greenlets that offers were made to, in the order of the log. -/
def offers (log : List Event) : List GId := log.filterMap Event.offered

/-- The parent chain from `parent` on, as far as the fuel goes. -/
def ancestors (w : World) : Nat → Option GId → List GId
  | 0, _ => []
  | _ + 1, none => []
  | n + 1, some p => p :: ancestors w n (w.greenlets p).parent

/-- The control left the frame of the caller: the stack was switched. -/
def Outcome.left : Outcome → Bool
  | .resumed _ _ _ => true
  | .resumed_raise _ _ => true
  | .entered _ _ _ _ => true
  | _ => false

/-- The process was terminated by `Py_FatalError`. -/
def Outcome.isFatal : Outcome → Bool
  | .fatal _ => true
  | _ => false

/-- A relation between worlds that every step of `g_switch` respects.  `restack` is
the shape of the steps on the stack state of a greenlet that is being started:
they are only made on a greenlet that had not started. -/
structure Frame (env : Env) (R : World → World → Prop) : Prop where
  refl : ∀ w, R w w
  trans : ∀ a b c, R a b → R b c → R a c
  record : ∀ w e, e.isOffer = false → R w (w.record e)
  setArgs : ∀ w g a, R w (w.setArgs g a)
  ensure : ∀ w g, R w (w.ensureSwitchingState g)
  setErr : ∀ w e, R w (w.setErr e)
  setThread : ∀ w t x, R w (w.setThread t x)
  started : ∀ w g rc m, R w (w.setGreenlet g
    { w.greenlets g with run_callable := rc, main_greenlet_s := m })
  restack : ∀ w w1 g x, PyGreenlet_STARTED w g = false → R w w1 → R w (w1.setStack g x)
  getattr : ∀ w g, R w (w.after (env.getattr_run w g).1)
  trace : ∀ w tf ev o t, R w (w.after (env.call_tracefunc w tf ev o t).1)
  slp : ∀ w t, R w (w.setStacks (env.slp_switch w t).2)

/-- No parent link differs and the log grew by events that are not offers. -/
def Quiet (w w1 : World) : Prop :=
  (∀ g, (w1.greenlets g).parent = (w.greenlets g).parent) ∧
  ∃ evs, w1.log = w.log ++ evs ∧ ∀ e ∈ evs, e.isOffer = false

/-- Code outside the module leaves the parent links alone. -/
def EnvKeepsParents (env : Env) : Prop :=
  (∀ w g h, ((env.getattr_run w g).1.greenlets h).parent = (w.greenlets h).parent) ∧
  (∀ w tf ev o t h,
    ((env.call_tracefunc w tf ev o t).1.greenlets h).parent = (w.greenlets h).parent)

/-- The place of a lifecycle state on the path NOT_STARTED, ACTIVE or SUSPENDED,
DEAD. -/
def Lifecycle.rank : Lifecycle → Nat
  | .NOT_STARTED => 0
  | .ACTIVE => 1
  | .DEAD => 2

/-- Every greenlet stayed where it was or moved forward on the path NOT_STARTED,
ACTIVE or SUSPENDED, DEAD. -/
def Forward (w w1 : World) : Prop :=
  ∀ g, (lifecycle w g).rank ≤ (lifecycle w1 g).rank

/-- Code outside the module moves lifecycle states only forward (it acts on greenlets
through the module), and the platform switch keeps every lifecycle state. -/
def EnvForward (env : Env) : Prop :=
  (∀ w g, Forward w (env.getattr_run w g).1) ∧
  (∀ w tf ev o t, Forward w (env.call_tracefunc w tf ev o t).1) ∧
  (∀ w t g, ((env.slp_switch w t).2 g).lifecycle = (w.greenlets g).stack_state.lifecycle)

/-- The greenlet an outcome resumed and the object its pending `g_switch` returns. -/
def Outcome.delivered : Outcome → Option (GId × Option PyObj)
  | .resumed target result _ => some (target, result)
  | _ => none

/-- A switch to the suspended greenlet `p` goes through in `w`: `p` has a switching
state that passes validation, `p` is active and not the current greenlet, the
platform switch succeeds and no trace function is set. -/
def CanResume (env : Env) (fuel : Nat) (w : World) (p : GId) : Prop :=
  ∃ s, (w.greenlets p).switching_state = some s ∧
    check_switch_allowed fuel w p s = .allowed ∧
    PyGreenlet_ACTIVE w p = true ∧
    (w.threads s.thread_state).current_greenlet ≠ p ∧
    (env.slp_switch (w.record (.resume p)) p).1 = true ∧
    (w.threads s.thread_state).tracefunc = none

/-- Target resolution: `Resolves w g k r` holds when `r` is the first greenlet that is
ACTIVE or NOT_STARTED in the sequence `g`, `g.parent`, `g.parent.parent`, ...,
and the `k` greenlets before it are DEAD (started and not active). -/
inductive Resolves (w : World) : GId → Nat → GId → Prop where
  | here (g : GId) : (PyGreenlet_ACTIVE w g = true ∨ PyGreenlet_STARTED w g = false) →
      Resolves w g 0 g
  | skip (g p r : GId) (k : Nat) : PyGreenlet_ACTIVE w g = false →
      PyGreenlet_STARTED w g = true → (w.greenlets g).parent = some p →
      Resolves w p k r → Resolves w g (k + 1) r

/-- The greenlet reached from `g` by following `n` parent links. -/
def nth_parent (w : World) : Nat → GId → Option GId
  | 0, g => some g
  | n + 1, g =>
    match (w.greenlets g).parent with
    | none => none
    | some p => nth_parent w n p

/-- The verdict of `check_switch_allowed` for a switching state `s`, given the main
greenlet `r` that the lineage of its target ends in. -/
def verdict (w : World) (s : SwitchingState) (r : Option GId) : Check :=
  match r with
  | none => .throws "cannot switch to a garbage collected greenlet"
  | some main_greenlet =>
    match (w.greenlets main_greenlet).thread_state with
    | none => .throws "cannot switch to a different thread (which happens to have exited)"
    | some ts =>
      if ts ≠ s.thread_state
          ∨ (w.greenlets (w.threads w.this_thread).main_greenlet).thread_state ≠ some s.thread_state
      then .throws "cannot switch to a different thread"
      else .allowed

/-- The parent chain of `p` ends in `last` after `k` links: `last` is reached from `p`
by `k` parent links and has no parent. -/
def ChainEnds (w : World) (p : GId) (k : Nat) (last : GId) : Prop :=
  nth_parent w k p = some last ∧ (w.greenlets last).parent = none

/-- The greenlet `self` occurs in the parent chain of `p`, within `k` links. -/
def OccursIn (w : World) (self p : GId) (k : Nat) : Prop :=
  ∃ j, j ≤ k ∧ nth_parent w j p = some self

/-- The conditions under which `p`, whose parent chain ends in `last` after `k` links,
is accepted as the new parent of `self`: `self` does not occur in the chain,
`last` is active with a recorded main greenlet, and `self` has not started or
records that same main greenlet. -/
def Accepts (w : World) (self p : GId) (k : Nat) (last : GId) : Prop :=
  ¬ OccursIn w self p k ∧
  PyGreenlet_ACTIVE w last = true ∧
  (w.greenlets last).main_greenlet_s.isSome = true ∧
  (PyGreenlet_STARTED w self = false ∨
    (w.greenlets self).main_greenlet_s = (w.greenlets last).main_greenlet_s)

/-- No greenlet is reachable from itself through one or more parent links. -/
def Acyclic (w : World) : Prop := ∀ g k, nth_parent w (k + 1) g ≠ some g

/-- The greenlet an outcome resumed and the value that the call of `green_switch` or
`throw_greenlet` pending in it returns: `single_result` of the object its
`g_switch` returns. -/
def Outcome.received : Outcome → Option (GId × Option PyObj)
  | .resumed target result _ => some (target, single_result result)
  | _ => none

/-- The platform switch never fails (it fails only when the heap copy cannot be
allocated). -/
def SlpSucceeds (env : Env) : Prop := ∀ w g, (env.slp_switch w g).1 = true

/-- The trace function returns and changes nothing. -/
def TraceInert (env : Env) : Prop :=
  ∀ w tf ev o t, env.call_tracefunc w tf ev o t = (w, true)

/-- The thread state that the switching state of `g` refers to, once `green_switch`
has made sure that `g` has one: the thread that made it, or the running thread
when it is made now. -/
def switch_thread (w : World) (g : GId) : TId :=
  match (w.greenlets g).switching_state with
  | some s => s.thread_state
  | none => w.this_thread

/-- The trace events a switch into `target` from `origin` makes on a thread whose
trace function is `tracefunc`, for a request `a`. -/
def trace_events (tracefunc : Option PyObj) (a : SwitchingArgs) (origin : Option GId)
    (target : GId) : List Event :=
  match tracefunc with
  | some _ => [.trace (if a.toBool then .switch else .throw) origin target]
  | none => []

/-- The world in `g_initialstub` on `self` after the lookup of `run` and the restore
of the saved error. -/
def after_getattr (env : Env) (w : World) (self : GId) : World :=
  (w.after (env.getattr_run (w.setErr none) self).1).setErr w.pyerr

/-- The world in `inner_bootstrap` of `self` before any code outside the module runs:
the greenlet is set active, `run_callable` is cleared, the main greenlet is
recorded and the request is taken out of the switching state. -/
def entry_world (w : World) (self : GId) (s : SwitchingState) : World :=
  release_args (((w.setStack self (w.greenlets self).stack_state.set_active).setGreenlet self
    { (w.setStack self (w.greenlets self).stack_state.set_active).greenlets self with
      run_callable := none
      main_greenlet_s := some (w.threads s.thread_state).main_greenlet })) self

/-- The trace function is set and raises when `inner_bootstrap` of `self` calls it. -/
def entry_trace_raised (env : Env) (w : World) (self : GId) (s : SwitchingState)
    (origin : Option GId) : Bool :=
  match (w.threads s.thread_state).tracefunc with
  | some tf =>
    !(g_calltrace env (entry_world w self s) tf
      (if (w.args self).toBool then .switch else .throw) origin self).1
  | none => false

/-- What `inner_bootstrap` of `self` does once the body has ended, in the world `w`, with
the object `result` (`none` when an error is pending): the result is worked out
and offered to the parents. -/
def after_body (env : Env) (sfuel fuel : Nat) (w : World) (self : GId)
    (result : Option PyObj) : Outcome :=
  parent_loop env sfuel fuel (inner_bootstrap_result w self result).2
    (((inner_bootstrap_result w self result).2.greenlets self).parent)
    (inner_bootstrap_result w self result).1

/-- The world in which `throw_greenlet` calls `g_switch`: the error of `err_pieces` is
set, a dead greenlet had `g_handle_exit` look at it, and the request of `self`
holds the object that gave, or nothing. -/
def throw_request (w : World) (self : GId) (err_pieces : PyErr) : World :=
  ((if PyGreenlet_STARTED (w.setErr (some err_pieces)) self
        && !PyGreenlet_ACTIVE (w.setErr (some err_pieces)) self
      then g_handle_exit (w.setErr (some err_pieces)) none
      else (none, w.setErr (some err_pieces))).2.ensureSwitchingState self).setArgs self
    ⟨(if PyGreenlet_STARTED (w.setErr (some err_pieces)) self
        && !PyGreenlet_ACTIVE (w.setErr (some err_pieces)) self
      then g_handle_exit (w.setErr (some err_pieces)) none
      else (none, w.setErr (some err_pieces))).1, none⟩

/-- The flag that a call of `green_dealloc` passed to `python_state.tp_clear`. -/
def Dealloc.flag : Dealloc → Option Bool
  | .freed own_top_frame _ => some own_top_frame
  | _ => none

/-- The world in which control is in the suspended greenlet `p` after `g_switch` on `p`
made the platform switch from the world `w`: both calls are in the log, the
platform switch left its stack regions, `p` is the current greenlet of the
thread of its switching state `s`, and the request of `p` is taken. -/
def resume_world (env : Env) (w : World) (p : GId) (s : SwitchingState) : World :=
  release_args ((((w.record (.resume p)).record (.slp_switch p)).setStacks
    (env.slp_switch (w.record (.resume p)) p).2).setThread s.thread_state
    { w.threads s.thread_state with current_greenlet := p }) p

/-- The platform switch keeps the lifecycle state of every greenlet. -/
def SlpKeepsLifecycle (env : Env) : Prop :=
  ∀ w t g, ((env.slp_switch w t).2 g).lifecycle = (w.greenlets g).stack_state.lifecycle

/-- The world in which the greenlet `self` is when `kill()`, called by `kill_greenlet` on
the thread that owns it, has switched into it: its parent is the greenlet that
asked for the kill and `GreenletExit` is pending. -/
def killed_world (env : Env) (w : World) (self : GId) (s : SwitchingState) : World :=
  resume_world env
    ((w.setParent self (some (w.threads w.this_thread).current_greenlet)).raise .GreenletExit
      "Killing the greenlet because all references have vanished.") self s

/-- The kill of a suspended greenlet whose body lets the error propagate: `kill_greenlet`
switches into `self` with `GreenletExit` pending, the body ends with that error
pending, `inner_bootstrap` works out the result and offers it to the parents,
and when that resumes a greenlet, the frame of `kill_greenlet` there assigns the
old parent again.  The greenlet that control comes back to, and the world. -/
def kill_unwinding (env : Env) (fuel : Nat) (w : World) (self : GId) : Option (GId × World) :=
  match kill_greenlet env fuel w self with
  | .suspended oldparent (.resumed_raise g w1) =>
    if g = self then
      match after_body env fuel fuel w1 self none with
      | .resumed back _ w2 => some (back, kill_greenlet_return w2 self oldparent)
      | _ => none
    else none
  | _ => none

/-- The kill of a suspended greenlet whose body lets the error propagate, seen from the
parent: `kill_greenlet` switches into `self` with `GreenletExit` pending, the
body ends with that error pending, and `inner_bootstrap` works out the result
and offers it to the parents.  The greenlet that is resumed, the object that
its pending `g_switch` returns, and the request that `self` held when its body
ended. -/
def kill_delivery (env : Env) (fuel : Nat) (w : World) (self : GId) :
    Option (GId × Option PyObj × SwitchingArgs) :=
  match kill_greenlet env fuel w self with
  | .suspended _ (.resumed_raise g w1) =>
    if g = self then
      match after_body env fuel fuel w1 self none with
      | .resumed back payload _ => some (back, payload, w1.args self)
      | _ => none
    else none
  | _ => none

/-- The parent chain of `g` ends in an active greenlet: following parent links from `g`
reaches a greenlet that is active. -/
def EndsActive (w : World) (g : GId) : Prop :=
  ∃ n m, nth_parent w n g = some m ∧ PyGreenlet_ACTIVE w m = true

/-- The lookup of `run` leaves a state in which the parent chain of the greenlet still
ends in an active greenlet. -/
def LookupKeepsChains (env : Env) : Prop :=
  ∀ w g, EndsActive w g → EndsActive (env.getattr_run w g).1 g

/-- The loop of `g_switch` dereferenced the null `switching_state` of this greenlet. -/
def LoopEnd.nullStateOf : LoopEnd → Option GId
  | .null_state target => some target
  | _ => none

/-- The call dereferenced a null pointer. -/
def Outcome.isNullDeref : Outcome → Bool
  | .null_deref => true
  | _ => false

/-- The world in which `green_switch` on `self` calls `g_switch`: `self` has a switching
state, which holds the arguments. -/
def switch_request (w : World) (self : GId) (args : PyObj) (kwargs : Option PyObj) : World :=
  (w.ensureSwitchingState self).setArgs self ⟨some args, kwargs⟩

/-- The control came back to the caller of `g_switch`, with an object or with an error:
the switch did not go through. -/
def Outcome.cameBack : Outcome → Bool
  | .returned _ _ => true
  | .raised _ => true
  | _ => false

/-- The switches that the parent loop of `inner_bootstrap` attempts, in order: the
greenlet that the payload is offered to, the payload, and what the call of
`g_switch` on that greenlet did.  After a call that came back, the next attempt
is on the parent of that greenlet; after any other call there is none. -/
def attempts (env : Env) (sfuel : Nat) :
    Nat → World → Option GId → Option PyObj → List (GId × Option PyObj × Outcome)
  | 0, _, _, _ => []
  | _ + 1, _, none, _ => []
  | fuel + 1, w, some parent, result =>
    (parent, result, g_switch env sfuel (offer w parent result) parent) ::
      match g_switch env sfuel (offer w parent result) parent with
      | .returned r w2 => attempts env sfuel fuel w2 (w2.greenlets parent).parent r
      | .raised w2 => attempts env sfuel fuel w2 (w2.greenlets parent).parent none
      | _ => []

/-- The local `result` and the world with which `inner_bootstrap` of `self` reaches its
parent loop, when the body was called with `args` in the world `w`. -/
def body_end (w : World) (self : GId) (args : SwitchingArgs)
    (call : World → World × Option PyObj) : Option PyObj × World :=
  inner_bootstrap_result (w.after (if !args.toBool then (w, none) else call w).1) self
    (if !args.toBool then (w, none) else call w).2

/-! ## Example worlds -/

/-- An environment in which the platform switch succeeds and leaves the stack
regions alone, attribute lookup returns `run_callable` or raises `AttributeError`
when there is none, and the trace function returns. -/
def Env.plain : Env where
  slp_switch := fun w _ => (true, fun g => (w.greenlets g).stack_state)
  getattr_run := fun w g =>
    match (w.greenlets g).run_callable with
    | some run => (w, some run)
    | none => (w.raise .AttributeError "run", none)
  call_tracefunc := fun w _ _ _ _ => (w, true)
  mark := fun _ => 4096

/-- The main greenlet `g` of the live thread `t`. -/
def mainG (t : TId) (g : GId) : PyGreenlet :=
  ⟨none, some g, none, ⟨some 1, some CHAR_PTR_MAX, [], 0, none⟩,
    some ⟨SwitchingArgs.empty, t⟩, some t⟩

/-- A started greenlet that has not finished. -/
def activeG (parent main : GId) (t : TId) : PyGreenlet :=
  ⟨some parent, some main, none, ⟨some 500, some 1000, [], 0, some main⟩,
    some ⟨SwitchingArgs.empty, t⟩, none⟩

/-- A greenlet that has finished. -/
def deadG (parent main : GId) (t : TId) : PyGreenlet :=
  ⟨some parent, some main, none, ⟨none, some 1000, [], 0, none⟩,
    some ⟨SwitchingArgs.empty, t⟩, none⟩

/-- A greenlet that has not started. -/
def freshG (parent : Option GId) : PyGreenlet :=
  ⟨parent, none, some (.obj 99), StackState.new, none, none⟩

/-- Two threads: thread `0` with main greenlet `0`, the suspended greenlet `1`, the
dead greenlet `2` (child of `1`) and the new greenlet `3` (child of `2`); thread
`1` with main greenlet `10`.  Thread `0` is running, in its main greenlet. -/
def demo : World where
  greenlets := fun g =>
    match g with
    | 0 => mainG 0 0
    | 1 => activeG 0 0 0
    | 2 => deadG 1 0 0
    | 3 => freshG (some 2)
    | 10 => mainG 1 10
    | _ => freshG none
  threads := fun t =>
    match t with
    | 1 => ⟨10, 10, none, []⟩
    | _ => ⟨0, 0, none, []⟩
  this_thread := 0
  pyerr := none
  log := []

/-- The world `demo` after thread `1` tried to switch to greenlet `3`: the switching
state of `3` was made by thread `1`. -/
def demo_stale : World :=
  demo.setGreenlet 3 { demo.greenlets 3 with switching_state := some ⟨SwitchingArgs.empty, 1⟩ }

/-- The world `demo` while the greenlet `1` runs: it is the current greenlet of
thread `0`. -/
def demo_running : World := demo.setThread 0 ⟨0, 1, none, []⟩

/-- A body that returns the object `42`. -/
def call_returns : World → World × Option PyObj := fun w => (w, some (.obj 42))

/-- A body that ends with `GreenletExit` carrying the object `3`. -/
def call_exits : World → World × Option PyObj :=
  fun w => (w.setErr (some ⟨.GreenletExit, some (.obj 3)⟩), none)

/-- A body that ends with another error. -/
def call_raises : World → World × Option PyObj :=
  fun w => (w.setErr (some ⟨.ValueError, some (.obj 3)⟩), none)

/-- The world `demo` with a pending request on the suspended greenlet `1`. -/
def demo_request : World := demo.setArgs 1 ⟨some (.tuple [.obj 5]), none⟩

/-- The world `demo` with a pending request on the dead greenlet `2`. -/
def demo_request_dead : World := demo.setArgs 2 ⟨some (.tuple [.obj 5]), none⟩

/-- The world `demo` with one more greenlet, `4`, a dead child of the main greenlet,
holding a pending request. -/
def demo_dead_child : World :=
  (demo.setGreenlet 4 (deadG 0 0 0)).setArgs 4 ⟨some (.tuple [.obj 5]), none⟩

/-- A greenlet that has not started and has no `run` attribute. -/
def norunG (parent : Option GId) : PyGreenlet :=
  ⟨parent, none, none, StackState.new, none, none⟩

/-- Thread `0` runs the greenlet `6`, whose parent `5` has not started and has no
`run` attribute; the parent of `5` is the main greenlet `0`. -/
def demo_relay : World :=
  ((demo.setGreenlet 5 (norunG (some 0))).setGreenlet 6 (activeG 5 0 0)).setThread 0
    ⟨0, 6, none, []⟩

/-- The world `demo` with the suspended greenlet `11` of thread `1`, after thread `1`
exited (`DestroyWithGIL`); thread `0` is running. -/
def demo_orphan : World :=
  DestroyWithGIL (demo.setGreenlet 11 (activeG 10 10 1)) 1

/-- The world `demo` after the dead greenlet `2` was cleared by the garbage collector
(`green_clear` clears `main_greenlet_s`); greenlet `3`, not started, is its
child. -/
def demo_collected : World :=
  demo.setGreenlet 2 { demo.greenlets 2 with main_greenlet_s := none }

/-- The world `demo` with the dead greenlet `4`, a child of the main greenlet. -/
def demo_dead_leaf : World := demo.setGreenlet 4 (deadG 0 0 0)

/-- The world `demo` with a trace function set on thread `0`. -/
def demo_traced : World := demo.setThread 0 ⟨0, 0, some (.obj 7), []⟩

/-- The world `demo_traced` with a request for the new greenlet `3`. -/
def demo_traced_request : World :=
  (demo_traced.ensureSwitchingState 3).setArgs 3 ⟨some (.tuple []), none⟩

/-- An environment like `Env.plain` in which the trace function raises. -/
def Env.trace_raises : Env :=
  { Env.plain with call_tracefunc := fun w _ _ _ _ => (w.raise .ValueError "trace", false) }

/-- The world `demo_traced` with a request for the suspended greenlet `1`. -/
def demo_traced_resume : World := demo_traced.setArgs 1 ⟨some (.tuple [.obj 5]), none⟩

/-- The world `demo_traced` with the error `TypeError` pending. -/
def demo_traced_pending : World := demo_traced.raise .TypeError "pending"

/-- A body that returns the object `42`, whatever its arguments. -/
def PyCall_returns : World → PyObj → Option PyObj → Option PyObj → World × Option PyObj :=
  fun w _ _ _ => (w, some (.obj 42))

/-- An environment like `Env.plain` in which the lookup of `run` on a greenlet switches
into that greenlet, which starts, runs and switches back: after the lookup the
greenlet is suspended and its request is used up. -/
def Env.run_lookup_starts : Env :=
  { Env.plain with getattr_run := fun w g =>
      ((release_args w g).setGreenlet g
        { (release_args w g).greenlets g with
          stack_state := ⟨some 500, some 1000, [], 0, some 0⟩
          main_greenlet_s := some 0
          run_callable := none },
       some (.obj 99)) }

/-- The world `demo` with the new greenlet `5`, a child of the main greenlet, and the
dead greenlet `7`, a child of `5`, which holds the request `(5,)` of a call of
`switch` on it. -/
def demo_retry : World :=
  ((demo.setGreenlet 5 (freshG (some 0))).setGreenlet 7 (deadG 5 0 0)).setArgs 7
    ⟨some (.tuple [.obj 5]), none⟩

/-- The world `demo` with the new greenlet `5`, a child of the main greenlet, which
holds the request `(5,)` of a call of `switch` on it. -/
def demo_retry_self : World :=
  ((demo.setGreenlet 5 (freshG (some 0))).ensureSwitchingState 5).setArgs 5
    ⟨some (.tuple [.obj 5]), none⟩

/-- A main greenlet that nothing has switched to yet: `green_create_main` leaves its
`switching_state` null. -/
def newMainG (t : TId) (g : GId) : PyGreenlet :=
  ⟨none, some g, none, ⟨some 1, some CHAR_PTR_MAX, [], 0, none⟩, none, some t⟩

/-- A thread at its start: the main greenlet `0`, which nothing has switched to, is
running; the greenlets `1` (child of `0`) and `2` (child of `1`) are new. -/
def demo_start : World where
  greenlets := fun g =>
    match g with
    | 0 => newMainG 0 0
    | 1 => freshG (some 0)
    | 2 => freshG (some 1)
    | _ => freshG none
  threads := fun _ => ⟨0, 0, none, []⟩
  this_thread := 0
  pyerr := none
  log := []

/-- The run of the module from `demo_start` in which the main greenlet `0` switches to
`1`, the body of `1` switches to `2`, the body of `2` returns `42` (which
resumes `1`), and `1` then assigns `0` as the parent of the dead greenlet `2`.
The world after these calls, in which `1` is running. -/
def demo_reparented : Option World :=
  match green_switch Env.plain 9 demo_start 1 (.tuple []) none with
  | .entered _ _ _ w1 =>
    match green_switch Env.plain 9 w1 2 (.tuple []) none with
    | .entered _ _ _ w2 =>
      match after_body Env.plain 9 9 w2 2 (some (.obj 42)) with
      | .resumed _ _ w3 =>
        match green_setparent 9 w3 2 (.greenlet 0) with
        | some r => if r.1 = 0 then some r.2 else none
        | none => none
      | _ => none
    | _ => none
  | _ => none

/-- The environment `Env.plain` with a platform switch that fails (the heap copy of the
stack cannot be allocated). -/
def Env.slp_fails : Env :=
  { Env.plain with slp_switch := fun w _ => (false, fun g => (w.greenlets g).stack_state) }

/-! ## Basic facts about the world operations -/

@[simp] theorem setGreenlet_greenlets (w : World) (g h : GId) (x : PyGreenlet) :
    (w.setGreenlet g x).greenlets h = if h = g then x else w.greenlets h := by
  simp [World.setGreenlet, Function.update_apply]

@[simp] theorem setGreenlet_threads (w : World) (g : GId) (x : PyGreenlet) :
    (w.setGreenlet g x).threads = w.threads := rfl

@[simp] theorem setGreenlet_this_thread (w : World) (g : GId) (x : PyGreenlet) :
    (w.setGreenlet g x).this_thread = w.this_thread := rfl

@[simp] theorem setGreenlet_pyerr (w : World) (g : GId) (x : PyGreenlet) :
    (w.setGreenlet g x).pyerr = w.pyerr := rfl

@[simp] theorem setGreenlet_log (w : World) (g : GId) (x : PyGreenlet) :
    (w.setGreenlet g x).log = w.log := rfl

@[simp] theorem setThread_greenlets (w : World) (t : TId) (x : ThreadState) :
    (w.setThread t x).greenlets = w.greenlets := rfl

@[simp] theorem setThread_threads (w : World) (t u : TId) (x : ThreadState) :
    (w.setThread t x).threads u = if u = t then x else w.threads u := by
  simp [World.setThread, Function.update_apply]

@[simp] theorem setThread_this_thread (w : World) (t : TId) (x : ThreadState) :
    (w.setThread t x).this_thread = w.this_thread := rfl

@[simp] theorem setThread_pyerr (w : World) (t : TId) (x : ThreadState) :
    (w.setThread t x).pyerr = w.pyerr := rfl

@[simp] theorem setThread_log (w : World) (t : TId) (x : ThreadState) :
    (w.setThread t x).log = w.log := rfl

@[simp] theorem record_greenlets (w : World) (e : Event) : (w.record e).greenlets = w.greenlets := rfl

@[simp] theorem record_threads (w : World) (e : Event) : (w.record e).threads = w.threads := rfl

@[simp] theorem record_this_thread (w : World) (e : Event) :
    (w.record e).this_thread = w.this_thread := rfl

@[simp] theorem record_pyerr (w : World) (e : Event) : (w.record e).pyerr = w.pyerr := rfl

@[simp] theorem record_log (w : World) (e : Event) : (w.record e).log = w.log ++ [e] := rfl

@[simp] theorem raise_greenlets (w : World) (t : ExcType) (m : String) :
    (w.raise t m).greenlets = w.greenlets := rfl

@[simp] theorem raise_threads (w : World) (t : ExcType) (m : String) :
    (w.raise t m).threads = w.threads := rfl

@[simp] theorem raise_this_thread (w : World) (t : ExcType) (m : String) :
    (w.raise t m).this_thread = w.this_thread := rfl

@[simp] theorem raise_pyerr (w : World) (t : ExcType) (m : String) :
    (w.raise t m).pyerr = some ⟨t, some (.str m)⟩ := rfl

@[simp] theorem raise_log (w : World) (t : ExcType) (m : String) : (w.raise t m).log = w.log := rfl

theorem setArgs_greenlets (w : World) (g h : GId) (a : SwitchingArgs) :
    (w.setArgs g a).greenlets h =
      if h = g then
        { w.greenlets g with
          switching_state := (w.greenlets g).switching_state.map fun s => { s with switch_args := a } }
      else w.greenlets h := by
  unfold World.setArgs
  cases hs : (w.greenlets g).switching_state with
  | none =>
    by_cases hg : h = g
    · subst hg; simp [hs]
      cases hx : w.greenlets h; simp_all
    · simp [hg]
  | some s => simp

@[simp] theorem setArgs_threads (w : World) (g : GId) (a : SwitchingArgs) :
    (w.setArgs g a).threads = w.threads := by
  unfold World.setArgs; cases (w.greenlets g).switching_state <;> rfl

@[simp] theorem setArgs_this_thread (w : World) (g : GId) (a : SwitchingArgs) :
    (w.setArgs g a).this_thread = w.this_thread := by
  unfold World.setArgs; cases (w.greenlets g).switching_state <;> rfl

@[simp] theorem setArgs_pyerr (w : World) (g : GId) (a : SwitchingArgs) :
    (w.setArgs g a).pyerr = w.pyerr := by
  unfold World.setArgs; cases (w.greenlets g).switching_state <;> rfl

@[simp] theorem setArgs_log (w : World) (g : GId) (a : SwitchingArgs) :
    (w.setArgs g a).log = w.log := by
  unfold World.setArgs; cases (w.greenlets g).switching_state <;> rfl

@[simp] theorem setArgs_stack (w : World) (g h : GId) (a : SwitchingArgs) :
    ((w.setArgs g a).greenlets h).stack_state = (w.greenlets h).stack_state := by
  rw [setArgs_greenlets]; split
  · next hg => subst hg; rfl
  · rfl

@[simp] theorem setArgs_parent (w : World) (g h : GId) (a : SwitchingArgs) :
    ((w.setArgs g a).greenlets h).parent = (w.greenlets h).parent := by
  rw [setArgs_greenlets]; split
  · next hg => subst hg; rfl
  · rfl

@[simp] theorem setArgs_main (w : World) (g h : GId) (a : SwitchingArgs) :
    ((w.setArgs g a).greenlets h).main_greenlet_s = (w.greenlets h).main_greenlet_s := by
  rw [setArgs_greenlets]; split
  · next hg => subst hg; rfl
  · rfl

@[simp] theorem setArgs_thread_state (w : World) (g h : GId) (a : SwitchingArgs) :
    ((w.setArgs g a).greenlets h).thread_state = (w.greenlets h).thread_state := by
  rw [setArgs_greenlets]; split
  · next hg => subst hg; rfl
  · rfl

@[simp] theorem setStack_parent (w : World) (g : GId) (x : StackState) (h : GId) :
    ((w.setStack g x).greenlets h).parent = (w.greenlets h).parent := by
  simp only [World.setStack, setGreenlet_greenlets]; split
  · next hg => subst hg; rfl
  · rfl

@[simp] theorem setStack_main_greenlet_s (w : World) (g : GId) (x : StackState) (h : GId) :
    ((w.setStack g x).greenlets h).main_greenlet_s = (w.greenlets h).main_greenlet_s := by
  simp only [World.setStack, setGreenlet_greenlets]; split
  · next hg => subst hg; rfl
  · rfl

@[simp] theorem setStack_run_callable (w : World) (g : GId) (x : StackState) (h : GId) :
    ((w.setStack g x).greenlets h).run_callable = (w.greenlets h).run_callable := by
  simp only [World.setStack, setGreenlet_greenlets]; split
  · next hg => subst hg; rfl
  · rfl

@[simp] theorem setStack_switching_state (w : World) (g : GId) (x : StackState) (h : GId) :
    ((w.setStack g x).greenlets h).switching_state = (w.greenlets h).switching_state := by
  simp only [World.setStack, setGreenlet_greenlets]; split
  · next hg => subst hg; rfl
  · rfl

@[simp] theorem setStack_thread_state (w : World) (g : GId) (x : StackState) (h : GId) :
    ((w.setStack g x).greenlets h).thread_state = (w.greenlets h).thread_state := by
  simp only [World.setStack, setGreenlet_greenlets]; split
  · next hg => subst hg; rfl
  · rfl

@[simp] theorem setStack_stack_state (w : World) (g : GId) (x : StackState) (h : GId) :
    ((w.setStack g x).greenlets h).stack_state = if h = g then x else (w.greenlets h).stack_state := by
  simp only [World.setStack, setGreenlet_greenlets]; split <;> rfl

@[simp] theorem setParent_main_greenlet_s (w : World) (g : GId) (x : Option GId) (h : GId) :
    ((w.setParent g x).greenlets h).main_greenlet_s = (w.greenlets h).main_greenlet_s := by
  simp only [World.setParent, setGreenlet_greenlets]; split
  · next hg => subst hg; rfl
  · rfl

@[simp] theorem setParent_run_callable (w : World) (g : GId) (x : Option GId) (h : GId) :
    ((w.setParent g x).greenlets h).run_callable = (w.greenlets h).run_callable := by
  simp only [World.setParent, setGreenlet_greenlets]; split
  · next hg => subst hg; rfl
  · rfl

@[simp] theorem setParent_stack_state (w : World) (g : GId) (x : Option GId) (h : GId) :
    ((w.setParent g x).greenlets h).stack_state = (w.greenlets h).stack_state := by
  simp only [World.setParent, setGreenlet_greenlets]; split
  · next hg => subst hg; rfl
  · rfl

@[simp] theorem setParent_switching_state (w : World) (g : GId) (x : Option GId) (h : GId) :
    ((w.setParent g x).greenlets h).switching_state = (w.greenlets h).switching_state := by
  simp only [World.setParent, setGreenlet_greenlets]; split
  · next hg => subst hg; rfl
  · rfl

@[simp] theorem setParent_thread_state (w : World) (g : GId) (x : Option GId) (h : GId) :
    ((w.setParent g x).greenlets h).thread_state = (w.greenlets h).thread_state := by
  simp only [World.setParent, setGreenlet_greenlets]; split
  · next hg => subst hg; rfl
  · rfl

@[simp] theorem setParent_parent (w : World) (g : GId) (x : Option GId) (h : GId) :
    ((w.setParent g x).greenlets h).parent = if h = g then x else (w.greenlets h).parent := by
  simp only [World.setParent, setGreenlet_greenlets]; split <;> rfl

@[simp] theorem setArgs_run_callable (w : World) (g : GId) (a : SwitchingArgs) (h : GId) :
    ((w.setArgs g a).greenlets h).run_callable = (w.greenlets h).run_callable := by
  rw [setArgs_greenlets]; split
  · next hg => subst hg; rfl
  · rfl

@[simp] theorem ensure_parent (w : World) (g : GId) (h : GId) :
    ((w.ensureSwitchingState g).greenlets h).parent = (w.greenlets h).parent := by
  unfold World.ensureSwitchingState
  cases (w.greenlets g).switching_state with
  | some _ => rfl
  | none =>
    simp only [setGreenlet_greenlets]; split
    · next hg => subst hg; rfl
    · rfl

@[simp] theorem ensure_main_greenlet_s (w : World) (g : GId) (h : GId) :
    ((w.ensureSwitchingState g).greenlets h).main_greenlet_s = (w.greenlets h).main_greenlet_s := by
  unfold World.ensureSwitchingState
  cases (w.greenlets g).switching_state with
  | some _ => rfl
  | none =>
    simp only [setGreenlet_greenlets]; split
    · next hg => subst hg; rfl
    · rfl

@[simp] theorem ensure_run_callable (w : World) (g : GId) (h : GId) :
    ((w.ensureSwitchingState g).greenlets h).run_callable = (w.greenlets h).run_callable := by
  unfold World.ensureSwitchingState
  cases (w.greenlets g).switching_state with
  | some _ => rfl
  | none =>
    simp only [setGreenlet_greenlets]; split
    · next hg => subst hg; rfl
    · rfl

@[simp] theorem ensure_stack_state (w : World) (g : GId) (h : GId) :
    ((w.ensureSwitchingState g).greenlets h).stack_state = (w.greenlets h).stack_state := by
  unfold World.ensureSwitchingState
  cases (w.greenlets g).switching_state with
  | some _ => rfl
  | none =>
    simp only [setGreenlet_greenlets]; split
    · next hg => subst hg; rfl
    · rfl

@[simp] theorem ensure_thread_state (w : World) (g : GId) (h : GId) :
    ((w.ensureSwitchingState g).greenlets h).thread_state = (w.greenlets h).thread_state := by
  unfold World.ensureSwitchingState
  cases (w.greenlets g).switching_state with
  | some _ => rfl
  | none =>
    simp only [setGreenlet_greenlets]; split
    · next hg => subst hg; rfl
    · rfl

@[simp] theorem release_args_parent (w : World) (g : GId) (h : GId) :
    ((release_args w g).greenlets h).parent = (w.greenlets h).parent := by
  simp [release_args]

@[simp] theorem release_args_main_greenlet_s (w : World) (g : GId) (h : GId) :
    ((release_args w g).greenlets h).main_greenlet_s = (w.greenlets h).main_greenlet_s := by
  simp [release_args]

@[simp] theorem release_args_run_callable (w : World) (g : GId) (h : GId) :
    ((release_args w g).greenlets h).run_callable = (w.greenlets h).run_callable := by
  simp [release_args]

@[simp] theorem release_args_stack_state (w : World) (g : GId) (h : GId) :
    ((release_args w g).greenlets h).stack_state = (w.greenlets h).stack_state := by
  simp [release_args]

@[simp] theorem release_args_thread_state (w : World) (g : GId) (h : GId) :
    ((release_args w g).greenlets h).thread_state = (w.greenlets h).thread_state := by
  simp [release_args]

@[simp] theorem setStack_threads (w : World) (g : GId) (x : StackState) : (w.setStack g x).threads = w.threads := rfl

@[simp] theorem setStack_this_thread (w : World) (g : GId) (x : StackState) : (w.setStack g x).this_thread = w.this_thread := rfl

@[simp] theorem setStack_pyerr (w : World) (g : GId) (x : StackState) : (w.setStack g x).pyerr = w.pyerr := rfl

@[simp] theorem setStack_log (w : World) (g : GId) (x : StackState) : (w.setStack g x).log = w.log := rfl

@[simp] theorem setParent_threads (w : World) (g : GId) (x : Option GId) : (w.setParent g x).threads = w.threads := rfl

@[simp] theorem setParent_this_thread (w : World) (g : GId) (x : Option GId) : (w.setParent g x).this_thread = w.this_thread := rfl

@[simp] theorem setParent_pyerr (w : World) (g : GId) (x : Option GId) : (w.setParent g x).pyerr = w.pyerr := rfl

@[simp] theorem setParent_log (w : World) (g : GId) (x : Option GId) : (w.setParent g x).log = w.log := rfl

@[simp] theorem ensure_threads (w : World) (g : GId) :
    (w.ensureSwitchingState g).threads = w.threads := by
  unfold World.ensureSwitchingState; cases (w.greenlets g).switching_state <;> rfl

@[simp] theorem release_args_threads (w : World) (g : GId) :
    (release_args w g).threads = w.threads := by
  simp [release_args]

@[simp] theorem setStacks_threads (w : World) (f : GId → StackState) :
    (w.setStacks f).threads = w.threads := rfl

@[simp] theorem ensure_this_thread (w : World) (g : GId) :
    (w.ensureSwitchingState g).this_thread = w.this_thread := by
  unfold World.ensureSwitchingState; cases (w.greenlets g).switching_state <;> rfl

@[simp] theorem release_args_this_thread (w : World) (g : GId) :
    (release_args w g).this_thread = w.this_thread := by
  simp [release_args]

@[simp] theorem setStacks_this_thread (w : World) (f : GId → StackState) :
    (w.setStacks f).this_thread = w.this_thread := rfl

@[simp] theorem ensure_pyerr (w : World) (g : GId) :
    (w.ensureSwitchingState g).pyerr = w.pyerr := by
  unfold World.ensureSwitchingState; cases (w.greenlets g).switching_state <;> rfl

@[simp] theorem release_args_pyerr (w : World) (g : GId) :
    (release_args w g).pyerr = w.pyerr := by
  simp [release_args]

@[simp] theorem setStacks_pyerr (w : World) (f : GId → StackState) :
    (w.setStacks f).pyerr = w.pyerr := rfl

@[simp] theorem ensure_log (w : World) (g : GId) :
    (w.ensureSwitchingState g).log = w.log := by
  unfold World.ensureSwitchingState; cases (w.greenlets g).switching_state <;> rfl

@[simp] theorem release_args_log (w : World) (g : GId) :
    (release_args w g).log = w.log := by
  simp [release_args]

@[simp] theorem setStacks_log (w : World) (f : GId → StackState) :
    (w.setStacks f).log = w.log := rfl

@[simp] theorem setErr_greenlets (w : World) (e : Option PyErr) : (w.setErr e).greenlets = w.greenlets := rfl

@[simp] theorem setErr_threads (w : World) (e : Option PyErr) : (w.setErr e).threads = w.threads := rfl

@[simp] theorem setErr_this_thread (w : World) (e : Option PyErr) : (w.setErr e).this_thread = w.this_thread := rfl

@[simp] theorem setErr_log (w : World) (e : Option PyErr) : (w.setErr e).log = w.log := rfl

@[simp] theorem setErr_pyerr (w : World) (e : Option PyErr) : (w.setErr e).pyerr = e := rfl

@[simp] theorem setStacks_parent (w : World) (f : GId → StackState) (h : GId) :
    ((w.setStacks f).greenlets h).parent = (w.greenlets h).parent := rfl

@[simp] theorem setStacks_main_greenlet_s (w : World) (f : GId → StackState) (h : GId) :
    ((w.setStacks f).greenlets h).main_greenlet_s = (w.greenlets h).main_greenlet_s := rfl

@[simp] theorem setStacks_run_callable (w : World) (f : GId → StackState) (h : GId) :
    ((w.setStacks f).greenlets h).run_callable = (w.greenlets h).run_callable := rfl

@[simp] theorem setStacks_switching_state (w : World) (f : GId → StackState) (h : GId) :
    ((w.setStacks f).greenlets h).switching_state = (w.greenlets h).switching_state := rfl

@[simp] theorem setStacks_thread_state (w : World) (f : GId → StackState) (h : GId) :
    ((w.setStacks f).greenlets h).thread_state = (w.greenlets h).thread_state := rfl

@[simp] theorem setStacks_stack_state (w : World) (f : GId → StackState) (h : GId) :
    ((w.setStacks f).greenlets h).stack_state = f h := rfl

@[simp] theorem after_greenlets (w w1 : World) : (w.after w1).greenlets = w1.greenlets := rfl

@[simp] theorem after_threads (w w1 : World) : (w.after w1).threads = w1.threads := rfl

@[simp] theorem after_pyerr (w w1 : World) : (w.after w1).pyerr = w1.pyerr := rfl

@[simp] theorem after_this_thread (w w1 : World) : (w.after w1).this_thread = w.this_thread := rfl

@[simp] theorem after_log (w w1 : World) : (w.after w1).log = w.log := rfl

@[simp] theorem after_self (w : World) : w.after w = w := rfl

@[simp] theorem clear_tracefunc_greenlets (w : World) (t : TId) :
    (clear_tracefunc w t).greenlets = w.greenlets := rfl

@[simp] theorem clear_tracefunc_this_thread (w : World) (t : TId) :
    (clear_tracefunc w t).this_thread = w.this_thread := rfl

@[simp] theorem clear_tracefunc_pyerr (w : World) (t : TId) :
    (clear_tracefunc w t).pyerr = w.pyerr := rfl

@[simp] theorem clear_tracefunc_log (w : World) (t : TId) :
    (clear_tracefunc w t).log = w.log := rfl

theorem ensure_switching_state (w : World) (g : GId) :
    ∃ s, ((w.ensureSwitchingState g).greenlets g).switching_state = some s ∧
      (∀ s0, (w.greenlets g).switching_state = some s0 → s = s0) ∧
      ((w.greenlets g).switching_state = none → s = ⟨SwitchingArgs.empty, w.this_thread⟩) := by
  unfold World.ensureSwitchingState
  cases hs : (w.greenlets g).switching_state with
  | some s0 => exact ⟨s0, by simp [hs], by simp, by simp⟩
  | none => exact ⟨⟨SwitchingArgs.empty, w.this_thread⟩, by simp, by simp, by simp⟩

theorem ensure_switching_state_other (w : World) (g h : GId) (hne : h ≠ g) :
    ((w.ensureSwitchingState g).greenlets h).switching_state = (w.greenlets h).switching_state := by
  unfold World.ensureSwitchingState
  cases (w.greenlets g).switching_state with
  | some _ => rfl
  | none => simp [hne]

theorem setArgs_switching_state (w : World) (g h : GId) (a : SwitchingArgs) :
    ((w.setArgs g a).greenlets h).switching_state =
      if h = g then (w.greenlets g).switching_state.map fun s => { s with switch_args := a }
      else (w.greenlets h).switching_state := by
  rw [setArgs_greenlets]; split <;> rfl

theorem args_congr (w w' : World) (g : GId)
    (h : (w'.greenlets g).switching_state = (w.greenlets g).switching_state) :
    w'.args g = w.args g := by
  simp [World.args, h]

theorem setArgs_args (w : World) (g : GId) (a : SwitchingArgs) (s : SwitchingState)
    (hs : (w.greenlets g).switching_state = some s) : (w.setArgs g a).args g = a := by
  simp [World.args, setArgs_greenlets, hs]

theorem release_args_empty (w : World) (g : GId) : (release_args w g).args g = SwitchingArgs.empty := by
  unfold release_args
  cases hs : (w.greenlets g).switching_state with
  | none => simp [World.args, World.setArgs, hs]
  | some s => exact setArgs_args w g _ s hs

/-! ## Validation of a switch -/

theorem lineage_of_find (w : World) : ∀ (fuel : Nat) (g : GId) (r : Option GId),
    find_and_borrow_main_greenlet_in_lineage fuel w g = some r → Lineage w g r := by
  intro fuel
  induction fuel with
  | zero => intro g r h; simp [find_and_borrow_main_greenlet_in_lineage] at h
  | succ n ih =>
    intro g r h
    unfold find_and_borrow_main_greenlet_in_lineage at h
    by_cases hs : PyGreenlet_STARTED w g = true
    · simp [hs] at h
      subst h
      exact Lineage.started g hs
    · have hs' : PyGreenlet_STARTED w g = false := by simpa using hs
      simp [hs'] at h
      cases hp : (w.greenlets g).parent with
      | none =>
        simp [hp] at h
        subst h
        exact Lineage.ended g hs' hp
      | some p =>
        simp [hp] at h
        exact Lineage.step g p r hs' hp (ih p r h)

theorem find_of_lineage (w : World) (g : GId) (r : Option GId) (h : Lineage w g r) :
    ∃ N, ∀ fuel, N ≤ fuel → find_and_borrow_main_greenlet_in_lineage fuel w g = some r := by
  induction h with
  | started g hs =>
    refine ⟨1, fun fuel hf => ?_⟩
    obtain ⟨n, rfl⟩ : ∃ n, fuel = n + 1 := ⟨fuel - 1, by omega⟩
    simp [find_and_borrow_main_greenlet_in_lineage, hs]
  | ended g hs hp =>
    refine ⟨1, fun fuel hf => ?_⟩
    obtain ⟨n, rfl⟩ : ∃ n, fuel = n + 1 := ⟨fuel - 1, by omega⟩
    simp [find_and_borrow_main_greenlet_in_lineage, hs, hp]
  | step g p r hs hp _ ih =>
    obtain ⟨N, hN⟩ := ih
    refine ⟨N + 1, fun fuel hf => ?_⟩
    obtain ⟨n, rfl⟩ : ∃ n, fuel = n + 1 := ⟨fuel - 1, by omega⟩
    simp [find_and_borrow_main_greenlet_in_lineage, hs, hp]
    exact hN n (by omega)

theorem find_mono (w : World) : ∀ (fuel : Nat) (g : GId) (r : Option GId),
    find_and_borrow_main_greenlet_in_lineage fuel w g = some r →
    ∀ fuel', fuel ≤ fuel' → find_and_borrow_main_greenlet_in_lineage fuel' w g = some r := by
  intro fuel
  induction fuel with
  | zero => intro g r h; simp [find_and_borrow_main_greenlet_in_lineage] at h
  | succ n ih =>
    intro g r h fuel' hf
    obtain ⟨m, rfl⟩ : ∃ m, fuel' = m + 1 := ⟨fuel' - 1, by omega⟩
    unfold find_and_borrow_main_greenlet_in_lineage at h ⊢
    by_cases hs : PyGreenlet_STARTED w g = true
    · simpa [hs] using h
    · have hs' : PyGreenlet_STARTED w g = false := by simpa using hs
      simp only [hs', Bool.false_eq_true, if_false] at h ⊢
      cases hp : (w.greenlets g).parent with
      | none => simpa [hp] using h
      | some p =>
        simp only [hp] at h ⊢
        exact ih p r h m (by omega)

theorem check_switch_allowed_of_find (fuel : Nat) (w : World) (target : GId) (s : SwitchingState)
    (r : Option GId) (h : find_and_borrow_main_greenlet_in_lineage fuel w target = some r) :
    check_switch_allowed fuel w target s = verdict w s r := by
  unfold check_switch_allowed verdict
  rw [h]
  cases r <;> rfl

/-- The verdicts of `check_switch_allowed` for any switching state `s`, in the order
they are tested: the comparisons of the last test are with `s.thread_state`, the
thread state captured by the constructor of the switching state.  With enough
fuel the check gives a verdict whenever the target has a lineage. -/
theorem check_switch_allowed_verdicts (w : World) (target : GId) (s : SwitchingState) :
    (∀ r, Lineage w target r →
      ∃ N, ∀ fuel, N ≤ fuel → check_switch_allowed fuel w target s ≠ .out_of_fuel) ∧
    (∀ fuel, check_switch_allowed fuel w target s ≠ .out_of_fuel →
      ∃ r, Lineage w target r ∧
        (check_switch_allowed fuel w target s
            = .throws "cannot switch to a garbage collected greenlet" ↔ r = none) ∧
        (check_switch_allowed fuel w target s
            = .throws "cannot switch to a different thread (which happens to have exited)" ↔
          ∃ m, r = some m ∧ (w.greenlets m).thread_state = none) ∧
        (check_switch_allowed fuel w target s = .throws "cannot switch to a different thread" ↔
          ∃ m ts, r = some m ∧ (w.greenlets m).thread_state = some ts ∧
            (ts ≠ s.thread_state ∨
              (w.greenlets (w.threads w.this_thread).main_greenlet).thread_state
                ≠ some s.thread_state)) ∧
        (check_switch_allowed fuel w target s = .allowed ↔
          ∃ m, r = some m ∧ (w.greenlets m).thread_state = some s.thread_state ∧
            (w.greenlets (w.threads w.this_thread).main_greenlet).thread_state
              = some s.thread_state)) := by
  constructor
  · intro r hr
    obtain ⟨N, hN⟩ := find_of_lineage w target r hr
    refine ⟨N, fun fuel hf => ?_⟩
    rw [check_switch_allowed_of_find fuel w target s r (hN fuel hf)]
    cases r with
    | none => simp [verdict]
    | some m =>
      cases hts : (w.greenlets m).thread_state with
      | none => simp [verdict, hts]
      | some ts => simp only [verdict, hts]; split <;> simp
  · intro fuel h
    cases hf : find_and_borrow_main_greenlet_in_lineage fuel w target with
    | none => simp [check_switch_allowed, hf] at h
    | some r =>
      refine ⟨r, lineage_of_find w fuel target r hf, ?_⟩
      rw [check_switch_allowed_of_find fuel w target s r hf]
      cases r with
      | none => simp [verdict]
      | some m =>
        cases hts : (w.greenlets m).thread_state with
        | none => simp [verdict, hts]
        | some ts =>
          simp only [verdict, hts]
          by_cases hc : ts ≠ s.thread_state ∨
              (w.greenlets (w.threads w.this_thread).main_greenlet).thread_state
                ≠ some s.thread_state
          · rw [if_pos hc]
            refine ⟨by simp, by simp [hts], ?_, ?_⟩
            · simp [hts, hc]
            · constructor
              · intro h0; simp at h0
              · rintro ⟨m', hm', h1, h2⟩
                simp only [Option.some.injEq] at hm'
                subst hm'
                rw [hts] at h1
                simp only [Option.some.injEq] at h1
                rcases hc with hc | hc
                · exact absurd h1 hc
                · exact absurd h2 hc
          · rw [if_neg hc]
            refine ⟨by simp, by simp [hts], ?_, ?_⟩
            · constructor
              · intro h0; simp at h0
              · rintro ⟨m', ts', hm', h1, h2⟩
                simp only [Option.some.injEq] at hm'
                subst hm'
                rw [hts] at h1
                simp only [Option.some.injEq] at h1
                subst h1
                exact absurd h2 hc
            · simp only [true_iff]
              simp only [not_or, not_not] at hc
              exact ⟨m, rfl, by rw [hts, hc.1], hc.2⟩

/-- C3 (as amended): on a switching state made by the calling thread,
`check_switch_allowed` throws exactly in these cases, tested in this order, and
nothing otherwise: (a) the lineage of the target ends without a started
greenlet, or the first started greenlet records no main greenlet; (b) that main
greenlet has a null `thread_state`; (c) the owning thread of that main greenlet
differs from the calling thread, or the main greenlet of the calling thread no
longer records the state of the calling thread.  With enough fuel the check
gives a verdict whenever the target has a lineage. -/
theorem check_switch_allowed_cases (w : World) (target : GId) (s : SwitchingState)
    (hs : s.thread_state = w.this_thread) :
    (∀ r, Lineage w target r →
      ∃ N, ∀ fuel, N ≤ fuel → check_switch_allowed fuel w target s ≠ .out_of_fuel) ∧
    (∀ fuel, check_switch_allowed fuel w target s ≠ .out_of_fuel →
      ∃ r, Lineage w target r ∧
        (check_switch_allowed fuel w target s
            = .throws "cannot switch to a garbage collected greenlet" ↔ r = none) ∧
        (check_switch_allowed fuel w target s
            = .throws "cannot switch to a different thread (which happens to have exited)" ↔
          ∃ m, r = some m ∧ (w.greenlets m).thread_state = none) ∧
        (check_switch_allowed fuel w target s = .throws "cannot switch to a different thread" ↔
          ∃ m ts, r = some m ∧ (w.greenlets m).thread_state = some ts ∧
            (ts ≠ w.this_thread ∨
              (w.greenlets (w.threads w.this_thread).main_greenlet).thread_state
                ≠ some w.this_thread)) ∧
        (check_switch_allowed fuel w target s = .allowed ↔
          ∃ m, r = some m ∧ (w.greenlets m).thread_state = some w.this_thread ∧
            (w.greenlets (w.threads w.this_thread).main_greenlet).thread_state
              = some w.this_thread)) := by
  have h := check_switch_allowed_verdicts w target s
  rw [hs] at h
  exact h

/-- C3, witness: in `demo` the switching state made by thread `0` for greenlet `3`
is checked on thread `0`. -/
theorem check_switch_allowed_cases_witness :
    (⟨SwitchingArgs.empty, 0⟩ : SwitchingState).thread_state = demo.this_thread ∧
    check_switch_allowed 5 demo 3 ⟨SwitchingArgs.empty, 0⟩ = .allowed ∧
    ∃ r, Lineage demo 3 r ∧
      (check_switch_allowed 5 demo 3 ⟨SwitchingArgs.empty, 0⟩
          = .throws "cannot switch to a garbage collected greenlet" ↔ r = none) ∧
      (check_switch_allowed 5 demo 3 ⟨SwitchingArgs.empty, 0⟩
          = .throws "cannot switch to a different thread (which happens to have exited)" ↔
        ∃ m, r = some m ∧ (demo.greenlets m).thread_state = none) ∧
      (check_switch_allowed 5 demo 3 ⟨SwitchingArgs.empty, 0⟩
          = .throws "cannot switch to a different thread" ↔
        ∃ m ts, r = some m ∧ (demo.greenlets m).thread_state = some ts ∧
          (ts ≠ demo.this_thread ∨
            (demo.greenlets (demo.threads demo.this_thread).main_greenlet).thread_state
              ≠ some demo.this_thread)) ∧
      (check_switch_allowed 5 demo 3 ⟨SwitchingArgs.empty, 0⟩ = .allowed ↔
        ∃ m, r = some m ∧ (demo.greenlets m).thread_state = some demo.this_thread ∧
          (demo.greenlets (demo.threads demo.this_thread).main_greenlet).thread_state
            = some demo.this_thread) :=
  ⟨rfl, by decide,
    (check_switch_allowed_cases demo 3 ⟨SwitchingArgs.empty, 0⟩ rfl).2 5 (by decide)⟩

/-- C3, counterexample to the claim as stated: in `demo_collected` the parent links
of greenlet `3` do meet a started greenlet, its parent `2`, and no main greenlet
with a null or foreign `thread_state` is recorded on it; `check_switch_allowed`
still throws "cannot switch to a garbage collected greenlet", because the
collector cleared the `main_greenlet_s` of `2`. -/
theorem check_switch_allowed_collected_parent_refused :
    (demo_collected.greenlets 3).parent = some 2 ∧
    PyGreenlet_STARTED demo_collected 3 = false ∧
    PyGreenlet_STARTED demo_collected 2 = true ∧
    (demo_collected.greenlets 2).main_greenlet_s = none ∧
    check_switch_allowed 5 demo_collected 3 ⟨SwitchingArgs.empty, 0⟩
      = .throws "cannot switch to a garbage collected greenlet" := by
  refine ⟨rfl, by decide, by decide, rfl, by decide⟩

/-- A switching state made by another thread is refused on the owning thread too:
in `demo_stale` the lineage of greenlet `3` has the main greenlet `0`, whose
`thread_state` is the calling thread `0`, and `check_switch_allowed` still
throws "cannot switch to a different thread", because the switching state of
`3` was made by thread `1` (an earlier, refused `switch` from thread `1`
allocated it). -/
theorem check_switch_allowed_same_thread_refused :
    find_and_borrow_main_greenlet_in_lineage 5 demo_stale 3 = some (some 0) ∧
    (demo_stale.greenlets 0).thread_state = some demo_stale.this_thread ∧
    (demo_stale.greenlets 3).switching_state = some ⟨SwitchingArgs.empty, 1⟩ ∧
    check_switch_allowed 5 demo_stale 3 ⟨SwitchingArgs.empty, 1⟩
      = .throws "cannot switch to a different thread" := by
  refine ⟨by decide, by decide, rfl, by decide⟩

/-- How a switching state made by another thread comes about: thread `1` calls
`switch` on greenlet `3` of thread `0`, which allocates the switching state of
`3` on thread `1` and is refused; when thread `0` then calls `switch` on its own
greenlet `3`, that call is refused too. -/
theorem stale_switching_state_reachable :
    ∃ w1, green_switch Env.plain 5 { demo with this_thread := 1 } 3 (.tuple []) none = .raised w1 ∧
      (w1.greenlets 3).switching_state = some ⟨SwitchingArgs.empty, 1⟩ ∧
      (∀ g, g ≠ 3 → w1.greenlets g = demo.greenlets g) ∧ w1.threads = demo.threads ∧
      ∃ w2, green_switch Env.plain 5 { w1 with this_thread := 0, pyerr := none } 3 (.tuple []) none
          = .raised w2 ∧
        w2.pyerr = some ⟨.GreenletError, some (.str "cannot switch to a different thread")⟩ :=
  ⟨_, rfl, rfl,
    by intro g hg
       simp [World.raise, release_args, World.setArgs, World.ensureSwitchingState, World.setErr,
         World.setGreenlet, demo, freshG, Function.update, hg],
    rfl, _, rfl, rfl⟩

/-! ## A switch that fails validation -/

theorem find_DestroyWithGIL (w : World) (state : TId) : ∀ (fuel : Nat) (g : GId),
    find_and_borrow_main_greenlet_in_lineage fuel (DestroyWithGIL w state) g
      = find_and_borrow_main_greenlet_in_lineage fuel w g := by
  intro fuel
  induction fuel with
  | zero => intro g; rfl
  | succ n ih =>
    intro g
    have hst : PyGreenlet_STARTED (DestroyWithGIL w state) g = PyGreenlet_STARTED w g := by
      simp only [PyGreenlet_STARTED, DestroyWithGIL, setGreenlet_greenlets]
      split
      · next h => subst h; rfl
      · rfl
    have hpar : ((DestroyWithGIL w state).greenlets g).parent = (w.greenlets g).parent := by
      simp only [DestroyWithGIL, setGreenlet_greenlets]
      split
      · next h => subst h; rfl
      · rfl
    have hmain : ((DestroyWithGIL w state).greenlets g).main_greenlet_s
        = (w.greenlets g).main_greenlet_s := by
      simp only [DestroyWithGIL, setGreenlet_greenlets]
      split
      · next h => subst h; rfl
      · rfl
    unfold find_and_borrow_main_greenlet_in_lineage
    rw [hst, hpar, hmain]
    cases (w.greenlets g).parent with
    | none => rfl
    | some p => simp only [ih p]

/-- C4: when validation fails at the start of `g_switch`, the call throws the
`greenlet.error` of the check, the pending request of the target is cleared, and
the thread states (so every current greenlet), every stack state and the log
are as before.  In particular, once `DestroyWithGIL` ran for the thread of the
main greenlet that the lineage of the target ends in, validation fails with
"cannot switch to a different thread (which happens to have exited)". -/
theorem g_switch_validation_failure (env : Env) (fuel : Nat) (w : World) (self : GId)
    (s : SwitchingState) (hs : (w.greenlets self).switching_state = some s) :
    (∀ msg, check_switch_allowed fuel w self s = .throws msg →
      ∃ w', g_switch env fuel w self = .raised w' ∧
        w'.pyerr = some ⟨.GreenletError, some (.str msg)⟩ ∧
        w'.args self = SwitchingArgs.empty ∧
        w'.threads = w.threads ∧
        (∀ g, (w'.greenlets g).stack_state = (w.greenlets g).stack_state) ∧
        w'.log = w.log) ∧
    (∀ w0 state, w = DestroyWithGIL w0 state →
      find_and_borrow_main_greenlet_in_lineage fuel w0 self
        = some (some (w0.threads state).main_greenlet) →
      check_switch_allowed fuel w self s
        = .throws "cannot switch to a different thread (which happens to have exited)") := by
  constructor
  · intro msg hc
    refine ⟨release_args (w.raise .GreenletError msg) self, ?_, ?_, ?_, ?_, ?_, ?_⟩
    · simp only [g_switch, hs, hc]
    · simp [release_args]
    · exact release_args_empty _ _
    · simp [release_args]
    · intro g; simp [release_args]
    · simp [release_args]
  · intro w0 state hw hf
    subst hw
    unfold check_switch_allowed
    rw [find_DestroyWithGIL, hf]
    simp [DestroyWithGIL]

/-- C4, witness: in `demo` after `DestroyWithGIL` for thread `0`, a switch to the
suspended greenlet `1`. -/
theorem g_switch_validation_failure_witness :
    ((DestroyWithGIL demo 0).greenlets 1).switching_state = some ⟨SwitchingArgs.empty, 0⟩ ∧
    ∃ w', g_switch Env.plain 5 (DestroyWithGIL demo 0) 1 = .raised w' ∧
      w'.pyerr = some ⟨.GreenletError,
        some (.str "cannot switch to a different thread (which happens to have exited)")⟩ ∧
      w'.args 1 = SwitchingArgs.empty ∧
      w'.threads = (DestroyWithGIL demo 0).threads ∧
      (∀ g, (w'.greenlets g).stack_state = ((DestroyWithGIL demo 0).greenlets g).stack_state) ∧
      w'.log = (DestroyWithGIL demo 0).log :=
  ⟨rfl, (g_switch_validation_failure Env.plain 5 (DestroyWithGIL demo 0) 1
      ⟨SwitchingArgs.empty, 0⟩ rfl).1 _
      ((g_switch_validation_failure Env.plain 5 (DestroyWithGIL demo 0) 1
        ⟨SwitchingArgs.empty, 0⟩ rfl).2 demo 0 rfl (by decide))⟩

/-! ## Reparenting -/

theorem green_setparent_loop_cycle (w : World) (self : GId) : ∀ (k : Nat) (p : GId)
    (run_info : Option GId), nth_parent w k p = some self →
    ∀ fuel, k < fuel → green_setparent_loop fuel w self (some p) run_info = some none := by
  intro k
  induction k with
  | zero =>
    intro p run_info h fuel hf
    obtain ⟨n, rfl⟩ : ∃ n, fuel = n + 1 := ⟨fuel - 1, by omega⟩
    simp only [nth_parent, Option.some.injEq] at h
    simp [green_setparent_loop, h]
  | succ k ih =>
    intro p run_info h fuel hf
    obtain ⟨n, rfl⟩ : ∃ n, fuel = n + 1 := ⟨fuel - 1, by omega⟩
    unfold green_setparent_loop
    by_cases hp : p = self
    · simp [hp]
    · simp only [hp, if_false]
      unfold nth_parent at h
      cases hpar : (w.greenlets p).parent with
      | none => simp [hpar] at h
      | some q =>
        simp only [hpar] at h
        exact ih q _ h n (by omega)

/-- C10: when `self` is the new parent itself or is met by following `k` parent links
from the new parent, `green_setparent` returns the error value with the
`ValueError` "cyclic parent chain" pending (given fuel for `k` steps), and no
greenlet, so no parent link, is changed. -/
theorem green_setparent_cyclic (w : World) (self p : GId) (k : Nat)
    (h : nth_parent w k p = some self) (fuel : Nat) (hf : k < fuel) :
    ∃ w', green_setparent fuel w self (.greenlet p) = some (-1, w') ∧
      w'.pyerr = some ⟨.ValueError, some (.str "cyclic parent chain")⟩ ∧
      w'.greenlets = w.greenlets ∧
      (∀ g, (w'.greenlets g).parent = (w.greenlets g).parent) := by
  refine ⟨w.raise .ValueError "cyclic parent chain", ?_, rfl, rfl, fun _ => rfl⟩
  simp only [green_setparent, green_setparent_loop_cycle w self k p none h fuel hf]

/-- C10, witness: in `demo`, making the new greenlet `3` the parent of its
grandparent `1`. -/
theorem green_setparent_cyclic_witness :
    nth_parent demo 2 3 = some 1 ∧ 2 < 5 ∧
    ∃ w', green_setparent 5 demo 1 (.greenlet 3) = some (-1, w') ∧
      w'.pyerr = some ⟨.ValueError, some (.str "cyclic parent chain")⟩ ∧
      w'.greenlets = demo.greenlets ∧
      (∀ g, (w'.greenlets g).parent = (demo.greenlets g).parent) :=
  ⟨rfl, by decide, green_setparent_cyclic demo 1 3 2 rfl 5 (by decide)⟩

/-! ## The switch into a suspended greenlet -/

theorem slp_switch_ok (env : Env) (w : World) (t : GId) (h : (env.slp_switch w t).1 = true) :
    slp_switch env w t =
      (if PyGreenlet_ACTIVE w t then 0 else 1,
        (w.record (.slp_switch t)).setStacks (env.slp_switch w t).2) := by
  simp [slp_switch, h]

theorem slp_switch_fail (env : Env) (w : World) (t : GId) (h : (env.slp_switch w t).1 = false) :
    slp_switch env w t =
      (-1, ((w.record (.slp_switch t)).setStacks (env.slp_switch w t).2).setErr
        (some ⟨.MemoryError, none⟩)) := by
  simp [slp_switch, h]

theorem g_switchstack_same (env : Env) (w : World) (t : GId) (s : SwitchingState)
    (h : (w.threads s.thread_state).current_greenlet = t) :
    g_switchstack env w t s = (⟨0, some t, some t⟩, w) := by
  simp [g_switchstack, h]

theorem g_switchstack_ok (env : Env) (w : World) (t : GId) (s : SwitchingState)
    (h : (w.threads s.thread_state).current_greenlet ≠ t)
    (hslp : (env.slp_switch w t).1 = true) :
    g_switchstack env w t s =
      (⟨if PyGreenlet_ACTIVE w t then 0 else 1, some t,
          some (w.threads s.thread_state).current_greenlet⟩,
        ((w.record (.slp_switch t)).setStacks (env.slp_switch w t).2).setThread s.thread_state
          { w.threads s.thread_state with current_greenlet := t }) := by
  unfold g_switchstack
  simp only [h, if_false]
  rw [slp_switch_ok env w t hslp]
  have : ¬ ((if PyGreenlet_ACTIVE w t = true then (0 : Int) else 1) < 0) := by
    split <;> decide
  simp only [this, if_false, g_switchstack_success]
  rfl

theorem g_switchstack_fail (env : Env) (w : World) (t : GId) (s : SwitchingState)
    (h : (w.threads s.thread_state).current_greenlet ≠ t)
    (hslp : (env.slp_switch w t).1 = false) :
    g_switchstack env w t s =
      (⟨-1, none, none⟩,
        release_args (((w.record (.slp_switch t)).setStacks (env.slp_switch w t).2).setErr
          (some ⟨.MemoryError, none⟩)) t) := by
  unfold g_switchstack
  simp only [h, if_false]
  rw [slp_switch_fail env w t hslp]
  simp

theorem g_switch_finish_untraced (env : Env) (w : World) (t : GId) (s : SwitchingState)
    (origin : Option GId) (h : (w.threads s.thread_state).tracefunc = none) :
    g_switch_finish env w t s origin =
      if w.pyerr.isNone then .returns (result_from_args (w.args t)) (release_args w t)
      else .throws (release_args w t) := by
  unfold g_switch_finish
  rw [h]
  show (if (true && w.pyerr.isNone) = true then _ else _) = _
  cases w.pyerr <;> rfl

theorem g_switch_resume (env : Env) (fuel : Nat) (w : World) (p : GId)
    (h : CanResume env fuel w p) :
    ∃ w', w'.pyerr = w.pyerr ∧ w'.log = w.log ++ [.resume p, .slp_switch p] ∧
      g_switch env fuel w p =
        (if w.pyerr.isNone then .resumed p (result_from_args (w.args p)) w'
         else .resumed_raise p w') := by
  obtain ⟨s, hs, hc, hact, hcur, hslp, htr⟩ := h
  have hfuel : fuel ≠ 0 := by
    rintro rfl
    simp [check_switch_allowed, find_and_borrow_main_greenlet_in_lineage] at hc
  obtain ⟨n, rfl⟩ : ∃ n, fuel = n + 1 := ⟨fuel - 1, by omega⟩
  have hcur' : ((w.record (.resume p)).threads s.thread_state).current_greenlet ≠ p := by
    simpa using hcur
  have hact' : PyGreenlet_ACTIVE (w.record (.resume p)) p = true := hact
  simp only [g_switch, hs, hc, g_switch_loop, hact, if_true, resume_target]
  rw [g_switchstack_ok env _ p s hcur' hslp]
  simp only [hact', if_true, g_switch_end]
  have hlt : ¬ ((0 : Int) < 0) := by decide
  simp only [hlt, if_false]
  simp only [setThread_greenlets, setStacks_switching_state, record_greenlets, hs]
  rw [g_switch_finish_untraced]
  · simp only [setThread_pyerr, setStacks_pyerr, record_pyerr, record_threads]
    have hne : ¬ (some (w.threads s.thread_state).current_greenlet = some p) := by
      simpa using hcur
    refine ⟨release_args ((((w.record (.resume p)).record (.slp_switch p)).setStacks
      (env.slp_switch (w.record (.resume p)) p).2).setThread s.thread_state
      { w.threads s.thread_state with current_greenlet := p }) p, ?_, ?_, ?_⟩
    rotate_left 2
    · show _ = _
      cases hp : w.pyerr with
      | none =>
        simp only [Option.isNone_none, if_true, hne, if_false]
        congr 1
      | some e => simp only [Option.isNone_some, hne, if_false]; rfl
    · simp
    · simp
  · simp [htr]

theorem offer_args (w : World) (p : GId) (payload : Option PyObj) :
    (offer w p payload).args p = ⟨payload, none⟩ := by
  obtain ⟨s, hs, -, -⟩ := ensure_switching_state w p
  show ((w.ensureSwitchingState p).setArgs p ⟨payload, none⟩).args p = _
  exact setArgs_args _ p _ s hs

@[simp] theorem offer_pyerr (w : World) (p : GId) (payload : Option PyObj) :
    (offer w p payload).pyerr = w.pyerr := by
  simp [offer]

@[simp] theorem offer_log (w : World) (p : GId) (payload : Option PyObj) :
    (offer w p payload).log = w.log ++ [.offer p payload w.pyerr] := by
  simp [offer]

theorem result_from_args_single (x : Option PyObj) : result_from_args ⟨x, none⟩ = x := rfl

theorem parent_loop_resume (env : Env) (sfuel fuel : Nat) (w : World) (p : GId)
    (payload : Option PyObj) (h : CanResume env sfuel (offer w p payload) p) :
    ∃ w', w'.pyerr = w.pyerr ∧
      parent_loop env sfuel (fuel + 1) w (some p) payload =
        (if w.pyerr.isNone then .resumed p payload w' else .resumed_raise p w') := by
  obtain ⟨w', hp, -, hg⟩ := g_switch_resume env sfuel _ p h
  refine ⟨w', by simpa using hp, ?_⟩
  unfold parent_loop
  rw [hg, offer_args, result_from_args_single, offer_pyerr]
  cases w.pyerr <;> rfl

theorem inner_bootstrap_result_value (w : World) (self : GId) (v : PyObj) :
    inner_bootstrap_result w self (some v) =
      (some (.tuple [v]),
        (release_args w self).setStack self (w.greenlets self).stack_state.set_inactive) := by
  simp [inner_bootstrap_result, g_handle_exit]

theorem inner_bootstrap_result_exit (w : World) (self : GId) (e : PyErr)
    (he : w.pyerr = some e) (hm : e.type.matchesGreenletExit = true)
    (ha : (w.args self).toBool = false) :
    inner_bootstrap_result w self none =
      (some (match e.value with | none => PyObj.None | some val => val),
        ((release_args w self).setErr none).setStack self
          (w.greenlets self).stack_state.set_inactive) := by
  simp [inner_bootstrap_result, g_handle_exit, he, hm, ha]

theorem inner_bootstrap_result_error (w : World) (self : GId) (e : PyErr)
    (he : w.pyerr = some e) (hm : e.type.matchesGreenletExit = false) :
    inner_bootstrap_result w self none =
      (none, (release_args w self).setStack self (w.greenlets self).stack_state.set_inactive) := by
  simp [inner_bootstrap_result, g_handle_exit, he, hm]


theorem g_calltrace_log (env : Env) (w : World) (tf : PyObj) (ev : EventName)
    (origin : Option GId) (target : GId) :
    (g_calltrace env w tf ev origin target).2.log = w.log ++ [.trace ev origin target] := by
  unfold g_calltrace
  simp only []
  split <;> simp

theorem g_switch_finish_log (env : Env) (w : World) (t : GId) (s : SwitchingState)
    (origin : Option GId) :
    ∃ evs, (g_switch_finish env w t s origin).world.log = w.log ++ evs ∧
      ∀ e ∈ evs, e.isTrace = true := by
  unfold g_switch_finish
  cases htr : (w.threads s.thread_state).tracefunc with
  | none =>
    refine ⟨[], ?_, by simp⟩
    simp only []
    split <;> simp [Finish.world]
  | some tf =>
    refine ⟨[.trace (if (w.args t).toBool then .switch else .throw) origin t], ?_, ?_⟩
    · simp only []
      split_ifs <;> simp [Finish.world, g_calltrace_log]
    · intro e he
      simp only [List.mem_singleton] at he
      subst he
      rfl

theorem g_switch_end_log (env : Env) (w : World) (err : switchstack_result_t) (t : GId)
    (s : SwitchingState) (ht : err.the_state_that_switched = some t)
    (hs : (w.greenlets t).switching_state = some s) :
    ∃ w' evs, (g_switch_end env w err).world = some w' ∧ w'.log = w.log ++ evs ∧
      ∀ e ∈ evs, e.isTrace = true := by
  unfold g_switch_end
  by_cases hneg : err.status < 0
  · exact ⟨w, [], by simp [hneg, Outcome.world], by simp, by simp⟩
  · obtain ⟨evs, hl, hev⟩ := g_switch_finish_log env w t s err.origin_greenlet
    refine ⟨(g_switch_finish env w t s err.origin_greenlet).world, evs, ?_, hl, hev⟩
    simp only [hneg, if_false, ht, hs]
    cases g_switch_finish env w t s err.origin_greenlet <;>
      (simp only []; split_ifs <;> rfl)

theorem g_switchstack_log (env : Env) (w : World) (t : GId) (s : SwitchingState) :
    (g_switchstack env w t s).2.log =
      w.log ++ (if (w.threads s.thread_state).current_greenlet = t then []
        else [Event.slp_switch t]) := by
  by_cases hcur : (w.threads s.thread_state).current_greenlet = t
  · simp [g_switchstack_same env w t s hcur, hcur]
  · cases hslp : (env.slp_switch w t).1 with
    | true => simp [g_switchstack_ok env w t s hcur hslp, hcur]
    | false => simp [g_switchstack_fail env w t s hcur hslp, hcur]

theorem g_switchstack_state (env : Env) (w : World) (t : GId) (s : SwitchingState) :
    (g_switchstack env w t s).1.status < 0 ∨
      ((g_switchstack env w t s).1.the_state_that_switched = some t ∧
        ((g_switchstack env w t s).2.greenlets t).switching_state
          = (w.greenlets t).switching_state) := by
  by_cases hcur : (w.threads s.thread_state).current_greenlet = t
  · right; simp [g_switchstack_same env w t s hcur]
  · cases hslp : (env.slp_switch w t).1 with
    | true => right; simp [g_switchstack_ok env w t s hcur hslp]
    | false => left; simp [g_switchstack_fail env w t s hcur hslp]

/-- C2 (as amended): the stack switch into a greenlet `C` (`g_switchstack` on its
switching state `s`) calls the platform switch if and only if `C` is not the
current greenlet of the thread of `s`, and on the no-op path it changes nothing,
so no heap copy of a stack; and a switch (`g_switch`) to an active greenlet `C`
that passes validation calls the platform switch if and only if `C` is not the
current greenlet. -/
theorem stack_switch_iff_not_current (env : Env) (w : World) (C : GId) (s : SwitchingState) :
    (g_switchstack env w C s).2.log =
      w.log ++ (if (w.threads s.thread_state).current_greenlet = C then []
        else [Event.slp_switch C]) ∧
    ((w.threads s.thread_state).current_greenlet = C → (g_switchstack env w C s).2 = w) ∧
    (∀ fuel, (w.greenlets C).switching_state = some s →
      check_switch_allowed (fuel + 1) w C s = .allowed → PyGreenlet_ACTIVE w C = true →
      ∃ w' evs, (g_switch env (fuel + 1) w C).world = some w' ∧
        w'.log = w.log ++ (Event.resume C ::
          (if (w.threads s.thread_state).current_greenlet = C then []
            else [Event.slp_switch C])) ++ evs ∧
        ∀ e ∈ evs, e.isTrace = true) := by
  refine ⟨g_switchstack_log env w C s, ?_, ?_⟩
  · intro hcur
    rw [g_switchstack_same env w C s hcur]
  · intro fuel hs hc hact
    simp only [g_switch, hs, hc, g_switch_loop, hact, if_true, resume_target, record_greenlets]
    have hlog := g_switchstack_log env (w.record (.resume C)) C s
    rcases g_switchstack_state env (w.record (.resume C)) C s with hneg | ⟨ht, hss⟩
    · refine ⟨(g_switchstack env (w.record (.resume C)) C s).2, [], ?_, ?_, by simp⟩
      · simp [g_switch_end, hneg, Outcome.world]
      · rw [hlog]; simp
    · obtain ⟨w', evs, hw, hl, hev⟩ := g_switch_end_log env _ _ C s ht (by rw [hss]; exact hs)
      refine ⟨w', evs, hw, ?_, hev⟩
      rw [hl, hlog]; simp

/-- C2, witness: in `demo_request`, a switch from the main greenlet to the
suspended greenlet `1`. -/
theorem stack_switch_iff_not_current_witness :
    (demo_request.greenlets 1).switching_state
      = some ⟨⟨some (.tuple [.obj 5]), none⟩, 0⟩ ∧
    check_switch_allowed (4 + 1) demo_request 1 ⟨⟨some (.tuple [.obj 5]), none⟩, 0⟩ = .allowed ∧
    PyGreenlet_ACTIVE demo_request 1 = true ∧
    ∃ w' evs, (g_switch Env.plain (4 + 1) demo_request 1).world = some w' ∧
      w'.log = demo_request.log ++ (Event.resume 1 ::
        (if (demo_request.threads 0).current_greenlet = 1 then [] else [Event.slp_switch 1]))
        ++ evs ∧
      ∀ e ∈ evs, e.isTrace = true :=
  ⟨rfl, by decide, rfl,
    (stack_switch_iff_not_current Env.plain demo_request 1
      ⟨⟨some (.tuple [.obj 5]), none⟩, 0⟩).2.2 4 rfl (by decide) rfl⟩

/-- C2, counterexample to the claim as stated: in `demo_dead_child` the main greenlet
`0` is current and switches to the dead greenlet `4`, whose parent is `0`.  The
target is not the current greenlet and validation passes, yet the platform
switch is not called: the only call recorded is `g_switchstack` on `0`. -/
theorem switch_to_dead_child_no_transfer :
    (demo_dead_child.threads demo_dead_child.this_thread).current_greenlet ≠ 4 ∧
    check_switch_allowed 5 demo_dead_child 4 ⟨⟨some (.tuple [.obj 5]), none⟩, 0⟩ = .allowed ∧
    (g_switch Env.plain 5 demo_dead_child 4).world.map (fun w => w.log)
      = some [Event.resume 0] := by
  refine ⟨by decide, by decide, rfl⟩

/-! ## Target resolution -/


theorem g_switch_loop_skip (env : Env) (w : World) (self : GId) :
    ∀ (t r : GId) (k : Nat), Resolves w t k r → ∀ (fuel : Nat) (twm : Bool), k < fuel →
      g_switch_loop env fuel w self (some t) twm
        = g_switch_loop env (fuel - k) w self (some r) (twm && decide (k = 0)) := by
  intro t r k h
  induction h with
  | here g _ => intro fuel twm _; simp
  | skip g p r k hact hst hpar _ ih =>
    intro fuel twm hf
    obtain ⟨n, rfl⟩ : ∃ n, fuel = n + 1 := ⟨fuel - 1, by omega⟩
    rw [g_switch_loop]
    simp only [hact, hst, Bool.false_eq_true, if_false, Bool.not_true, hpar]
    rw [ih n false (by omega)]
    simp

theorem resolves_zero (w : World) (g r : GId) (h : Resolves w g 0 r) : r = g := by
  cases h; rfl

theorem resolves_live (w : World) (g r : GId) (k : Nat) (h : Resolves w g k r) :
    PyGreenlet_ACTIVE w r = true ∨ PyGreenlet_STARTED w r = false := by
  induction h with
  | here g h => exact h
  | skip _ _ _ _ _ _ _ _ ih => exact ih

theorem setArgs_args_other (w : World) (g h : GId) (a : SwitchingArgs) (hne : h ≠ g) :
    (w.setArgs g a).args h = w.args h := by
  simp [World.args, setArgs_switching_state, hne]

theorem ensure_args (w : World) (g h : GId) : (w.ensureSwitchingState g).args h = w.args h := by
  by_cases hg : h = g
  · subst hg
    unfold World.ensureSwitchingState
    cases hs : (w.greenlets h).switching_state with
    | some s => simp [hs]
    | none => simp [World.args, hs, SwitchingArgs.empty]
  · exact args_congr _ _ h (ensure_switching_state_other w g h hg)

theorem move_args_spec (w : World) (self r : GId)
    (hsr : (w.greenlets r).switching_state ≠ none) :
    ∃ w1, move_args w self r = some w1 ∧ w1.args r = w.args self ∧
      (∀ g, (w1.greenlets g).stack_state = (w.greenlets g).stack_state) ∧
      (∀ g, (w1.greenlets g).parent = (w.greenlets g).parent) ∧
      w1.threads = w.threads ∧ w1.pyerr = w.pyerr ∧ w1.log = w.log := by
  unfold move_args
  cases hs : (w.greenlets r).switching_state with
  | none => exact absurd hs hsr
  | some s0 =>
    by_cases hrs : r = self
    · subst hrs
      exact ⟨w, by simp, rfl, fun _ => rfl, fun _ => rfl, rfl, rfl, rfl⟩
    · refine ⟨(w.setArgs r (w.args self)).setArgs self SwitchingArgs.empty,
        by simp only [hrs, if_false], ?_, ?_, ?_, ?_, ?_, ?_⟩
      · rw [setArgs_args_other _ _ _ _ hrs]
        exact setArgs_args w r _ s0 hs
      · intro g; simp
      · intro g; simp
      · simp
      · simp
      · simp

/-- The loop of `g_switch` on a greenlet that has what it dereferences: when validation
passes, `r` is the first greenlet that is ACTIVE or NOT_STARTED in the chain
`self`, `self.parent`, ... (the `k` greenlets before it are DEAD), and an
ACTIVE `r` has a switching state, `g_switch` hands the request of `self` to `r`
and nothing else happens before: no stack state changes and nothing is
recorded.  `resume_target` or `bootstrap_target` is then run on `r`. -/
theorem g_switch_resolves_target (env : Env) (fuel : Nat) (w : World) (self r : GId) (k : Nat)
    (s : SwitchingState) (hs : (w.greenlets self).switching_state = some s)
    (hc : check_switch_allowed fuel w self s = .allowed)
    (hr : Resolves w self k r) (hf : k < fuel)
    (hsr : PyGreenlet_ACTIVE w r = true → (w.greenlets r).switching_state.isSome = true) :
    ∃ w1, w1.args r = w.args self ∧
      (∀ g, (w1.greenlets g).stack_state = (w.greenlets g).stack_state) ∧
      (∀ g, (w1.greenlets g).parent = (w.greenlets g).parent) ∧
      w1.threads = w.threads ∧ w1.pyerr = w.pyerr ∧ w1.log = w.log ∧
      g_switch env fuel w self =
        if PyGreenlet_ACTIVE w r then resume_target env w1 r
        else bootstrap_target env (fuel - k)
          (fun w2 => g_switch_loop env (fuel - k - 1) w2 self (some r) (decide (k = 0)))
          w1 self r := by
  have hloop : g_switch env fuel w self
      = g_switch_loop env (fuel - k) w self (some r) (decide (k = 0)) := by
    simp only [g_switch, hs, hc]
    rw [g_switch_loop_skip env w self self r k hr fuel true hf]
    simp
  obtain ⟨n, hn⟩ : ∃ n, fuel - k = n + 1 := ⟨fuel - k - 1, by omega⟩
  rw [hloop, hn, Nat.add_sub_cancel, g_switch_loop]
  by_cases hk : k = 0
  · subst hk
    have hrs : r = self := resolves_zero w self r hr
    subst hrs
    refine ⟨w, rfl, fun _ => rfl, fun _ => rfl, rfl, rfl, rfl, ?_⟩
    by_cases hact : PyGreenlet_ACTIVE w r = true
    · simp [hact]
    · have hst : PyGreenlet_STARTED w r = false := by
        rcases resolves_live w r r 0 hr with h | h
        · exact absurd h hact
        · exact h
      simp [hact, hst]
  · simp only [hk, decide_False, Bool.false_eq_true, if_false]
    by_cases hact : PyGreenlet_ACTIVE w r = true
    · obtain ⟨w1, hm, h1, h2, h3, h4, h5, h6⟩ :=
        move_args_spec w self r (Option.isSome_iff_ne_none.mp (hsr hact))
      refine ⟨w1, h1, h2, h3, h4, h5, h6, ?_⟩
      simp [hact, hm]
    · have hst : PyGreenlet_STARTED w r = false := by
        rcases resolves_live w self r k hr with h | h
        · exact absurd h hact
        · exact h
      obtain ⟨s0, hs0, -, -⟩ := ensure_switching_state w r
      obtain ⟨w1, hm, h1, h2, h3, h4, h5, h6⟩ :=
        move_args_spec (w.ensureSwitchingState r) self r (by rw [hs0]; simp)
      refine ⟨w1, ?_, ?_, ?_, ?_, ?_, ?_, ?_⟩
      · rw [h1, ensure_args]
      · intro g; rw [h2]; simp
      · intro g; rw [h3]; simp
      · rw [h4]; simp
      · rw [h5]; simp
      · rw [h6]; simp
      · simp [hact, hst, hm]

/-! ## The end of a greenlet -/

/-- C5: when the body returns `v`, the pending switch of the parent returns the
1-tuple `(v,)`; when the body ends with `GreenletExit`, the pending switch of
the parent returns the value carried by the exit, or `None` when it carries
none, and no error is left pending.  Both for a parent that can be resumed.
The request of the greenlet itself is empty when its body ends: the entry into
a greenlet takes it (`inner_bootstrap_enter_takes_request`) and every
resumption takes or releases it (`resume_world_facts`), so the hypothesis of
the second part leaves out no state that the module reaches. -/
theorem body_result_delivered (env : Env) (sfuel fuel : Nat) (w : World) (self p : GId)
    (args : SwitchingArgs) (call : World → World × Option PyObj) (hargs : args.toBool = true)
    (hpar : ((w.after (call w).1).greenlets self).parent = some p) :
    (∀ v, (call w).2 = some v → (call w).1.pyerr = none →
      CanResume env sfuel
        (offer (inner_bootstrap_result (w.after (call w).1) self (some v)).2 p
          (some (.tuple [v]))) p →
      ∃ w', inner_bootstrap_exit env sfuel (fuel + 1) w self args call
          = .resumed p (some (.tuple [v])) w' ∧ w'.pyerr = none) ∧
    (∀ e, (call w).2 = none → (call w).1.pyerr = some e → e.type.matchesGreenletExit = true →
      ((w.after (call w).1).args self).toBool = false →
      CanResume env sfuel
        (offer (inner_bootstrap_result (w.after (call w).1) self none).2 p
          (some (match e.value with | none => PyObj.None | some val => val))) p →
      ∃ w', inner_bootstrap_exit env sfuel (fuel + 1) w self args call
          = .resumed p (some (match e.value with | none => PyObj.None | some val => val)) w' ∧
        w'.pyerr = none) := by
  constructor
  · intro v hv herr hcan
    have hr := inner_bootstrap_result_value (w.after (call w).1) self v
    obtain ⟨w', hp, hl⟩ := parent_loop_resume env sfuel fuel _ p _ hcan
    refine ⟨w', ?_, ?_⟩
    · simp only [inner_bootstrap_exit, hargs, Bool.not_true, Bool.false_eq_true, if_false, hv]
      rw [hr] at hl ⊢
      simp only [setStack_parent, release_args_parent, hpar]
      rw [hl]
      simp [herr]
    · rw [hp, hr]; simp [herr]
  · intro e hv herr hm ha hcan
    have hr := inner_bootstrap_result_exit (w.after (call w).1) self e (by simpa using herr) hm ha
    obtain ⟨w', hp, hl⟩ := parent_loop_resume env sfuel fuel _ p _ hcan
    refine ⟨w', ?_, ?_⟩
    · simp only [inner_bootstrap_exit, hargs, Bool.not_true, Bool.false_eq_true, if_false, hv]
      rw [hr] at hl ⊢
      simp only [setStack_parent, setErr_greenlets, release_args_parent, hpar]
      rw [hl]
      simp
    · rw [hp, hr]; simp

/-- C5, witness: in `demo_running` the body of greenlet `1` returns `42`, and the
parent `0` gets `(42,)`; it ends with a `GreenletExit` that carries `3`, and
the parent gets `3`. -/
theorem body_result_delivered_witness :
    (SwitchingArgs.mk (some (.tuple [])) none).toBool = true ∧
    ((demo_running.after (call_returns demo_running).1).greenlets 1).parent = some 0 ∧
    (∃ w', inner_bootstrap_exit Env.plain 5 (4 + 1) demo_running 1 ⟨some (.tuple []), none⟩
        call_returns = .resumed 0 (some (.tuple [.obj 42])) w' ∧ w'.pyerr = none) ∧
    (∃ w', inner_bootstrap_exit Env.plain 5 (4 + 1) demo_running 1 ⟨some (.tuple []), none⟩
        call_exits = .resumed 0 (some (.obj 3)) w' ∧ w'.pyerr = none) :=
  ⟨rfl, rfl,
    (body_result_delivered Env.plain 5 4 demo_running 1 0 ⟨some (.tuple []), none⟩
      call_returns rfl rfl).1 (.obj 42) rfl rfl
      ⟨⟨SwitchingArgs.mk (some (.tuple [.obj 42])) none, 0⟩, rfl, by decide, rfl, by decide,
        rfl, rfl⟩,
    (body_result_delivered Env.plain 5 4 demo_running 1 0 ⟨some (.tuple []), none⟩
      call_exits rfl rfl).2 ⟨.GreenletExit, some (.obj 3)⟩ rfl rfl rfl rfl
      ⟨⟨SwitchingArgs.mk (some (.obj 3)) none, 0⟩, rfl, by decide, rfl, by decide, rfl, rfl⟩⟩

/-- C6: `g_handle_exit` swallows only `GreenletExit`: with no result and a pending
error that does not match `GreenletExit` it returns the empty object and leaves
the world, so the error, as it is; whenever it changes the pending error there
was no result and the error matched `GreenletExit`; and a parent that can be
resumed then gets the error as a throw: its pending switch throws with that
error pending. -/
theorem other_errors_not_swallowed :
    (∀ (w : World) (e : PyErr), w.pyerr = some e → e.type.matchesGreenletExit = false →
      g_handle_exit w none = (none, w)) ∧
    (∀ (w : World) (r : Option PyObj) (e : PyErr), w.pyerr = some e →
      (g_handle_exit w r).2.pyerr ≠ w.pyerr → r = none ∧ e.type.matchesGreenletExit = true) ∧
    (∀ (env : Env) (sfuel fuel : Nat) (w wc : World) (self p : GId) (args : SwitchingArgs)
      (call : World → World × Option PyObj) (e : PyErr),
      (if !args.toBool then (w, none) else call w) = (wc, none) →
      wc.pyerr = some e → e.type.matchesGreenletExit = false →
      ((w.after wc).greenlets self).parent = some p →
      CanResume env sfuel (offer (inner_bootstrap_result (w.after wc) self none).2 p none) p →
      ∃ w', inner_bootstrap_exit env sfuel (fuel + 1) w self args call = .resumed_raise p w' ∧
        w'.pyerr = some e) := by
  refine ⟨?_, ?_, ?_⟩
  · intro w e he hm
    simp [g_handle_exit, he, hm]
  · intro w r e he hne
    cases r with
    | some x => simp [g_handle_exit] at hne
    | none =>
      cases hm : e.type.matchesGreenletExit with
      | true => exact ⟨rfl, rfl⟩
      | false => simp [g_handle_exit, he, hm] at hne
  · intro env sfuel fuel w wc self p args call e hc herr hm hpar hcan
    have hr := inner_bootstrap_result_error (w.after wc) self e (by simpa using herr) hm
    obtain ⟨w', hp, hl⟩ := parent_loop_resume env sfuel fuel _ p _ hcan
    refine ⟨w', ?_, ?_⟩
    · simp only [inner_bootstrap_exit, hc]
      rw [hr] at hl ⊢
      simp only [setStack_parent, release_args_parent, hpar]
      rw [hl]
      simp [herr]
    · rw [hp, hr]; simp [herr]

/-- C6, witness: in `demo_running` the body of greenlet `1` ends with a `ValueError`. -/
theorem other_errors_not_swallowed_witness :
    ∃ w', inner_bootstrap_exit Env.plain 5 (4 + 1) demo_running 1 ⟨some (.tuple []), none⟩
        call_raises = .resumed_raise 0 w' ∧
      w'.pyerr = some ⟨.ValueError, some (.obj 3)⟩ :=
  other_errors_not_swallowed.2.2 Env.plain 5 4 demo_running
    (demo_running.setErr (some ⟨.ValueError, some (.obj 3)⟩)) 1 0 ⟨some (.tuple []), none⟩
    call_raises ⟨.ValueError, some (.obj 3)⟩ rfl rfl rfl rfl
    ⟨⟨SwitchingArgs.mk none none, 0⟩, rfl, by decide, rfl, by decide, rfl, rfl⟩

/-! ## What every step of a switch respects -/

theorem g_calltrace_frame {env : Env} {R : World → World → Prop} (F : Frame env R) (w : World)
    (tf : PyObj) (ev : EventName) (o : Option GId) (t : GId) :
    R w (g_calltrace env w tf ev o t).2 := by
  have h0 : R w ((w.setErr none).record (.trace ev o t)) :=
    F.trans _ _ _ (F.setErr w none) (F.record _ _ rfl)
  have h1 := F.trans _ _ _ h0 (F.trace ((w.setErr none).record (.trace ev o t)) tf ev o t)
  unfold g_calltrace
  simp only []
  split
  · exact F.trans _ _ _ h1 (F.setErr _ _)
  · exact F.trans _ _ _ h1 (F.setThread _ _ _)

theorem release_args_frame {env : Env} {R : World → World → Prop} (F : Frame env R) (w : World)
    (g : GId) : R w (release_args w g) := F.setArgs w g _

theorem g_switch_finish_frame {env : Env} {R : World → World → Prop} (F : Frame env R)
    (w : World) (t : GId) (s : SwitchingState) (o : Option GId) :
    R w (g_switch_finish env w t s o).world := by
  unfold g_switch_finish
  cases (w.threads s.thread_state).tracefunc with
  | none =>
    simp only []
    split_ifs <;> exact release_args_frame F w t
  | some tf =>
    simp only []
    split_ifs <;>
      exact F.trans _ _ _ (g_calltrace_frame F w tf _ o t) (release_args_frame F _ t)

theorem slp_switch_frame {env : Env} {R : World → World → Prop} (F : Frame env R) (w : World)
    (t : GId) : R w (slp_switch env w t).2 := by
  have h : R w ((w.record (.slp_switch t)).setStacks (env.slp_switch w t).2) :=
    F.trans _ _ _ (F.slp w t) (F.record (w.setStacks (env.slp_switch w t).2) (.slp_switch t) rfl)
  unfold slp_switch
  simp only []
  split
  · exact h
  · exact F.trans _ _ _ h (F.setErr _ _)

theorem g_switchstack_frame {env : Env} {R : World → World → Prop} (F : Frame env R) (w : World)
    (t : GId) (s : SwitchingState) : R w (g_switchstack env w t s).2 := by
  unfold g_switchstack
  simp only []
  split
  · exact F.refl w
  · split
    · exact F.trans _ _ _ (slp_switch_frame F w t) (release_args_frame F _ t)
    · exact F.trans _ _ _ (slp_switch_frame F w t) (F.setThread _ _ _)

theorem g_switch_end_frame {env : Env} {R : World → World → Prop} (F : Frame env R) (w : World)
    (err : switchstack_result_t) (w' : World) (h : (g_switch_end env w err).world = some w') :
    R w w' := by
  unfold g_switch_end at h
  split at h
  · simp only [Outcome.world, Option.some.injEq] at h; subst h; exact F.refl w
  · split at h
    · simp [Outcome.world] at h
    · next t _ =>
      split at h
      · simp [Outcome.world] at h
      · next s _ =>
        have hf := g_switch_finish_frame F w t s err.origin_greenlet
        cases hfin : g_switch_finish env w t s err.origin_greenlet with
        | returns r w1 =>
          rw [hfin] at h hf
          simp only [] at h
          split at h <;>
            (simp only [Outcome.world, Option.some.injEq] at h; subst h; exact hf)
        | throws w1 =>
          rw [hfin] at h hf
          simp only [] at h
          split at h <;>
            (simp only [Outcome.world, Option.some.injEq] at h; subst h; exact hf)

theorem inner_bootstrap_enter_frame {env : Env} {R : World → World → Prop} (F : Frame env R)
    (w0 w : World) (self : GId) (s : SwitchingState) (o : Option GId)
    (hns : PyGreenlet_STARTED w0 self = false) (h : R w0 w) :
    R w0 (inner_bootstrap_enter env w self s o).2 := by
  have h1 := F.restack w0 w self (w.greenlets self).stack_state.set_active hns h
  have h2 := F.trans _ _ _ h1
    (F.started (w.setStack self (w.greenlets self).stack_state.set_active) self none
      (some ((w.setStack self (w.greenlets self).stack_state.set_active).threads
        s.thread_state).main_greenlet))
  have h3 := F.trans _ _ _ h2 (release_args_frame F _ self)
  unfold inner_bootstrap_enter
  simp only []
  split
  · exact F.trans _ _ _ h3 (g_calltrace_frame F _ _ _ _ _)
  · exact h3

theorem g_initialstub_frame {env : Env} {R : World → World → Prop} (F : Frame env R)
    (fuel : Nat) (w : World) (self : GId) (w' : World)
    (h : (g_initialstub env fuel w self).world = some w') : R w w' := by
  unfold g_initialstub at h
  split at h
  · simp [Stub.world] at h
  · next s _ =>
    simp only [] at h
    have hg : R w (w.after (env.getattr_run (w.setErr none) self).1) :=
      F.trans _ _ _ (F.setErr w none) (F.getattr (w.setErr none) self)
    split at h
    · simp only [Stub.world, Option.some.injEq] at h; subst h; exact hg
    · have h1 : R w ((w.after (env.getattr_run (w.setErr none) self).1).setErr w.pyerr) :=
        F.trans _ _ _ hg (F.setErr _ _)
      split at h
      · simp [Stub.world] at h
      · simp only [Stub.world, Option.some.injEq] at h; subst h
        exact F.trans _ _ _ h1 (F.setErr _ _)
      · split at h
        · simp only [Stub.world, Option.some.injEq] at h; subst h
          exact F.trans _ _ _ h1 (F.setArgs _ _ _)
        · next hst =>
          have hns : PyGreenlet_STARTED
              ((w.after (env.getattr_run (w.setErr none) self).1).setErr w.pyerr) self = false := by
            simpa using hst
          have h2 := F.restack _ _ self
            (StackState.start
              (env.mark ((w.after (env.getattr_run (w.setErr none) self).1).setErr w.pyerr))
              ((((w.after (env.getattr_run (w.setErr none) self).1).setErr w.pyerr).threads
                s.thread_state).current_greenlet)
              ((((w.after (env.getattr_run (w.setErr none) self).1).setErr w.pyerr).greenlets
                ((((w.after (env.getattr_run (w.setErr none) self).1).setErr w.pyerr).threads
                  s.thread_state).current_greenlet)).stack_state))
            hns (F.refl _)
          have h3 := F.trans _ _ _ h2 (g_switchstack_frame F _ self s)
          split at h
          · simp only [Stub.world, Option.some.injEq] at h; subst h
            exact F.trans _ _ _ h1 (inner_bootstrap_enter_frame F _ _ self s _ hns h3)
          · split at h
            · simp only [Stub.world, Option.some.injEq] at h; subst h
              exact F.trans _ _ _ h1 (F.restack _ _ self _ hns h3)
            · simp only [Stub.world, Option.some.injEq] at h; subst h
              exact F.trans _ _ _ h1 h3

theorem resume_target_frame {env : Env} {R : World → World → Prop} (F : Frame env R)
    (w : World) (t : GId) (w' : World) (h : (resume_target env w t).world = some w') :
    R w w' := by
  unfold resume_target at h
  split at h
  · simp [Outcome.world] at h
  · next s _ =>
    simp only [] at h
    exact F.trans _ _ _ (F.trans _ _ _ (F.record w (.resume t) rfl)
      (g_switchstack_frame F _ t s)) (g_switch_end_frame F _ _ w' h)

theorem bootstrap_target_frame {env : Env} {R : World → World → Prop} (F : Frame env R)
    (fuel : Nat) (retry : World → Outcome) (w : World) (self t : GId)
    (hretry : ∀ w2 w', (retry w2).world = some w' → R w2 w') (w' : World)
    (h : (bootstrap_target env fuel retry w self t).world = some w') : R w w' := by
  unfold bootstrap_target at h
  have hrec := F.record w (.bootstrap t) rfl
  cases hstub : g_initialstub env fuel (w.record (.bootstrap t)) t with
  | returns err w2 =>
    rw [hstub] at h
    have := g_initialstub_frame F fuel _ t w2 (by rw [hstub]; rfl)
    exact F.trans _ _ _ (F.trans _ _ _ hrec this) (g_switch_end_frame F _ _ w' h)
  | entered args run w2 =>
    rw [hstub] at h
    simp only [Outcome.world, Option.some.injEq] at h; subst h
    exact F.trans _ _ _ hrec (g_initialstub_frame F fuel _ t _ (by rw [hstub]; rfl))
  | throws w2 =>
    rw [hstub] at h
    simp only [Outcome.world, Option.some.injEq] at h; subst h
    exact F.trans _ _ _ (F.trans _ _ _ hrec
      (g_initialstub_frame F fuel _ t w2 (by rw [hstub]; rfl))) (release_args_frame F _ self)
  | started_while_in_python w2 =>
    rw [hstub] at h
    exact F.trans _ _ _ (F.trans _ _ _ hrec
      (g_initialstub_frame F fuel _ t w2 (by rw [hstub]; rfl))) (hretry w2 w' h)
  | null_deref => rw [hstub] at h; simp [Outcome.world] at h
  | out_of_fuel => rw [hstub] at h; simp [Outcome.world] at h

theorem move_args_frame {env : Env} {R : World → World → Prop} (F : Frame env R)
    (w : World) (self t : GId) (w1 : World) (h : move_args w self t = some w1) : R w w1 := by
  unfold move_args at h
  split at h
  · simp at h
  · split at h
    · simp only [Option.some.injEq] at h; subst h; exact F.refl w
    · simp only [Option.some.injEq] at h; subst h
      exact F.trans _ _ _ (F.setArgs _ _ _) (F.setArgs _ _ _)

theorem g_switch_loop_frame {env : Env} {R : World → World → Prop} (F : Frame env R) :
    ∀ (fuel : Nat) (w : World) (self : GId) (target : Option GId) (twm : Bool) (w' : World),
      (g_switch_loop env fuel w self target twm).world = some w' → R w w' := by
  intro fuel
  induction fuel with
  | zero => intro w self target twm w' h; simp [g_switch_loop, Outcome.world] at h
  | succ n ih =>
    intro w self target twm w' h
    cases target with
    | none => simp [g_switch_loop, Outcome.world] at h
    | some t =>
      rw [g_switch_loop] at h
      split at h
      · cases twm with
        | true =>
          simp only [if_true] at h
          exact resume_target_frame F w t w' h
        | false =>
          simp only [Bool.false_eq_true, if_false] at h
          cases hm : move_args w self t with
          | none => rw [hm] at h; simp [Outcome.world] at h
          | some w1 =>
            rw [hm] at h
            exact F.trans _ _ _ (move_args_frame F w self t w1 hm)
              (resume_target_frame F w1 t w' h)
      · split at h
        · cases twm with
          | true =>
            simp only [if_true] at h
            exact bootstrap_target_frame F _ _ w self t
              (fun w2 w3 h3 => ih w2 self (some t) true w3 h3) w' h
          | false =>
            simp only [Bool.false_eq_true, if_false] at h
            cases hm : move_args (w.ensureSwitchingState t) self t with
            | none => rw [hm] at h; simp [Outcome.world] at h
            | some w1 =>
              rw [hm] at h
              exact F.trans _ _ _ (F.trans _ _ _ (F.ensure w t)
                (move_args_frame F _ self t w1 hm))
                (bootstrap_target_frame F _ _ w1 self t
                  (fun w2 w3 h3 => ih w2 self (some t) false w3 h3) w' h)
        · exact ih w self _ false w' h

theorem g_switch_frame {env : Env} {R : World → World → Prop} (F : Frame env R)
    (fuel : Nat) (w : World) (self : GId) (w' : World)
    (h : (g_switch env fuel w self).world = some w') : R w w' := by
  unfold g_switch at h
  split at h
  · simp [Outcome.world] at h
  · next s _ =>
    split at h
    · simp [Outcome.world] at h
    · simp only [Outcome.world, Option.some.injEq] at h; subst h
      exact F.trans _ _ _ (F.setErr _ _) (release_args_frame F _ self)
    · exact g_switch_loop_frame F fuel w self _ true w' h

theorem quiet_frame (env : Env) (henv : EnvKeepsParents env) : Frame env Quiet where
  refl := fun w => ⟨fun _ => rfl, [], by simp, by simp⟩
  trans := by
    rintro a b c ⟨h1, e1, hl1, he1⟩ ⟨h2, e2, hl2, he2⟩
    refine ⟨fun g => by rw [h2, h1], e1 ++ e2, by rw [hl2, hl1, List.append_assoc], ?_⟩
    intro e he
    rcases List.mem_append.mp he with h | h
    · exact he1 e h
    · exact he2 e h
  record := fun w e he => ⟨fun _ => rfl, [e], rfl, by simpa using he⟩
  setArgs := fun w g a => ⟨fun h => by simp, [], by simp, by simp⟩
  ensure := fun w g => ⟨fun h => by simp, [], by simp, by simp⟩
  setErr := fun w e => ⟨fun _ => rfl, [], by simp, by simp⟩
  setThread := fun w t x => ⟨fun _ => rfl, [], by simp, by simp⟩
  started := fun w g rc m => ⟨fun h => by
    simp only [setGreenlet_greenlets]; split
    · next hg => subst hg; rfl
    · rfl, [], by simp, by simp⟩
  restack := by
    rintro w w1 g x - ⟨h1, e1, hl1, he1⟩
    exact ⟨fun h => by rw [setStack_parent, h1], e1, by simpa using hl1, he1⟩
  getattr := fun w g => ⟨fun h => by simpa using henv.1 w g h, [], by simp, by simp⟩
  trace := fun w tf ev o t => ⟨fun h => by simpa using henv.2 w tf ev o t h, [], by simp, by simp⟩
  slp := fun w t => ⟨fun _ => rfl, [], by simp, by simp⟩

/-! ## The parent loop -/

theorem g_switch_end_isFatal (env : Env) (w : World) (err : switchstack_result_t) :
    (g_switch_end env w err).isFatal = false := by
  unfold g_switch_end
  split
  · rfl
  · split
    · rfl
    · split
      · rfl
      · split <;> (split <;> rfl)

theorem resume_target_isFatal (env : Env) (w : World) (t : GId) :
    (resume_target env w t).isFatal = false := by
  unfold resume_target
  split
  · rfl
  · exact g_switch_end_isFatal _ _ _

theorem bootstrap_target_isFatal (env : Env) (fuel : Nat) (retry : World → Outcome) (w : World)
    (self t : GId) (hretry : ∀ w2, (retry w2).isFatal = false) :
    (bootstrap_target env fuel retry w self t).isFatal = false := by
  unfold bootstrap_target
  split
  · exact g_switch_end_isFatal _ _ _
  · rfl
  · rfl
  · exact hretry _
  · rfl
  · rfl

theorem g_switch_loop_isFatal (env : Env) : ∀ (fuel : Nat) (w : World) (self : GId)
    (target : Option GId) (twm : Bool),
    (g_switch_loop env fuel w self target twm).isFatal = false := by
  intro fuel
  induction fuel with
  | zero => intro w self target twm; rfl
  | succ n ih =>
    intro w self target twm
    cases target with
    | none => rfl
    | some t =>
      rw [g_switch_loop]
      split
      · split
        · rfl
        · exact resume_target_isFatal _ _ _
      · split
        · split
          · rfl
          · exact bootstrap_target_isFatal _ _ _ _ _ _ (fun w2 => ih w2 self (some t) twm)
        · exact ih _ _ _ _

theorem g_switch_isFatal (env : Env) (fuel : Nat) (w : World) (self : GId) :
    (g_switch env fuel w self).isFatal = false := by
  unfold g_switch
  split
  · rfl
  · split
    · rfl
    · rfl
    · exact g_switch_loop_isFatal _ _ _ _ _ _

theorem ancestors_none (w : World) (n : Nat) : ancestors w n none = [] := by
  cases n <;> rfl

theorem ancestors_congr (w w' : World) (h : ∀ g, (w'.greenlets g).parent = (w.greenlets g).parent) :
    ∀ (n : Nat) (p : Option GId), ancestors w' n p = ancestors w n p := by
  intro n
  induction n with
  | zero => intro p; rfl
  | succ n ih =>
    intro p
    cases p with
    | none => rfl
    | some g => simp only [ancestors, h g, ih]

theorem offers_append (a b : List Event) : offers (a ++ b) = offers a ++ offers b := by
  simp [offers, List.filterMap_append]

theorem offers_quiet (evs : List Event) (h : ∀ e ∈ evs, e.isOffer = false) : offers evs = [] := by
  induction evs with
  | nil => rfl
  | cons e tl ih =>
    have he := h e (List.mem_cons_self _ _)
    have htl := ih (fun x hx => h x (List.mem_cons_of_mem _ hx))
    cases e <;> simp_all [offers, Event.offered, Event.isOffer]

theorem offer_quiet (w : World) (p : GId) (r : Option PyObj) (w2 : World)
    (h : Quiet (offer w p r) w2) :
    (∀ g, (w2.greenlets g).parent = (w.greenlets g).parent) ∧
    ∃ evs, w2.log = w.log ++ Event.offer p r w.pyerr :: evs ∧ offers evs = [] := by
  obtain ⟨hp, evs, hl, he⟩ := h
  refine ⟨fun g => ?_, evs, ?_, offers_quiet evs he⟩
  · rw [hp]; simp [offer]
  · rw [hl]; simp

theorem offers_offer_cons (p : GId) (r : Option PyObj) (e : Option PyErr) (evs rest : List Event)
    (he : offers evs = []) : offers (Event.offer p r e :: (evs ++ rest)) = p :: offers rest := by
  rw [show Event.offer p r e :: (evs ++ rest) = [Event.offer p r e] ++ evs ++ rest by simp]
  rw [offers_append, offers_append, he]
  rfl

theorem parent_loop_left (env : Env) (henv : EnvKeepsParents env) (sfuel n : Nat) (w : World)
    (p : GId) (result : Option PyObj) (o : Outcome) (w' : World)
    (hg : g_switch env sfuel (offer w p result) p = o) (hw : o.world = some w')
    (hleft : o.left = true) (hfat : o.isFatal = false) :
    (∀ g, (w'.greenlets g).parent = (w.greenlets g).parent) ∧
      ∃ rest, w'.log = w.log ++ rest ∧
        offers rest <+: ancestors w (n + 1) (some p) ∧
        (∀ q, some p = some q → ∃ tl, rest = Event.offer q result w.pyerr :: tl) ∧
        (o.isFatal = true →
          ∀ m, (offers rest).length ≤ m → ancestors w m (some p) = offers rest) ∧
        (o.isFatal = false → o.left = true ∧ offers rest ≠ []) := by
  obtain ⟨hp2, evs, hl2, he2⟩ :=
    offer_quiet w p result w' (g_switch_frame (quiet_frame env henv) sfuel _ p w' (by rw [hg]; exact hw))
  have hoff : offers (Event.offer p result w.pyerr :: evs) = [p] := by
    have := offers_offer_cons p result w.pyerr evs [] he2
    simpa [offers] using this
  refine ⟨hp2, Event.offer p result w.pyerr :: evs, hl2, ?_, ?_, ?_, ?_⟩
  · rw [hoff]; simp [ancestors]
  · intro q hq; simp only [Option.some.injEq] at hq; subst hq; exact ⟨_, rfl⟩
  · intro hf; rw [hfat] at hf; simp at hf
  · intro _; exact ⟨hleft, by rw [hoff]; simp⟩

theorem parent_loop_back (env : Env) (henv : EnvKeepsParents env) (sfuel n : Nat) (w w2 : World)
    (p : GId) (result r : Option PyObj) (o o' : Outcome) (w' : World)
    (hg : g_switch env sfuel (offer w p result) p = o) (hw2 : o.world = some w2)
    (ih : (∀ g, (w'.greenlets g).parent = (w2.greenlets g).parent) ∧
      ∃ rest, w'.log = w2.log ++ rest ∧
        offers rest <+: ancestors w2 n (w2.greenlets p).parent ∧
        (∀ q, (w2.greenlets p).parent = some q → ∃ tl, rest = Event.offer q r w2.pyerr :: tl) ∧
        (o'.isFatal = true →
          ∀ m, (offers rest).length ≤ m → ancestors w2 m (w2.greenlets p).parent = offers rest) ∧
        (o'.isFatal = false → o'.left = true ∧ offers rest ≠ [])) :
    (∀ g, (w'.greenlets g).parent = (w.greenlets g).parent) ∧
      ∃ rest, w'.log = w.log ++ rest ∧
        offers rest <+: ancestors w (n + 1) (some p) ∧
        (∀ q, some p = some q → ∃ tl, rest = Event.offer q result w.pyerr :: tl) ∧
        (o'.isFatal = true →
          ∀ m, (offers rest).length ≤ m → ancestors w m (some p) = offers rest) ∧
        (o'.isFatal = false → o'.left = true ∧ offers rest ≠ []) := by
  obtain ⟨hp2, evs, hl2, he2⟩ :=
    offer_quiet w p result w2 (g_switch_frame (quiet_frame env henv) sfuel _ p w2 (by rw [hg]; exact hw2))
  obtain ⟨hp', rest, hl, hpre, -, hfat, hleft⟩ := ih
  have hoff := offers_offer_cons p result w.pyerr evs rest he2
  have hanc : ∀ m, ancestors w2 m (w2.greenlets p).parent = ancestors w m (w.greenlets p).parent := by
    intro m; rw [hp2 p]; exact ancestors_congr w w2 hp2 m _
  refine ⟨fun g => by rw [hp', hp2], Event.offer p result w.pyerr :: (evs ++ rest), ?_, ?_,
    ?_, ?_, ?_⟩
  · rw [hl, hl2]; simp
  · rw [hoff]
    simp only [ancestors]
    rw [hanc] at hpre
    exact (List.prefix_cons_inj p).mpr hpre
  · intro q hq; simp only [Option.some.injEq] at hq; subst hq; exact ⟨_, rfl⟩
  · intro hf m hm
    rw [hoff] at hm ⊢
    obtain ⟨k, rfl⟩ : ∃ k, m = k + 1 := ⟨m - 1, by simp at hm; omega⟩
    simp only [ancestors]
    rw [← hanc, hfat hf k (by simpa using hm)]
  · intro hf
    exact ⟨(hleft hf).1, by rw [hoff]; simp⟩

/-- The offers of the parent loop: when the loop ends in a world, the log grew by
`rest`, the offers in `rest` were made to a prefix of the parent chain, in its
order, and the first of them carries `result`; the loop ends in
`Py_FatalError` only with the whole chain offered, and otherwise the stack
was switched. -/
theorem parent_loop_offers (env : Env) (henv : EnvKeepsParents env) (sfuel : Nat) :
    ∀ (fuel : Nat) (w : World) (parent : Option GId) (result : Option PyObj) (w' : World),
      (parent_loop env sfuel fuel w parent result).world = some w' →
      (∀ g, (w'.greenlets g).parent = (w.greenlets g).parent) ∧
      ∃ rest, w'.log = w.log ++ rest ∧
        offers rest <+: ancestors w fuel parent ∧
        (∀ p, parent = some p → ∃ tl, rest = Event.offer p result w.pyerr :: tl) ∧
        ((parent_loop env sfuel fuel w parent result).isFatal = true →
          ∀ n, (offers rest).length ≤ n → ancestors w n parent = offers rest) ∧
        ((parent_loop env sfuel fuel w parent result).isFatal = false →
          (parent_loop env sfuel fuel w parent result).left = true ∧ offers rest ≠ []) := by
  intro fuel
  induction fuel with
  | zero => intro w parent result w' h; simp [parent_loop, Outcome.world] at h
  | succ n ih =>
    intro w parent result w' h
    cases parent with
    | none =>
      simp only [parent_loop, Outcome.world, Option.some.injEq] at h
      subst h
      refine ⟨fun _ => rfl, [.fatal], rfl, ?_, ?_, ?_, ?_⟩
      · simp [offers, Event.offered, ancestors]
      · intro p hp; simp at hp
      · intro _ m _; simp [ancestors_none, offers, Event.offered]
      · intro hf; simp [parent_loop, Outcome.isFatal] at hf
    | some p =>
      have hnf := g_switch_isFatal env sfuel (offer w p result) p
      rw [parent_loop] at h ⊢
      cases hg : g_switch env sfuel (offer w p result) p with
      | returned r w2 =>
        rw [hg] at h
        exact parent_loop_back env henv sfuel n w w2 p result r _ _ w' hg rfl (ih w2 _ r w' h)
      | raised w2 =>
        rw [hg] at h
        exact parent_loop_back env henv sfuel n w w2 p result none _ _ w' hg rfl (ih w2 _ none w' h)
      | resumed t r w2 =>
        rw [hg] at h
        exact parent_loop_left env henv sfuel n w p result _ w' hg h rfl rfl
      | resumed_raise t w2 =>
        rw [hg] at h
        exact parent_loop_left env henv sfuel n w p result _ w' hg h rfl rfl
      | entered t a run w2 =>
        rw [hg] at h
        exact parent_loop_left env henv sfuel n w p result _ w' hg h rfl rfl
      | fatal w2 => rw [hg] at hnf; simp [Outcome.isFatal] at hnf
      | null_deref => rw [hg] at h; simp [Outcome.world] at h
      | out_of_fuel => rw [hg] at h; simp [Outcome.world] at h

theorem plain_keeps_parents : EnvKeepsParents Env.plain := by
  refine ⟨?_, ?_⟩
  · intro w g h
    simp only [Env.plain]
    split <;> rfl
  · intro w tf ev o t h
    rfl

theorem g_handle_exit_log (w : World) (r : Option PyObj) : (g_handle_exit w r).2.log = w.log := by
  unfold g_handle_exit
  cases r with
  | some x => rfl
  | none =>
    cases w.pyerr with
    | none => rfl
    | some e => simp only []; split <;> rfl

theorem inner_bootstrap_result_inactive (w : World) (self : GId) (result : Option PyObj) :
    PyGreenlet_ACTIVE (inner_bootstrap_result w self result).2 self = false ∧
    (inner_bootstrap_result w self result).2.log = w.log := by
  unfold inner_bootstrap_result
  simp only []
  refine ⟨?_, ?_⟩
  · simp [PyGreenlet_ACTIVE, StackState.active, StackState.set_inactive]
  · simp only [setStack_log, g_handle_exit_log, release_args_log]
    split_ifs <;> simp

theorem parent_loop_stop (env : Env) (sfuel n : Nat) (w : World) (p : GId)
    (result : Option PyObj)
    (h : (g_switch env sfuel (offer w p result) p).cameBack = false) :
    parent_loop env sfuel (n + 1) w (some p) result = g_switch env sfuel (offer w p result) p ∧
    attempts env sfuel (n + 1) w (some p) result
      = [(p, result, g_switch env sfuel (offer w p result) p)] := by
  rw [parent_loop, attempts]
  cases hg : g_switch env sfuel (offer w p result) p <;> rw [hg] at h <;>
    simp_all [Outcome.cameBack]

/-- The parent loop and its attempts, for a chain that ends within the fuel: the
attempts follow the parent chain, the loop ends in `Py_FatalError` exactly when
every attempt came back, the whole chain was then attempted, and otherwise the
loop ends with what the last attempt did. -/
theorem parent_loop_attempts (env : Env) (henv : EnvKeepsParents env) (sfuel : Nat) :
    ∀ (fuel : Nat) (w : World) (parent : Option GId) (result : Option PyObj),
      (ancestors w fuel parent).length < fuel →
      (attempts env sfuel fuel w parent result).map (fun a => a.1) <+: ancestors w fuel parent ∧
      (parent_loop env sfuel fuel w parent result).isFatal
        = (attempts env sfuel fuel w parent result).all (fun a => a.2.2.cameBack) ∧
      ((attempts env sfuel fuel w parent result).all (fun a => a.2.2.cameBack) = true →
        (attempts env sfuel fuel w parent result).map (fun a => a.1)
          = ancestors w fuel parent) ∧
      ((attempts env sfuel fuel w parent result).all (fun a => a.2.2.cameBack) = false →
        ∃ pre a, attempts env sfuel fuel w parent result = pre ++ [a] ∧
          (∀ b ∈ pre, b.2.2.cameBack = true) ∧ a.2.2.cameBack = false ∧
          parent_loop env sfuel fuel w parent result = a.2.2) := by
  intro fuel
  induction fuel with
  | zero => intro w parent result h; simp at h
  | succ n ih =>
    intro w parent result hlen
    cases parent with
    | none =>
      refine ⟨by simp [attempts], by simp [attempts, parent_loop, Outcome.isFatal],
        fun _ => by simp [attempts, ancestors], fun h => by simp [attempts] at h⟩
    | some p =>
      have hlen' : (ancestors w n (w.greenlets p).parent).length < n := by
        simp only [ancestors, List.length_cons] at hlen
        omega
      have hback : ∀ (r : Option PyObj) (w2 : World),
          (g_switch env sfuel (offer w p result) p).world = some w2 →
          parent_loop env sfuel (n + 1) w (some p) result
            = parent_loop env sfuel n w2 (w2.greenlets p).parent r →
          attempts env sfuel (n + 1) w (some p) result
            = (p, result, g_switch env sfuel (offer w p result) p) ::
                attempts env sfuel n w2 (w2.greenlets p).parent r →
          (g_switch env sfuel (offer w p result) p).cameBack = true →
          ((attempts env sfuel (n + 1) w (some p) result).map (fun a => a.1)
              <+: ancestors w (n + 1) (some p) ∧
            (parent_loop env sfuel (n + 1) w (some p) result).isFatal
              = (attempts env sfuel (n + 1) w (some p) result).all (fun a => a.2.2.cameBack) ∧
            ((attempts env sfuel (n + 1) w (some p) result).all (fun a => a.2.2.cameBack) = true →
              (attempts env sfuel (n + 1) w (some p) result).map (fun a => a.1)
                = ancestors w (n + 1) (some p)) ∧
            ((attempts env sfuel (n + 1) w (some p) result).all (fun a => a.2.2.cameBack)
                = false →
              ∃ pre a, attempts env sfuel (n + 1) w (some p) result = pre ++ [a] ∧
                (∀ b ∈ pre, b.2.2.cameBack = true) ∧ a.2.2.cameBack = false ∧
                parent_loop env sfuel (n + 1) w (some p) result = a.2.2)) := by
        intro r w2 hw2 hpl hat hcb
        obtain ⟨hp2, -⟩ := offer_quiet w p result w2
          (g_switch_frame (quiet_frame env henv) sfuel _ p w2 hw2)
        have hanc : ancestors w2 n (w2.greenlets p).parent
            = ancestors w n (w.greenlets p).parent := by
          rw [hp2 p]; exact ancestors_congr w w2 hp2 n _
        obtain ⟨i1, i2, i3, i4⟩ := ih w2 (w2.greenlets p).parent r (by rw [hanc]; exact hlen')
        rw [hat, hpl]
        simp only [List.map_cons, List.all_cons, hcb, Bool.true_and, ancestors]
        rw [hanc] at i1 i3
        refine ⟨(List.prefix_cons_inj p).mpr i1, i2, fun h => by rw [i3 h], fun h => ?_⟩
        obtain ⟨pre, a, e1, e2, e3, e4⟩ := i4 h
        refine ⟨(p, result, g_switch env sfuel (offer w p result) p) :: pre, a,
          by rw [e1]; rfl, ?_, e3, e4⟩
        intro b hb
        rcases List.mem_cons.mp hb with rfl | hb
        · exact hcb
        · exact e2 b hb
      cases hg : g_switch env sfuel (offer w p result) p with
      | returned r w2 =>
        exact hback r w2 (by rw [hg]; rfl) (by rw [parent_loop, hg])
          (by rw [attempts, hg]) (by rw [hg]; rfl)
      | raised w2 =>
        exact hback none w2 (by rw [hg]; rfl) (by rw [parent_loop, hg])
          (by rw [attempts, hg]) (by rw [hg]; rfl)
      | _ =>
        have hcb : (g_switch env sfuel (offer w p result) p).cameBack = false := by
          rw [hg]; rfl
        have hnf := g_switch_isFatal env sfuel (offer w p result) p
        obtain ⟨e1, e2⟩ := parent_loop_stop env sfuel n w p result hcb
        rw [e1, e2]
        refine ⟨by simp [ancestors], by simp [hcb, hnf], fun h => by simp [hcb] at h,
          fun _ => ⟨[], _, rfl, by simp, hcb, rfl⟩⟩

theorem slp_fails_keeps_parents : EnvKeepsParents Env.slp_fails := by
  refine ⟨?_, ?_⟩
  · intro w g h
    simp only [Env.slp_fails, Env.plain]
    split <;> rfl
  · intro w tf ev o t h
    rfl

/-- C7: after the body of a greenlet ended, `inner_bootstrap` first makes the greenlet
inactive and records nothing, then runs the parent loop from its parent with
the terminal result.  For a parent chain that ends within the fuel and code
outside the module that leaves the parent links alone, the loop ends with an
outcome that its attempts determine: the switches it attempts go to the
greenlets of the parent chain in chain order, the first one to the direct
parent with the terminal result; it ends in `Py_FatalError` exactly when every
attempted switch came back (none for an empty chain), and then the whole chain
was attempted; otherwise the last attempt is the only one that did not come
back, and the loop ends with what that call of `g_switch` did. -/
theorem termination_relay (env : Env) (henv : EnvKeepsParents env) (sfuel fuel : Nat) (w : World)
    (self : GId) (args : SwitchingArgs) (call : World → World × Option PyObj)
    (hlen : (ancestors (body_end w self args call).2 fuel
      ((body_end w self args call).2.greenlets self).parent).length < fuel) :
    inner_bootstrap_exit env sfuel fuel w self args call
      = parent_loop env sfuel fuel (body_end w self args call).2
          ((body_end w self args call).2.greenlets self).parent (body_end w self args call).1 ∧
    PyGreenlet_ACTIVE (body_end w self args call).2 self = false ∧
    (body_end w self args call).2.log = w.log ∧
    (attempts env sfuel fuel (body_end w self args call).2
        ((body_end w self args call).2.greenlets self).parent
        (body_end w self args call).1).map (fun a => a.1)
      <+: ancestors (body_end w self args call).2 fuel
        ((body_end w self args call).2.greenlets self).parent ∧
    (∀ p, ((body_end w self args call).2.greenlets self).parent = some p →
      ∃ tl, attempts env sfuel fuel (body_end w self args call).2
          ((body_end w self args call).2.greenlets self).parent (body_end w self args call).1
        = (p, (body_end w self args call).1,
            g_switch env sfuel
              (offer (body_end w self args call).2 p (body_end w self args call).1) p) :: tl) ∧
    (inner_bootstrap_exit env sfuel fuel w self args call).isFatal
      = (attempts env sfuel fuel (body_end w self args call).2
          ((body_end w self args call).2.greenlets self).parent
          (body_end w self args call).1).all (fun a => a.2.2.cameBack) ∧
    ((attempts env sfuel fuel (body_end w self args call).2
        ((body_end w self args call).2.greenlets self).parent
        (body_end w self args call).1).all (fun a => a.2.2.cameBack) = true →
      (attempts env sfuel fuel (body_end w self args call).2
          ((body_end w self args call).2.greenlets self).parent
          (body_end w self args call).1).map (fun a => a.1)
        = ancestors (body_end w self args call).2 fuel
          ((body_end w self args call).2.greenlets self).parent) ∧
    ((attempts env sfuel fuel (body_end w self args call).2
        ((body_end w self args call).2.greenlets self).parent
        (body_end w self args call).1).all (fun a => a.2.2.cameBack) = false →
      ∃ pre a, attempts env sfuel fuel (body_end w self args call).2
          ((body_end w self args call).2.greenlets self).parent (body_end w self args call).1
          = pre ++ [a] ∧
        (∀ b ∈ pre, b.2.2.cameBack = true) ∧ a.2.2.cameBack = false ∧
        inner_bootstrap_exit env sfuel fuel w self args call = a.2.2) := by
  have heq : inner_bootstrap_exit env sfuel fuel w self args call
      = parent_loop env sfuel fuel (body_end w self args call).2
          ((body_end w self args call).2.greenlets self).parent (body_end w self args call).1 :=
    rfl
  obtain ⟨a1, a2, a3, a4⟩ := parent_loop_attempts env henv sfuel fuel _ _
    (body_end w self args call).1 hlen
  refine ⟨heq, (inner_bootstrap_result_inactive _ _ _).1, ?_, a1, ?_, by rw [heq]; exact a2, a3,
    by rw [heq]; exact a4⟩
  · unfold body_end
    rw [(inner_bootstrap_result_inactive _ _ _).2]; rfl
  · intro p hp
    rw [hp]
    obtain ⟨m, rfl⟩ : ∃ m, fuel = m + 1 := ⟨fuel - 1, by omega⟩
    exact ⟨_, by rw [attempts]⟩

/-- C7, witness: in `demo_relay` the body of greenlet `6` returns.  The switch to the
parent `5` comes back (it has no `run`), the switch to the main greenlet `0`
goes through, and there is no fatal error.  In `demo_running`, with a platform
switch that fails, the body of greenlet `1` returns; the switch to its only
ancestor `0` comes back and the loop ends in `Py_FatalError`. -/
theorem termination_relay_witness :
    ((attempts Env.plain 5 5 (body_end demo_relay 6 ⟨some (.tuple []), none⟩ call_returns).2
        (some 5) (body_end demo_relay 6 ⟨some (.tuple []), none⟩ call_returns).1).map
      (fun a => (a.1, a.2.2.cameBack)) = [(5, true), (0, false)] ∧
      (inner_bootstrap_exit Env.plain 5 5 demo_relay 6 ⟨some (.tuple []), none⟩
        call_returns).isFatal = false ∧
      (inner_bootstrap_exit Env.plain 5 5 demo_relay 6 ⟨some (.tuple []), none⟩
        call_returns).isFatal
        = (attempts Env.plain 5 5 (body_end demo_relay 6 ⟨some (.tuple []), none⟩ call_returns).2
          ((body_end demo_relay 6 ⟨some (.tuple []), none⟩ call_returns).2.greenlets 6).parent
          (body_end demo_relay 6 ⟨some (.tuple []), none⟩ call_returns).1).all
            (fun a => a.2.2.cameBack)) ∧
    ((attempts Env.slp_fails 5 5
        (body_end demo_running 1 ⟨some (.tuple []), none⟩ call_returns).2
        (some 0) (body_end demo_running 1 ⟨some (.tuple []), none⟩ call_returns).1).map
      (fun a => (a.1, a.2.2.cameBack)) = [(0, true)] ∧
      (inner_bootstrap_exit Env.slp_fails 5 5 demo_running 1 ⟨some (.tuple []), none⟩
        call_returns).isFatal = true ∧
      (inner_bootstrap_exit Env.slp_fails 5 5 demo_running 1 ⟨some (.tuple []), none⟩
        call_returns).isFatal
        = (attempts Env.slp_fails 5 5
          (body_end demo_running 1 ⟨some (.tuple []), none⟩ call_returns).2
          ((body_end demo_running 1 ⟨some (.tuple []), none⟩ call_returns).2.greenlets 1).parent
          (body_end demo_running 1 ⟨some (.tuple []), none⟩ call_returns).1).all
            (fun a => a.2.2.cameBack)) :=
  ⟨⟨rfl, rfl,
      (termination_relay Env.plain plain_keeps_parents 5 5 demo_relay 6
        ⟨some (.tuple []), none⟩ call_returns (by decide)).2.2.2.2.2.1⟩,
    ⟨rfl, rfl,
      (termination_relay Env.slp_fails slp_fails_keeps_parents 5 5 demo_running 1
        ⟨some (.tuple []), none⟩ call_returns (by decide)).2.2.2.2.2.1⟩⟩

theorem lifecycle_congr (w w1 : World) (g : GId)
    (h : (w1.greenlets g).stack_state = (w.greenlets g).stack_state) :
    lifecycle w1 g = lifecycle w g := by
  simp [lifecycle, h]

theorem forward_of_stacks (w w1 : World)
    (h : ∀ g, (w1.greenlets g).stack_state = (w.greenlets g).stack_state) : Forward w w1 :=
  fun g => by rw [lifecycle_congr w w1 g (h g)]

theorem forward_refl (w : World) : Forward w w := fun _ => Nat.le_refl _

theorem forward_trans (a b c : World) (h1 : Forward a b) (h2 : Forward b c) : Forward a c :=
  fun g => Nat.le_trans (h1 g) (h2 g)

theorem lifecycle_not_started (w : World) (g : GId) (h : PyGreenlet_STARTED w g = false) :
    (lifecycle w g).rank = 0 := by
  simp only [PyGreenlet_STARTED] at h
  simp [lifecycle, StackState.lifecycle, h, Lifecycle.rank]

theorem forward_frame (env : Env) (henv : EnvForward env) : Frame env Forward where
  refl := forward_refl
  trans := forward_trans
  record := fun w e _ => forward_of_stacks _ _ (fun _ => rfl)
  setArgs := fun w g a => forward_of_stacks _ _ (fun h => by simp)
  ensure := fun w g => forward_of_stacks _ _ (fun h => by simp)
  setErr := fun w e => forward_of_stacks _ _ (fun _ => rfl)
  setThread := fun w t x => forward_of_stacks _ _ (fun _ => rfl)
  started := fun w g rc m => forward_of_stacks _ _ (fun h => by
    simp only [setGreenlet_greenlets]; split
    · next hg => subst hg; rfl
    · rfl)
  restack := by
    intro w w1 g x hns h1 h
    by_cases hg : h = g
    · subst hg; rw [lifecycle_not_started w h hns]; exact Nat.zero_le _
    · have : lifecycle (w1.setStack g x) h = lifecycle w1 h :=
        lifecycle_congr _ _ h (by simp [hg])
      rw [this]; exact h1 h
  getattr := fun w g h => by
    have := henv.1 w g h
    rwa [show lifecycle (w.after (env.getattr_run w g).1) h = lifecycle (env.getattr_run w g).1 h
      from rfl]
  trace := fun w tf ev o t h => by
    have := henv.2.1 w tf ev o t h
    rwa [show lifecycle (w.after (env.call_tracefunc w tf ev o t).1) h
      = lifecycle (env.call_tracefunc w tf ev o t).1 h from rfl]
  slp := fun w t h => by
    have := henv.2.2 w t h
    simp only [lifecycle, setStacks_stack_state, this]
    exact Nat.le_refl _

theorem forward_offer (w : World) (p : GId) (r : Option PyObj) : Forward w (offer w p r) :=
  forward_of_stacks _ _ (fun h => by simp [offer])

theorem parent_loop_forward (env : Env) (henv : EnvForward env) (sfuel : Nat) :
    ∀ (fuel : Nat) (w : World) (parent : Option GId) (result : Option PyObj) (w' : World),
      (parent_loop env sfuel fuel w parent result).world = some w' → Forward w w' := by
  intro fuel
  induction fuel with
  | zero => intro w parent result w' h; simp [parent_loop, Outcome.world] at h
  | succ n ih =>
    intro w parent result w' h
    cases parent with
    | none =>
      simp only [parent_loop, Outcome.world, Option.some.injEq] at h
      subst h
      exact forward_of_stacks _ _ (fun _ => rfl)
    | some p =>
      have hF := forward_frame env henv
      rw [parent_loop] at h
      have hstep : ∀ w2, (g_switch env sfuel (offer w p result) p).world = some w2 →
          Forward w w2 := fun w2 h2 =>
        forward_trans _ _ _ (forward_offer w p result) (g_switch_frame hF sfuel _ p w2 h2)
      cases hg : g_switch env sfuel (offer w p result) p with
      | returned r w2 =>
        rw [hg] at h hstep
        exact forward_trans _ _ _ (hstep w2 rfl) (ih w2 _ r w' h)
      | raised w2 =>
        rw [hg] at h hstep
        exact forward_trans _ _ _ (hstep w2 rfl) (ih w2 _ none w' h)
      | resumed t r w2 => rw [hg] at h hstep; exact hstep w' h
      | resumed_raise t w2 => rw [hg] at h hstep; exact hstep w' h
      | entered t a run w2 => rw [hg] at h hstep; exact hstep w' h
      | fatal w2 => rw [hg] at h hstep; exact hstep w' h
      | null_deref => rw [hg] at h; simp [Outcome.world] at h
      | out_of_fuel => rw [hg] at h; simp [Outcome.world] at h

theorem forward_set_inactive (w : World) (self : GId) :
    Forward w (w.setStack self (w.greenlets self).stack_state.set_inactive) := by
  intro g
  by_cases hg : g = self
  · subst hg
    simp only [lifecycle, setStack_stack_state, if_true, StackState.lifecycle, StackState.started,
      StackState.active, StackState.set_inactive]
    cases (w.greenlets g).stack_state.stack_stop with
    | none => simp [Lifecycle.rank]
    | some _ =>
      simp only [Option.isSome_some, if_true, Option.isSome_none, Bool.false_eq_true, if_false]
      split <;> simp [Lifecycle.rank]
  · have := lifecycle_congr w (w.setStack self (w.greenlets self).stack_state.set_inactive) g
      (by simp [hg])
    rw [this]

theorem g_handle_exit_stacks (w : World) (r : Option PyObj) (g : GId) :
    ((g_handle_exit w r).2.greenlets g).stack_state = (w.greenlets g).stack_state := by
  unfold g_handle_exit
  cases r with
  | some x => rfl
  | none =>
    cases w.pyerr with
    | none => rfl
    | some e => simp only []; split <;> rfl

theorem inner_bootstrap_result_forward (w : World) (self : GId) (result : Option PyObj) :
    Forward w (inner_bootstrap_result w self result).2 := by
  unfold inner_bootstrap_result
  simp only []
  refine forward_trans _ _ _ ?_ (forward_set_inactive _ self)
  apply forward_of_stacks
  intro g
  rw [g_handle_exit_stacks]
  split_ifs <;> simp

theorem green_switch_world (env : Env) (fuel : Nat) (w : World) (self : GId) (args : PyObj)
    (kwargs : Option PyObj) :
    (green_switch env fuel w self args kwargs).world
      = (g_switch env fuel ((w.ensureSwitchingState self).setArgs self ⟨some args, kwargs⟩)
          self).world := by
  unfold green_switch
  cases g_switch env fuel ((w.ensureSwitchingState self).setArgs self ⟨some args, kwargs⟩) self <;>
    rfl

theorem throw_greenlet_forward (env : Env) (henv : EnvForward env) (fuel : Nat) (w : World)
    (self : GId) (e : PyErr) (w' : World)
    (h : (throw_greenlet env fuel w self e).world = some w') : Forward w w' := by
  have hF := forward_frame env henv
  unfold throw_greenlet at h
  simp only [] at h
  have hpre : ∀ (r : Option PyObj × World),
      (∀ g, (r.2.greenlets g).stack_state = (w.greenlets g).stack_state) →
      ∀ o, o = g_switch env fuel ((r.2.ensureSwitchingState self).setArgs self ⟨r.1, none⟩) self →
      (match o with
        | .returned x w1 => Outcome.returned (single_result x) w1
        | o => o).world = some w' → Forward w w' := by
    intro r hr o ho hw
    have hw2 : o.world = some w' := by
      cases o <;> exact hw
    rw [ho] at hw2
    refine forward_trans _ _ _ (forward_of_stacks _ _ (fun g => ?_)) (g_switch_frame hF fuel _ self w' hw2)
    simp [hr]
  split_ifs at h
  · exact hpre _ (fun g => by rw [g_handle_exit_stacks]; rfl) _ rfl h
  · exact hpre _ (fun g => rfl) _ rfl h

theorem kill_greenlet_forward (env : Env) (henv : EnvForward env) (fuel : Nat) (w : World)
    (self : GId) (w' : World) (h : (kill_greenlet env fuel w self).world = some w') :
    Forward w w' ∨
      ((w.greenlets self).main_greenlet_s ≠ some (w.threads w.this_thread).main_greenlet ∧
        (∃ m, (w.greenlets self).main_greenlet_s = some m ∧ (w.greenlets m).thread_state = none) ∧
        lifecycle w' self = .NOT_STARTED ∧ ∀ g, g ≠ self → lifecycle w' g = lifecycle w g) := by
  have hF := forward_frame env henv
  unfold kill_greenlet at h
  split_ifs at h with hsame
  · left
    simp only [] at h
    have hk : ∀ w2, (kill env fuel (w.setParent self
        (some (w.threads w.this_thread).current_greenlet)) self).world = some w2 →
        Forward w w2 := by
      intro w2 h2
      refine forward_trans _ _ _ (forward_of_stacks _ _ (fun g => ?_))
        (g_switch_frame hF fuel _ self w2 h2)
      simp [World.raise]
    cases hkill : kill env fuel (w.setParent self
        (some (w.threads w.this_thread).current_greenlet)) self with
    | returned r w1 =>
      rw [hkill] at h hk
      simp only [Kill.world, Option.some.injEq] at h; subst h
      exact forward_trans _ _ _ (hk w1 rfl) (forward_of_stacks _ _ (fun g => by simp))
    | raised w1 =>
      rw [hkill] at h hk
      simp only [Kill.world, Option.some.injEq] at h; subst h
      exact forward_trans _ _ _ (hk w1 rfl) (forward_of_stacks _ _ (fun g => by simp))
    | resumed t r w1 => rw [hkill] at h hk; exact hk w' h
    | resumed_raise t w1 => rw [hkill] at h hk; exact hk w' h
    | entered t a run w1 => rw [hkill] at h hk; exact hk w' h
    | fatal w1 => rw [hkill] at h hk; exact hk w' h
    | null_deref => rw [hkill] at h; simp [Kill.world] at h
    | out_of_fuel => rw [hkill] at h; simp [Kill.world] at h
  · cases hm : (w.greenlets self).main_greenlet_s with
    | none => rw [hm] at h; simp [Kill.world] at h
    | some m =>
      rw [hm] at h
      simp only [] at h
      cases hts : (w.greenlets m).thread_state with
      | some ts =>
        rw [hts] at h
        simp only [Kill.world, Option.some.injEq] at h; subst h
        exact Or.inl (forward_of_stacks _ _ (fun g => rfl))
      | none =>
        rw [hts] at h
        simp only [Kill.world, Option.some.injEq] at h; subst h
        refine Or.inr ⟨by rw [← hm]; exact hsame, ⟨m, rfl, hts⟩, ?_, ?_⟩
        · simp [lifecycle, StackState.lifecycle, StackState.new, StackState.started]
        · intro g hg
          exact lifecycle_congr _ _ g (by simp [hg])

/-- C9 (as amended): over a switch, a throw, a bootstrap and its failure
(`g_initialstub`), the end of a body and a kill, the lifecycle state of every
greenlet stays or moves forward on the path NOT_STARTED, ACTIVE or SUSPENDED,
DEAD, with one exception: `kill_greenlet` called from another thread on a
greenlet whose owning thread has exited resets the stack state of that
greenlet, which makes it NOT_STARTED (and changes no other greenlet).  For code
outside the module that moves lifecycle states only forward, and a platform
switch that keeps them. -/
theorem lifecycle_forward_except_orphan_kill (env : Env) (henv : EnvForward env) (fuel : Nat)
    (w : World) (self : GId) :
    (∀ w', (g_switch env fuel w self).world = some w' → Forward w w') ∧
    (∀ args kwargs w', (green_switch env fuel w self args kwargs).world = some w' →
      Forward w w') ∧
    (∀ e w', (throw_greenlet env fuel w self e).world = some w' → Forward w w') ∧
    (∀ w', (g_initialstub env fuel w self).world = some w' → Forward w w') ∧
    (∀ sfuel args call w', Forward w (call w).1 →
      (inner_bootstrap_exit env sfuel fuel w self args call).world = some w' → Forward w w') ∧
    (∀ w', (kill_greenlet env fuel w self).world = some w' →
      Forward w w' ∨
        ((w.greenlets self).main_greenlet_s ≠ some (w.threads w.this_thread).main_greenlet ∧
          (∃ m, (w.greenlets self).main_greenlet_s = some m ∧
            (w.greenlets m).thread_state = none) ∧
          lifecycle w' self = .NOT_STARTED ∧ ∀ g, g ≠ self → lifecycle w' g = lifecycle w g)) := by
  have hF := forward_frame env henv
  refine ⟨fun w' h => g_switch_frame hF fuel w self w' h, ?_, ?_, ?_, ?_, ?_⟩
  · intro args kwargs w' h
    rw [green_switch_world] at h
    exact forward_trans _ _ _ (forward_of_stacks _ _ (fun g => by simp))
      (g_switch_frame hF fuel _ self w' h)
  · exact fun e w' h => throw_greenlet_forward env henv fuel w self e w' h
  · exact fun w' h => g_initialstub_frame hF fuel w self w' h
  · intro sfuel args call w' hcall h
    unfold inner_bootstrap_exit at h
    simp only [] at h
    have h0 : Forward w (w.after (if !args.toBool then (w, none) else call w).1) := by
      split_ifs
      · exact forward_refl w
      · exact hcall
    exact forward_trans _ _ _ (forward_trans _ _ _ h0 (inner_bootstrap_result_forward _ self _))
      (parent_loop_forward env henv sfuel fuel _ _ _ w' h)
  · exact fun w' h => kill_greenlet_forward env henv fuel w self w' h

theorem plain_forward : EnvForward Env.plain := by
  refine ⟨?_, ?_, ?_⟩
  · intro w g
    simp only [Env.plain]
    split
    · exact forward_refl w
    · exact forward_of_stacks _ _ (fun _ => rfl)
  · intro w tf ev o t; exact forward_refl w
  · intro w t g; rfl

/-- C9, witness: the operations in `demo`, on the new greenlet `3`. -/
theorem lifecycle_forward_except_orphan_kill_witness :
    EnvForward Env.plain ∧
    ∀ w', (g_switch Env.plain 5 demo 3).world = some w' → Forward demo w' :=
  ⟨plain_forward, (lifecycle_forward_except_orphan_kill Env.plain plain_forward 5 demo 3).1⟩

/-- C9, counterexample to the claim as stated: in `demo_orphan` the greenlet `11` is
suspended and its thread has exited; `kill_greenlet` called by thread `0` makes
it NOT_STARTED. -/
theorem orphan_kill_unstarts :
    lifecycle demo_orphan 11 = .ACTIVE ∧
    (kill_greenlet Env.plain 5 demo_orphan 11).world.map (fun w => lifecycle w 11)
      = some .NOT_STARTED := by
  refine ⟨by decide, by decide⟩

/-! ## The contract of reparenting -/

theorem green_setparent_loop_end (w : World) (self : GId) : ∀ (k : Nat) (p last : GId)
    (run_info : Option GId), nth_parent w k p = some last → (w.greenlets last).parent = none →
    (∀ j, j ≤ k → nth_parent w j p ≠ some self) →
    ∀ fuel, k + 1 < fuel →
      green_setparent_loop fuel w self (some p) run_info
        = some (some (if PyGreenlet_ACTIVE w last then (w.greenlets last).main_greenlet_s
            else none)) := by
  intro k
  induction k with
  | zero =>
    intro p last run_info h hl hno fuel hf
    obtain ⟨n, rfl⟩ : ∃ n, fuel = n + 2 := ⟨fuel - 2, by omega⟩
    simp only [nth_parent, Option.some.injEq] at h
    subst h
    have hp : p ≠ self := fun e => hno 0 (Nat.le_refl 0) (by simp [nth_parent, e])
    simp [green_setparent_loop, hp, hl]
  | succ k ih =>
    intro p last run_info h hl hno fuel hf
    obtain ⟨n, rfl⟩ : ∃ n, fuel = n + 1 := ⟨fuel - 1, by omega⟩
    have hp : p ≠ self := fun e => hno 0 (Nat.zero_le _) (by simp [nth_parent, e])
    unfold green_setparent_loop
    simp only [hp, if_false]
    unfold nth_parent at h
    cases hpar : (w.greenlets p).parent with
    | none => simp [hpar] at h
    | some q =>
      simp only [hpar] at h
      refine ih q last _ h hl (fun j hj => ?_) n (by omega)
      have := hno (j + 1) (by omega)
      simpa [nth_parent, hpar] using this

/-- C11: for a new parent `p` whose parent chain ends (in `last`, after `k` links),
`green_setparent` returns `0` and assigns `self->parent = p` exactly when `self`
does not occur in that chain, `last` is active with a recorded main greenlet,
and `self` has not started or records that same main greenlet; otherwise it
returns `-1` with an error pending and changes no greenlet.  Deleting the
attribute and assigning an object that is not a greenlet also return `-1` with
an error pending and change no greenlet. -/
theorem green_setparent_contract (w : World) (self p last : GId) (k fuel : Nat)
    (hend : ChainEnds w p k last) (hf : k + 1 < fuel) :
    (Accepts w self p k last →
      green_setparent fuel w self (.greenlet p) = some (0, w.setParent self (some p)) ∧
      ((w.setParent self (some p)).greenlets self).parent = some p) ∧
    (¬ Accepts w self p k last →
      ∃ w', green_setparent fuel w self (.greenlet p) = some (-1, w') ∧
        w'.pyerr.isSome = true ∧ w'.greenlets = w.greenlets) ∧
    (∃ w', green_setparent fuel w self .null = some (-1, w') ∧
      w'.pyerr.isSome = true ∧ w'.greenlets = w.greenlets) ∧
    (∀ o, ∃ w', green_setparent fuel w self (.object o) = some (-1, w') ∧
      w'.pyerr.isSome = true ∧ w'.greenlets = w.greenlets) ∧
    ((∃ w', green_setparent fuel w self (.greenlet p) = some (0, w')) ↔
      Accepts w self p k last) := by
  obtain ⟨hk, hl⟩ := hend
  suffices hboth : (Accepts w self p k last →
      green_setparent fuel w self (.greenlet p) = some (0, w.setParent self (some p)) ∧
      ((w.setParent self (some p)).greenlets self).parent = some p) ∧
    (¬ Accepts w self p k last →
      ∃ w', green_setparent fuel w self (.greenlet p) = some (-1, w') ∧
        w'.pyerr.isSome = true ∧ w'.greenlets = w.greenlets) by
    refine ⟨hboth.1, hboth.2, ⟨_, rfl, rfl, rfl⟩, fun o => ⟨_, rfl, rfl, rfl⟩, ?_, ?_⟩
    · rintro ⟨w', hw'⟩
      by_contra hn
      obtain ⟨w'', h'', _⟩ := hboth.2 hn
      rw [h''] at hw'
      simp only [Option.some.injEq, Prod.mk.injEq] at hw'
      exact absurd hw'.1 (by decide)
    · intro ha
      exact ⟨_, (hboth.1 ha).1⟩
  refine ⟨?_, ?_⟩
  · rintro ⟨hno, hact, hmain, hself⟩
    have hno' : ∀ j, j ≤ k → nth_parent w j p ≠ some self :=
      fun j hj e => hno ⟨j, hj, e⟩
    refine ⟨?_, by simp [World.setParent]⟩
    simp only [green_setparent,
      green_setparent_loop_end w self k p last none hk hl hno' fuel hf, hact, if_true]
    have hne : (w.greenlets last).main_greenlet_s ≠ none := by
      intro e; simp [e] at hmain
    simp only [hne, if_false]
    rcases hself with hs | hs
    · simp [hs]
    · simp [hs]
  · intro hacc
    by_cases hocc : OccursIn w self p k
    · obtain ⟨j, hj, e⟩ := hocc
      refine ⟨w.raise .ValueError "cyclic parent chain", ?_, rfl, rfl⟩
      simp only [green_setparent,
        green_setparent_loop_cycle w self j p none e fuel (by omega)]
    · have hno' : ∀ j, j ≤ k → nth_parent w j p ≠ some self :=
        fun j hj e => hocc ⟨j, hj, e⟩
      simp only [green_setparent,
        green_setparent_loop_end w self k p last none hk hl hno' fuel hf]
      by_cases hri : (if PyGreenlet_ACTIVE w last then (w.greenlets last).main_greenlet_s
          else none) = none
      · exact ⟨w.raise .ValueError "parent must not be garbage collected",
          by simp only [hri, if_true], rfl, rfl⟩
      · simp only [hri, if_false]
        by_cases hact : PyGreenlet_ACTIVE w last = true
        · simp only [hact, if_true] at hri ⊢
          by_cases hth : (PyGreenlet_STARTED w self &&
              (w.greenlets self).main_greenlet_s != (w.greenlets last).main_greenlet_s) = true
          · exact ⟨w.raise .ValueError "parent cannot be on a different thread",
              by simp only [hth, if_true], rfl, rfl⟩
          · exfalso
            apply hacc
            refine ⟨hocc, hact, ?_, ?_⟩
            · cases hm : (w.greenlets last).main_greenlet_s with
              | none => exact absurd hm hri
              | some m => rfl
            · cases hst : PyGreenlet_STARTED w self with
              | false => exact Or.inl rfl
              | true =>
                right
                simpa [hst] using hth
        · simp [hact] at hri

/-- C11, witness: in `demo` the suspended greenlet `1`, whose chain ends in the main
greenlet `0`, becomes the parent of the new greenlet `3`. -/
theorem green_setparent_contract_witness :
    ChainEnds demo 1 1 0 ∧ 1 + 1 < 5 ∧ Accepts demo 3 1 1 0 ∧
    green_setparent 5 demo 3 (.greenlet 1) = some (0, demo.setParent 3 (some 1)) ∧
    ((demo.setParent 3 (some 1)).greenlets 3).parent = some 1 :=
  have hend : ChainEnds demo 1 1 0 := ⟨rfl, rfl⟩
  have hacc : Accepts demo 3 1 1 0 :=
    ⟨by
      rintro ⟨j, hj, e⟩
      have : j = 0 ∨ j = 1 := by omega
      rcases this with rfl | rfl <;> simp [nth_parent, demo, activeG] at e,
     by decide, rfl, Or.inl (by decide)⟩
  ⟨hend, by decide, hacc, (green_setparent_contract demo 3 1 0 1 5 hend (by decide)).1 hacc⟩

/-! ## Acyclicity of the parent links -/

theorem nth_parent_congr (w w' : World) (h : w'.greenlets = w.greenlets) :
    ∀ (k : Nat) (g : GId), nth_parent w' k g = nth_parent w k g := by
  intro k
  induction k with
  | zero => intro g; rfl
  | succ k ih =>
    intro g
    unfold nth_parent
    rw [h]
    cases (w.greenlets g).parent with
    | none => rfl
    | some p => exact ih p

theorem nth_parent_succ (w : World) (k : Nat) (g : GId) :
    nth_parent w (k + 1) g =
      match (w.greenlets g).parent with
      | none => none
      | some p => nth_parent w k p := rfl

theorem nth_parent_add (w : World) : ∀ (a b : Nat) (g : GId),
    nth_parent w (a + b) g = (nth_parent w a g).bind (nth_parent w b) := by
  intro a
  induction a with
  | zero => intro b g; simp [nth_parent]
  | succ a ih =>
    intro b g
    have e : a + 1 + b = (a + b) + 1 := by omega
    rw [e, nth_parent_succ, nth_parent_succ]
    cases (w.greenlets g).parent with
    | none => rfl
    | some p => exact ih b p

theorem nth_parent_setParent_avoid (w : World) (self np : GId) : ∀ (k : Nat) (g : GId),
    (∀ i, i < k → nth_parent (w.setParent self (some np)) i g ≠ some self) →
    nth_parent (w.setParent self (some np)) k g = nth_parent w k g := by
  intro k
  induction k with
  | zero => intro g _; rfl
  | succ k ih =>
    intro g h
    have hg : g ≠ self := fun e => h 0 (Nat.succ_pos k) (by simp [nth_parent, e])
    have hp : ((w.setParent self (some np)).greenlets g).parent = (w.greenlets g).parent := by
      simp [World.setParent, World.setGreenlet, Function.update, hg]
    rw [nth_parent_succ, nth_parent_succ, hp]
    cases hpar : (w.greenlets g).parent with
    | none => rfl
    | some q =>
      refine ih q (fun i hi => ?_)
      have := h (i + 1) (by omega)
      rw [nth_parent_succ, hp, hpar] at this
      exact this

theorem green_setparent_loop_no_self (w : World) (self : GId) : ∀ (fuel : Nat) (p : GId)
    (run_info r : Option GId),
    green_setparent_loop fuel w self (some p) run_info = some (some r) →
    ∀ j, nth_parent w j p ≠ some self := by
  intro fuel
  induction fuel with
  | zero => intro p ri r h; simp [green_setparent_loop] at h
  | succ n ih =>
    intro p ri r h j
    unfold green_setparent_loop at h
    by_cases hp : p = self
    · simp [hp] at h
    · simp only [hp, if_false] at h
      cases j with
      | zero => simpa [nth_parent] using hp
      | succ j =>
        unfold nth_parent
        cases hpar : (w.greenlets p).parent with
        | none => simp
        | some q =>
          rw [hpar] at h
          exact ih q _ r h j

theorem setParent_acyclic (w : World) (self np : GId) (h : Acyclic w)
    (hno : ∀ j, nth_parent w j np ≠ some self) : Acyclic (w.setParent self (some np)) := by
  intro g k hc
  by_cases hv : ∃ i, nth_parent (w.setParent self (some np)) i g = some self
  · obtain ⟨i, hi⟩ := hv
    have h1 : nth_parent (w.setParent self (some np)) (i + (k + 1)) g
        = nth_parent (w.setParent self (some np)) (k + 1) self := by
      rw [nth_parent_add, hi]; rfl
    have h2 : nth_parent (w.setParent self (some np)) ((k + 1) + i) g = some self := by
      rw [nth_parent_add, hc]; exact hi
    rw [Nat.add_comm] at h2
    rw [h1] at h2
    have hp : ((w.setParent self (some np)).greenlets self).parent = some np := by
      simp [World.setParent]
    rw [nth_parent_succ, hp] at h2
    have hex : ∃ j, nth_parent (w.setParent self (some np)) j np = some self := ⟨k, h2⟩
    classical
    have hj := Nat.find_spec hex
    rw [nth_parent_setParent_avoid w self np (Nat.find hex) np
      (fun i hi' e => Nat.find_min hex hi' e)] at hj
    exact hno _ hj
  · have hv' : ∀ i, nth_parent (w.setParent self (some np)) i g ≠ some self :=
      fun i e => hv ⟨i, e⟩
    rw [nth_parent_setParent_avoid w self np (k + 1) g (fun i _ => hv' i)] at hc
    exact h g k hc

theorem nth_parent_rank (w : World) (rank : GId → Nat)
    (h : ∀ g p, (w.greenlets g).parent = some p → rank p < rank g) :
    ∀ (k : Nat) (g r : GId), nth_parent w k g = some r → rank r + k ≤ rank g := by
  intro k
  induction k with
  | zero =>
    intro g r e
    simp only [nth_parent, Option.some.injEq] at e
    subst e
    exact Nat.le_refl _
  | succ k ih =>
    intro g r e
    unfold nth_parent at e
    cases hpar : (w.greenlets g).parent with
    | none => simp [hpar] at e
    | some q =>
      rw [hpar] at e
      have h1 := ih q r e
      have h2 := h g q hpar
      omega

theorem acyclic_of_rank (w : World) (rank : GId → Nat)
    (h : ∀ g p, (w.greenlets g).parent = some p → rank p < rank g) : Acyclic w := by
  intro g k e
  have := nth_parent_rank w rank h (k + 1) g g e
  omega

theorem demo_acyclic : Acyclic demo := by
  refine acyclic_of_rank demo id (fun g p h => ?_)
  unfold demo at h
  simp only at h
  split at h <;> simp [mainG, activeG, deadG, freshG] at h <;> subst h <;> decide

/-- C12: acyclicity of the parent links is an invariant of `green_setparent`: when no
greenlet is reachable from itself through parent links before the call, the
same holds in the world after the call, whatever it returned; and the call does
return, given fuel, when the parent chain of the new parent ends. -/
theorem green_setparent_keeps_acyclic (w : World) (self : GId) (nparent : Borrowed)
    (fuel : Nat) (h : Acyclic w) :
    (∀ r w', green_setparent fuel w self nparent = some (r, w') → Acyclic w') ∧
    (∀ p k last, nparent = .greenlet p → ChainEnds w p k last → k + 1 < fuel →
      (green_setparent fuel w self nparent).isSome = true) := by
  have hraise : ∀ t m, Acyclic (w.raise t m) := fun t m g k e =>
    h g k (by rw [← nth_parent_congr w (w.raise t m) rfl]; exact e)
  constructor
  · intro r w' hr
    cases nparent with
    | null =>
      simp only [green_setparent, Option.some.injEq, Prod.mk.injEq] at hr
      rw [← hr.2]; exact hraise _ _
    | object o =>
      simp only [green_setparent, Option.some.injEq, Prod.mk.injEq] at hr
      rw [← hr.2]; exact hraise _ _
    | greenlet p =>
      simp only [green_setparent] at hr
      cases hl : green_setparent_loop fuel w self (some p) none with
      | none => simp [hl] at hr
      | some x =>
        cases x with
        | none =>
          simp only [hl, Option.some.injEq, Prod.mk.injEq] at hr
          rw [← hr.2]; exact hraise _ _
        | some ri =>
          simp only [hl] at hr
          split_ifs at hr
          · simp only [Option.some.injEq, Prod.mk.injEq] at hr
            rw [← hr.2]; exact hraise _ _
          · simp only [Option.some.injEq, Prod.mk.injEq] at hr
            rw [← hr.2]; exact hraise _ _
          · simp only [Option.some.injEq, Prod.mk.injEq] at hr
            rw [← hr.2]
            exact setParent_acyclic w self p h
              (green_setparent_loop_no_self w self fuel p none ri hl)
  · rintro p k last rfl ⟨hk, hl⟩ hf
    simp only [green_setparent]
    by_cases hocc : ∃ j, j ≤ k ∧ nth_parent w j p = some self
    · obtain ⟨j, hj, e⟩ := hocc
      rw [green_setparent_loop_cycle w self j p none e fuel (by omega)]
      rfl
    · have hno' : ∀ j, j ≤ k → nth_parent w j p ≠ some self :=
        fun j hj e => hocc ⟨j, hj, e⟩
      rw [green_setparent_loop_end w self k p last none hk hl hno' fuel hf]
      simp only []
      split_ifs <;> rfl

/-- C12, witness: `demo` is acyclic, and stays so when the suspended greenlet `1`
becomes the parent of the new greenlet `3`, and when making `3` the parent of
`1` fails on a cycle. -/
theorem green_setparent_keeps_acyclic_witness :
    Acyclic demo ∧ Acyclic (demo.setParent 3 (some 1)) ∧
    Acyclic (demo.raise .ValueError "cyclic parent chain") ∧
    (green_setparent 5 demo 3 (.greenlet 1)).isSome = true :=
  ⟨demo_acyclic,
    (green_setparent_keeps_acyclic demo 3 (.greenlet 1) 5 demo_acyclic).1 0 _ rfl,
    (green_setparent_keeps_acyclic demo 1 (.greenlet 3) 5 demo_acyclic).1 (-1) _ rfl,
    (green_setparent_keeps_acyclic demo 3 (.greenlet 1) 5 demo_acyclic).2 1 1 0 rfl
      ⟨rfl, rfl⟩ (by decide)⟩

/-! ## The result of a switch -/

/-- C15: packaging a payload into a result: the args tuple when no keyword argument
was passed (`kwargs` is `NULL` or an empty dict), the kwargs dict alone when
only keyword arguments were passed (empty args tuple, non-empty dict), the
2-tuple `(args, kwargs)` when both are non-empty; the payload is empty
afterwards, also in the switching state that `g_switch_finish` packaged it
from. -/
theorem consume_args_rules :
    (∀ xs, consume_args ⟨some (.tuple xs), none⟩ = (some (.tuple xs), SwitchingArgs.empty)) ∧
    (∀ xs, consume_args ⟨some (.tuple xs), some (.dict [])⟩
      = (some (.tuple xs), SwitchingArgs.empty)) ∧
    (∀ kv, kv ≠ [] → consume_args ⟨some (.tuple []), some (.dict kv)⟩
      = (some (.dict kv), SwitchingArgs.empty)) ∧
    (∀ xs kv, xs ≠ [] → kv ≠ [] → consume_args ⟨some (.tuple xs), some (.dict kv)⟩
      = (some (.tuple [.tuple xs, .dict kv]), SwitchingArgs.empty)) ∧
    (∀ rhs, (consume_args rhs).2.toBool = false) ∧
    (∀ env w target s origin,
      (g_switch_finish env w target s origin).world.args target = SwitchingArgs.empty) := by
  refine ⟨fun xs => rfl, fun xs => rfl, ?_, ?_, fun rhs => rfl, ?_⟩
  · intro kv hkv
    cases kv with
    | nil => exact absurd rfl hkv
    | cons a l =>
      simp only [consume_args, result_from_args, PyDict_Size, PySequence_Length,
        List.length_cons, List.length_nil]
      have h1 : ¬ ((l.length : Int) + 1 = 0) := by omega
      simp [h1]
  · intro xs kv hxs hkv
    cases kv with
    | nil => exact absurd rfl hkv
    | cons a l =>
      cases xs with
      | nil => exact absurd rfl hxs
      | cons x m =>
        simp only [consume_args, result_from_args, PyDict_Size, PySequence_Length,
          List.length_cons]
        have h1 : ¬ ((l.length : Int) + 1 = 0) := by omega
        have h2 : ¬ ((m.length : Int) + 1 = 0) := by omega
        simp [h1, h2]
  · intro env w target s origin
    unfold g_switch_finish
    simp only []
    split_ifs <;> exact release_args_empty _ _

/-- C15, witness: a payload of keyword arguments only, and one of both kinds. -/
theorem consume_args_rules_witness :
    consume_args ⟨some (.tuple []), some (.dict [(.str "x", .obj 3)])⟩
      = (some (.dict [(.str "x", .obj 3)]), SwitchingArgs.empty) ∧
    consume_args ⟨some (.tuple [.obj 2]), some (.dict [(.str "x", .obj 3)])⟩
      = (some (.tuple [.tuple [.obj 2], .dict [(.str "x", .obj 3)]]), SwitchingArgs.empty) :=
  ⟨consume_args_rules.2.2.1 _ (List.cons_ne_nil _ _),
    consume_args_rules.2.2.2.1 _ _ (List.cons_ne_nil _ _) (List.cons_ne_nil _ _)⟩

/-- C13, the code at the failing input: in `demo` the main greenlet resumes the
suspended greenlet `1` with `switch()`, that is with the empty args tuple and no
kwargs; the `g_switch` pending in `1` returns the empty tuple, `single_result`
leaves it as it is, and the pending `switch` call returns the empty tuple, not
`None`. -/
theorem switch_without_arguments_returns_empty_tuple :
    (green_switch Env.plain 5 demo 1 (.tuple []) none).received = some (1, some (.tuple [])) ∧
    some (PyObj.tuple []) ≠ some PyObj.None := by
  refine ⟨rfl, ?_⟩
  intro h
  cases h

/-! ## Switches under a trace function that returns -/

theorem find_congr (w w' : World)
    (h : ∀ g, (w'.greenlets g).stack_state = (w.greenlets g).stack_state ∧
      (w'.greenlets g).parent = (w.greenlets g).parent ∧
      (w'.greenlets g).main_greenlet_s = (w.greenlets g).main_greenlet_s) :
    ∀ (fuel : Nat) (g : GId), find_and_borrow_main_greenlet_in_lineage fuel w' g
      = find_and_borrow_main_greenlet_in_lineage fuel w g := by
  intro fuel
  induction fuel with
  | zero => intro g; rfl
  | succ n ih =>
    intro g
    unfold find_and_borrow_main_greenlet_in_lineage
    simp only [PyGreenlet_STARTED, (h g).1, (h g).2.1, (h g).2.2]
    cases (w.greenlets g).parent with
    | none => rfl
    | some p => simp only [ih p]

theorem check_switch_allowed_congr (fuel : Nat) (w w' : World) (target : GId)
    (s s' : SwitchingState)
    (h : ∀ g, (w'.greenlets g).stack_state = (w.greenlets g).stack_state ∧
      (w'.greenlets g).parent = (w.greenlets g).parent ∧
      (w'.greenlets g).main_greenlet_s = (w.greenlets g).main_greenlet_s)
    (hts : ∀ g, (w'.greenlets g).thread_state = (w.greenlets g).thread_state)
    (hth : w'.threads = w.threads) (hthis : w'.this_thread = w.this_thread)
    (hs : s'.thread_state = s.thread_state) :
    check_switch_allowed fuel w' target s' = check_switch_allowed fuel w target s := by
  unfold check_switch_allowed
  rw [find_congr w w' h]
  cases find_and_borrow_main_greenlet_in_lineage fuel w target with
  | none => rfl
  | some r =>
    cases r with
    | none => rfl
    | some m => simp only [hts, hth, hthis, hs]

theorem request_switching_state (w : World) (self : GId) (a : SwitchingArgs) :
    (((w.ensureSwitchingState self).setArgs self a).greenlets self).switching_state
      = some ⟨a, switch_thread w self⟩ := by
  unfold switch_thread World.ensureSwitchingState
  cases h : (w.greenlets self).switching_state with
  | none => simp [World.setArgs, World.setGreenlet]
  | some s => simp [World.setArgs, World.setGreenlet, h]

theorem request_switching_state_other (w : World) (self g : GId) (a : SwitchingArgs)
    (hg : g ≠ self) :
    (((w.ensureSwitchingState self).setArgs self a).greenlets g).switching_state
      = (w.greenlets g).switching_state := by
  rw [setArgs_switching_state, if_neg hg, ensure_switching_state_other w self g hg]

theorem request_check (fuel : Nat) (w : World) (self : GId) (a : SwitchingArgs) :
    check_switch_allowed fuel ((w.ensureSwitchingState self).setArgs self a) self
        ⟨a, switch_thread w self⟩
      = check_switch_allowed fuel w self ⟨SwitchingArgs.empty, switch_thread w self⟩ :=
  check_switch_allowed_congr fuel w _ self _ _ (fun g => by simp) (fun g => by simp)
    (by simp) (by simp) rfl

theorem g_calltrace_inert (env : Env) (h : TraceInert env) (w : World) (tf : PyObj)
    (ev : EventName) (origin : Option GId) (target : GId) :
    g_calltrace env w tf ev origin target = (true, w.record (.trace ev origin target)) := by
  have e := h ((w.setErr none).record (.trace ev origin target)) tf ev origin target
  unfold g_calltrace
  simp only [e, if_true, after_self]
  rfl

theorem g_switch_finish_inert (env : Env) (h : TraceInert env) (w : World) (t : GId)
    (s : SwitchingState) (origin : Option GId) :
    ∃ w', g_switch_finish env w t s origin
        = (if w.pyerr.isNone then .returns (result_from_args (w.args t)) w' else .throws w') ∧
      w'.threads = w.threads ∧ w'.pyerr = w.pyerr ∧
      (∀ g, (w'.greenlets g).stack_state = (w.greenlets g).stack_state) ∧
      (∀ g, (w'.greenlets g).parent = (w.greenlets g).parent) ∧
      w'.log = w.log ++ trace_events (w.threads s.thread_state).tracefunc (w.args t) origin t := by
  unfold g_switch_finish
  cases htf : (w.threads s.thread_state).tracefunc with
  | none =>
    refine ⟨release_args w t, ?_, by simp, by simp, by simp, by simp, by simp [trace_events]⟩
    show (if (true && w.pyerr.isNone) = true then _ else _) = _
    cases w.pyerr <;> rfl
  | some tf =>
    simp only [g_calltrace_inert env h]
    refine ⟨release_args (w.record (.trace (if (w.args t).toBool then .switch else .throw)
      origin t)) t, ?_, by simp, by simp, by simp, by simp, by simp [trace_events]⟩
    show (if (true && w.pyerr.isNone) = true then _ else _) = _
    cases w.pyerr <;> rfl

theorem g_switch_resume_inert (env : Env) (hslp : SlpSucceeds env) (htr : TraceInert env)
    (fuel : Nat) (w : World) (p : GId) (s : SwitchingState)
    (hs : (w.greenlets p).switching_state = some s)
    (hc : check_switch_allowed fuel w p s = .allowed)
    (hact : PyGreenlet_ACTIVE w p = true)
    (hcur : (w.threads s.thread_state).current_greenlet ≠ p) :
    ∃ w', g_switch env fuel w p =
        (if w.pyerr.isNone then .resumed p (result_from_args (w.args p)) w'
         else .resumed_raise p w') ∧
      (w'.threads s.thread_state).current_greenlet = p ∧
      w'.log = w.log ++ [.resume p, .slp_switch p] ++
        trace_events (w.threads s.thread_state).tracefunc (w.args p)
          (some (w.threads s.thread_state).current_greenlet) p := by
  have hfuel : fuel ≠ 0 := by
    rintro rfl
    simp [check_switch_allowed, find_and_borrow_main_greenlet_in_lineage] at hc
  obtain ⟨n, rfl⟩ : ∃ n, fuel = n + 1 := ⟨fuel - 1, by omega⟩
  have hcur' : ((w.record (.resume p)).threads s.thread_state).current_greenlet ≠ p := by
    simpa using hcur
  have hact' : PyGreenlet_ACTIVE (w.record (.resume p)) p = true := hact
  simp only [g_switch, hs, hc, g_switch_loop, hact, if_true, resume_target]
  rw [g_switchstack_ok env _ p s hcur' (hslp _ _)]
  simp only [hact', if_true, g_switch_end]
  have hlt : ¬ ((0 : Int) < 0) := by decide
  simp only [hlt, if_false]
  simp only [setThread_greenlets, setStacks_switching_state, record_greenlets, hs]
  obtain ⟨w', hfin, hth, hpy, _, _, hlog⟩ := g_switch_finish_inert env htr
    ((((w.record (.resume p)).record (.slp_switch p)).setStacks
      (env.slp_switch (w.record (.resume p)) p).2).setThread s.thread_state
      { (w.record (.resume p)).threads s.thread_state with current_greenlet := p }) p s
    (some ((w.record (.resume p)).threads s.thread_state).current_greenlet)
  rw [hfin]
  have hne : ¬ (some ((w.record (.resume p)).threads s.thread_state).current_greenlet
      = some p) := by
    simpa using hcur
  have hargs : World.args ((((w.record (.resume p)).record (.slp_switch p)).setStacks
      (env.slp_switch (w.record (.resume p)) p).2).setThread s.thread_state
      { (w.record (.resume p)).threads s.thread_state with current_greenlet := p }) p
      = w.args p := args_congr _ _ _ (by simp)
  refine ⟨w', ?_, ?_, ?_⟩
  · simp only [setThread_pyerr, setStacks_pyerr, record_pyerr, hargs]
    cases hp : w.pyerr with
    | none => simp only [Option.isNone_none, if_true, hne, if_false]
    | some e => simp only [Option.isNone_some, hne, if_false]; rfl
  · rw [hth]; simp
  · rw [hlog, hargs]; simp

theorem move_args_state (w : World) (self r : GId) (sr : SwitchingState)
    (hsr : (w.greenlets r).switching_state = some sr) :
    ∃ w1, move_args w self r = some w1 ∧
      (w1.greenlets r).switching_state = some ⟨w.args self, sr.thread_state⟩ ∧
      w1.threads = w.threads ∧ w1.pyerr = w.pyerr ∧ w1.log = w.log := by
  unfold move_args
  rw [hsr]
  by_cases h : r = self
  · subst h
    refine ⟨w, by simp, ?_, rfl, rfl, rfl⟩
    rw [hsr]
    simp [World.args, hsr]
  · refine ⟨(w.setArgs r (w.args self)).setArgs self SwitchingArgs.empty, by simp [h], ?_,
      by simp, by simp, by simp⟩
    rw [setArgs_switching_state, if_neg h, setArgs_switching_state, if_pos rfl, hsr]
    rfl

theorem resume_target_noop_inert (env : Env) (htr : TraceInert env) (w : World) (r : GId)
    (sr : SwitchingState) (hsr : (w.greenlets r).switching_state = some sr)
    (hcur : (w.threads sr.thread_state).current_greenlet = r) :
    ∃ w', resume_target env w r =
        (if w.pyerr.isNone then .returned (result_from_args (w.args r)) w' else .raised w') ∧
      w'.threads = w.threads ∧
      w'.log = w.log ++ [.resume r] ++
        trace_events (w.threads sr.thread_state).tracefunc (w.args r) (some r) r := by
  have hsr' : ((w.record (.resume r)).greenlets r).switching_state = some sr := hsr
  have hcur' : ((w.record (.resume r)).threads sr.thread_state).current_greenlet = r := hcur
  obtain ⟨w', hfin, hth, hpy, _, _, hlog⟩ :=
    g_switch_finish_inert env htr (w.record (.resume r)) r sr (some r)
  have hargs : (w.record (.resume r)).args r = w.args r := args_congr _ _ _ rfl
  refine ⟨w', ?_, by rw [hth]; rfl, ?_⟩
  · unfold resume_target
    rw [hsr]
    simp only []
    rw [g_switchstack_same env _ r sr hcur']
    have hlt : ¬ ((0 : Int) < 0) := by decide
    simp only [g_switch_end, hlt, if_false, hsr', hfin, record_pyerr, hargs]
    cases w.pyerr with
    | none => simp
    | some e => simp
  · rw [hlog, hargs]; simp

theorem g_switch_noop_inert (env : Env) (htr : TraceInert env) (fuel : Nat) (w : World)
    (self r : GId) (k : Nat) (s sr : SwitchingState)
    (hs : (w.greenlets self).switching_state = some s)
    (hc : check_switch_allowed fuel w self s = .allowed)
    (hres : Resolves w self k r) (hf : k < fuel)
    (hact : PyGreenlet_ACTIVE w r = true)
    (hsr : (w.greenlets r).switching_state = some sr)
    (hcur : (w.threads sr.thread_state).current_greenlet = r) :
    ∃ w', g_switch env fuel w self =
        (if w.pyerr.isNone then .returned (result_from_args (w.args self)) w'
         else .raised w') ∧
      w'.threads = w.threads ∧
      w'.log = w.log ++ [.resume r] ++
        trace_events (w.threads sr.thread_state).tracefunc (w.args self) (some r) r := by
  simp only [g_switch, hs, hc]
  rw [g_switch_loop_skip env w self self r k hres fuel true hf]
  obtain ⟨n, hn⟩ : ∃ n, fuel - k = n + 1 := ⟨fuel - k - 1, by omega⟩
  rw [hn, g_switch_loop]
  simp only [hact, if_true]
  obtain ⟨w1, hm, hs1, hth1, hpy1, hlog1⟩ := move_args_state w self r sr hsr
  have hw1 : (if (true && decide (k = 0)) = true then some w else move_args w self r)
      = some w1 ∨ (k = 0 ∧ r = self) := by
    by_cases hk : k = 0
    · right; subst hk; exact ⟨rfl, resolves_zero w self r hres⟩
    · left; simp [hk, hm]
  rcases hw1 with hw1 | ⟨hk, hrs⟩
  · rw [hw1]
    simp only []
    have hcur1 : (w1.threads (⟨w.args self, sr.thread_state⟩ : SwitchingState).thread_state
        ).current_greenlet = r := by rw [hth1]; exact hcur
    obtain ⟨w', he, hth, hlog⟩ := resume_target_noop_inert env htr w1 r _ hs1 hcur1
    have ha : w1.args r = w.args self := by simp [World.args, hs1]
    refine ⟨w', ?_, by rw [hth, hth1], ?_⟩
    · rw [he, hpy1, ha]
    · rw [hlog, hlog1, hth1, ha]
  · subst hk; subst hrs
    simp only [Bool.and_self, decide_True, if_true]
    exact resume_target_noop_inert env htr w r sr hsr hcur

theorem resolves_congr (w w' : World)
    (h : ∀ g, (w'.greenlets g).stack_state = (w.greenlets g).stack_state ∧
      (w'.greenlets g).parent = (w.greenlets g).parent) :
    ∀ (g r : GId) (k : Nat), Resolves w g k r → Resolves w' g k r := by
  intro g r k hr
  induction hr with
  | here g hg =>
    refine Resolves.here g ?_
    simpa [PyGreenlet_ACTIVE, PyGreenlet_STARTED, (h g).1] using hg
  | skip g p r k ha hst hp _ ih =>
    refine Resolves.skip g p r k ?_ ?_ ?_ ih
    · simpa [PyGreenlet_ACTIVE, (h g).1] using ha
    · simpa [PyGreenlet_STARTED, (h g).1] using hst
    · rw [(h g).2]; exact hp

theorem plain_slp_succeeds : SlpSucceeds Env.plain := fun _ _ => rfl

theorem plain_trace_inert : TraceInert Env.plain := fun _ _ _ _ _ => rfl

/-- C14: a switch that carries exactly one positional argument `x` and no keyword
argument (`kwargs` is `NULL` or an empty dict) into a suspended greenlet makes
the call of `green_switch` pending there return `x` itself, whatever `x` is
(a 1-tuple too), when validation passes, no error is pending, the platform
switch succeeds and the trace function, if there is one, returns. -/
theorem single_argument_received_as_is (env : Env) (hslp : SlpSucceeds env)
    (htr : TraceInert env) (fuel : Nat) (w : World) (target : GId) (x : PyObj)
    (hval : check_switch_allowed fuel w target ⟨SwitchingArgs.empty, switch_thread w target⟩
      = .allowed)
    (hact : PyGreenlet_ACTIVE w target = true)
    (hcur : (w.threads (switch_thread w target)).current_greenlet ≠ target)
    (herr : w.pyerr = none) :
    (green_switch env fuel w target (.tuple [x]) none).received = some (target, some x) ∧
    (green_switch env fuel w target (.tuple [x]) (some (.dict []))).received
      = some (target, some x) := by
  have key : ∀ kwargs, result_from_args ⟨some (.tuple [x]), kwargs⟩ = some (.tuple [x]) →
      (green_switch env fuel w target (.tuple [x]) kwargs).received = some (target, some x) := by
    intro kwargs hk
    have hs1 := request_switching_state w target ⟨some (.tuple [x]), kwargs⟩
    have hc1 := (request_check fuel w target ⟨some (.tuple [x]), kwargs⟩).trans hval
    obtain ⟨w', he, _, _⟩ := g_switch_resume_inert env hslp htr fuel _ target _ hs1 hc1
      (by simpa [PyGreenlet_ACTIVE] using hact) (by simpa using hcur)
    have ha : World.args ((w.ensureSwitchingState target).setArgs target
        ⟨some (.tuple [x]), kwargs⟩) target = ⟨some (.tuple [x]), kwargs⟩ := by
      simp [World.args, hs1]
    have hp : ((w.ensureSwitchingState target).setArgs target
        ⟨some (.tuple [x]), kwargs⟩).pyerr = none := by simpa using herr
    unfold green_switch
    rw [he, hp, ha, hk]
    rfl
  exact ⟨key none rfl, key (some (.dict [])) rfl⟩

/-- C14, witness: in `demo_running` the greenlet `1` switches back to its parent, the
main greenlet, with `42`: the parent's switch returns `42`. -/
theorem single_argument_received_as_is_witness :
    check_switch_allowed 5 demo_running 0 ⟨SwitchingArgs.empty, switch_thread demo_running 0⟩
      = .allowed ∧
    PyGreenlet_ACTIVE demo_running 0 = true ∧
    (demo_running.threads (switch_thread demo_running 0)).current_greenlet ≠ 0 ∧
    (green_switch Env.plain 5 demo_running 0 (.tuple [.obj 42]) none).received
      = some (0, some (.obj 42)) :=
  ⟨by decide, by decide, by decide,
    (single_argument_received_as_is Env.plain plain_slp_succeeds plain_trace_inert 5
      demo_running 0 (.obj 42) (by decide) (by decide) (by decide) rfl).1⟩

/-- C16 (as amended): a switch whose target is the current greenlet, or a dead
greenlet whose first ancestor that is not dead is the current greenlet, returns
its own arguments packaged by the usual rules; no platform switch is made and
no thread state changes, so the current greenlet is the same before and after
the call.  Validation passes, no error is pending and the trace function, if
there is one, returns. -/
theorem switch_to_current_returns_arguments (env : Env) (htr : TraceInert env) (fuel : Nat)
    (w : World) (self r : GId) (k : Nat) (args : PyObj) (kwargs : Option PyObj)
    (hval : check_switch_allowed fuel w self ⟨SwitchingArgs.empty, switch_thread w self⟩
      = .allowed)
    (hres : Resolves w self k r) (hf : k < fuel)
    (hact : PyGreenlet_ACTIVE w r = true)
    (hsr : r ≠ self → (w.greenlets r).switching_state.isSome = true)
    (hcur : (w.threads (switch_thread w r)).current_greenlet = r)
    (herr : w.pyerr = none) :
    ∃ w', green_switch env fuel w self args kwargs
        = .returned (single_result (result_from_args ⟨some args, kwargs⟩)) w' ∧
      w'.threads = w.threads ∧
      w'.log = w.log ++ [.resume r] ++
        trace_events (w.threads (switch_thread w r)).tracefunc ⟨some args, kwargs⟩ (some r) r := by
  have hs1 := request_switching_state w self ⟨some args, kwargs⟩
  have hc1 := (request_check fuel w self ⟨some args, kwargs⟩).trans hval
  have hres1 : Resolves ((w.ensureSwitchingState self).setArgs self ⟨some args, kwargs⟩)
      self k r := resolves_congr w _ (fun g => by simp) self r k hres
  have ha : World.args ((w.ensureSwitchingState self).setArgs self ⟨some args, kwargs⟩) self
      = ⟨some args, kwargs⟩ := by simp [World.args, hs1]
  have hp : ((w.ensureSwitchingState self).setArgs self ⟨some args, kwargs⟩).pyerr = none := by
    simpa using herr
  have hsr1 : ∃ sr, (((w.ensureSwitchingState self).setArgs self ⟨some args, kwargs⟩).greenlets
      r).switching_state = some sr ∧ sr.thread_state = switch_thread w r := by
    by_cases hrs : r = self
    · subst hrs; exact ⟨_, hs1, rfl⟩
    · rw [request_switching_state_other w self r _ hrs]
      have := hsr hrs
      cases hsw : (w.greenlets r).switching_state with
      | none => rw [hsw] at this; cases this
      | some sr => exact ⟨sr, rfl, by simp [switch_thread, hsw]⟩
  obtain ⟨sr, hsr2, hsrt⟩ := hsr1
  obtain ⟨w', he, hth, hlog⟩ := g_switch_noop_inert env htr fuel _ self r k _ sr hs1 hc1 hres1 hf
    (by simpa [PyGreenlet_ACTIVE] using hact) hsr2 (by rw [hsrt]; simpa using hcur)
  refine ⟨w', ?_, by rw [hth]; simp, ?_⟩
  · unfold green_switch
    rw [he, hp, ha]
    rfl
  · rw [hlog, ha, hsrt]; simp

/-- C16, witness: in `demo_dead_leaf` the main greenlet is current and switches to
the dead greenlet `4`, its child, with the argument `5`. -/
theorem switch_to_current_returns_arguments_witness :
    Resolves demo_dead_leaf 4 1 0 ∧ lifecycle demo_dead_leaf 4 = .DEAD ∧
    (demo_dead_leaf.threads (switch_thread demo_dead_leaf 0)).current_greenlet = 0 ∧
    ∃ w', green_switch Env.plain 5 demo_dead_leaf 4 (.tuple [.obj 5]) none
        = .returned (single_result (result_from_args ⟨some (.tuple [.obj 5]), none⟩)) w' ∧
      w'.threads = demo_dead_leaf.threads ∧
      w'.log = demo_dead_leaf.log ++ [.resume 0] ++
        trace_events (demo_dead_leaf.threads (switch_thread demo_dead_leaf 0)).tracefunc
          ⟨some (.tuple [.obj 5]), none⟩ (some 0) 0 :=
  have hres : Resolves demo_dead_leaf 4 1 0 :=
    Resolves.skip 4 0 0 0 (by decide) (by decide) rfl (Resolves.here 0 (Or.inl (by decide)))
  ⟨hres, by decide, by decide,
    switch_to_current_returns_arguments Env.plain plain_trace_inert 5 demo_dead_leaf 4 0 1
      (.tuple [.obj 5]) none (by decide) hres (by decide) (by decide) (fun _ => rfl)
      (by decide) rfl⟩

/-- C16, counterexample to the claim as stated: in `demo` the main greenlet is
current and switches to the dead greenlet `2`, whose parent is the suspended
greenlet `1`: control is transferred to `1`, which receives the argument and
is the current greenlet afterwards. -/
theorem switch_to_dead_greenlet_transfers :
    lifecycle demo 2 = .DEAD ∧
    (demo.threads 0).current_greenlet = 0 ∧
    (green_switch Env.plain 5 demo 2 (.tuple [.obj 5]) none).received
      = some (1, some (.obj 5)) ∧
    (green_switch Env.plain 5 demo 2 (.tuple [.obj 5]) none).world.map
      (fun w => (w.threads 0).current_greenlet) = some 1 := by
  refine ⟨by decide, by decide, rfl, by decide⟩

/-! ## The trace function -/

theorem g_switch_finish_traced (env : Env) (w : World) (t : GId) (s : SwitchingState)
    (origin : Option GId) (tf : PyObj) (h : (w.threads s.thread_state).tracefunc = some tf) :
    (g_switch_finish env w t s origin).world.log
      = w.log ++ [.trace (if (w.args t).toBool then .switch else .throw) origin t] := by
  unfold g_switch_finish
  simp only [h]
  split_ifs <;> simp [Finish.world, g_calltrace_log]

theorem inner_bootstrap_enter_traced (env : Env) (w : World) (self : GId) (s : SwitchingState)
    (origin : Option GId) (tf : PyObj) (h : (w.threads s.thread_state).tracefunc = some tf) :
    (inner_bootstrap_enter env w self s origin).2.log
      = w.log ++ [.trace (if (w.args self).toBool then .switch else .throw) origin self] := by
  unfold inner_bootstrap_enter
  have h3 : ((release_args ((w.setStack self (w.greenlets self).stack_state.set_active).setGreenlet
      self { (w.setStack self (w.greenlets self).stack_state.set_active).greenlets self with
        run_callable := none
        main_greenlet_s := some ((w.setStack self
          (w.greenlets self).stack_state.set_active).threads s.thread_state).main_greenlet })
      self).threads s.thread_state).tracefunc = some tf := by
    simpa using h
  have ha : World.args ((w.setStack self (w.greenlets self).stack_state.set_active).setGreenlet
      self { (w.setStack self (w.greenlets self).stack_state.set_active).greenlets self with
        run_callable := none
        main_greenlet_s := some ((w.setStack self
          (w.greenlets self).stack_state.set_active).threads s.thread_state).main_greenlet })
      self = w.args self := args_congr _ _ _ (by simp [World.setStack])
  simp only [h3, g_calltrace_log, ha]
  simp

theorem g_switch_end_world (env : Env) (w : World) (err : switchstack_result_t) (t : GId)
    (s : SwitchingState) (hneg : ¬ err.status < 0) (ht : err.the_state_that_switched = some t)
    (hs : (w.greenlets t).switching_state = some s) :
    (g_switch_end env w err).world
      = some (g_switch_finish env w t s err.origin_greenlet).world := by
  unfold g_switch_end
  simp only [hneg, if_false, ht, hs]
  cases g_switch_finish env w t s err.origin_greenlet <;>
    (simp only []; split_ifs <;> rfl)

theorem resume_target_traced (env : Env) (w : World) (p : GId) (s : SwitchingState) (tf : PyObj)
    (hs : (w.greenlets p).switching_state = some s)
    (htf : (w.threads s.thread_state).tracefunc = some tf)
    (hok : (w.threads s.thread_state).current_greenlet = p ∨
      (env.slp_switch (w.record (.resume p)) p).1 = true) :
    ∃ w', (resume_target env w p).world = some w' ∧
      w'.log = w.log ++ [.resume p] ++
        (if (w.threads s.thread_state).current_greenlet = p then [] else [Event.slp_switch p]) ++
        [.trace (if (w.args p).toBool then .switch else .throw)
          (some (w.threads s.thread_state).current_greenlet) p] := by
  unfold resume_target
  rw [hs]
  simp only []
  have hlt : ∀ b : Bool, ¬ ((if b then (0 : Int) else 1) < 0) := by
    intro b; cases b <;> decide
  have hlt0 : ¬ ((0 : Int) < 0) := by decide
  by_cases hcur : (w.threads s.thread_state).current_greenlet = p
  · have hcur' : ((w.record (.resume p)).threads s.thread_state).current_greenlet = p := hcur
    rw [g_switchstack_same env _ p s hcur']
    refine ⟨_, g_switch_end_world env _ _ p s hlt0 rfl hs, ?_⟩
    rw [g_switch_finish_traced env _ p s _ tf (by simpa using htf)]
    have ha : (w.record (.resume p)).args p = w.args p := args_congr _ _ _ rfl
    simp [hcur, ha]
  · have hslp : (env.slp_switch (w.record (.resume p)) p).1 = true := by
      rcases hok with h | h
      · exact absurd h hcur
      · exact h
    have hcur' : ((w.record (.resume p)).threads s.thread_state).current_greenlet ≠ p := hcur
    rw [g_switchstack_ok env _ p s hcur' hslp]
    refine ⟨_, g_switch_end_world env _ _ p s (hlt _) rfl (by simpa using hs), ?_⟩
    rw [g_switch_finish_traced env _ p s _ tf (by simpa using htf)]
    have ha : World.args ((((w.record (.resume p)).record (.slp_switch p)).setStacks
        (env.slp_switch (w.record (.resume p)) p).2).setThread s.thread_state
        { (w.record (.resume p)).threads s.thread_state with current_greenlet := p }) p
        = w.args p := args_congr _ _ _ (by simp)
    rw [ha]
    simp [hcur]

theorem g_initialstub_traced (env : Env) (hslp : SlpSucceeds env) (fuel : Nat) (w : World)
    (self : GId) (s : SwitchingState) (run tf : PyObj)
    (hs : (w.greenlets self).switching_state = some s)
    (hrun : (env.getattr_run (w.setErr none) self).2 = some run)
    (hc : check_switch_allowed fuel (after_getattr env w self) self s = .allowed)
    (hns : PyGreenlet_STARTED (after_getattr env w self) self = false)
    (hcur : ((after_getattr env w self).threads s.thread_state).current_greenlet ≠ self)
    (htf : ((after_getattr env w self).threads s.thread_state).tracefunc = some tf) :
    ∃ args w', g_initialstub env fuel w self = .entered args run w' ∧
      w'.log = w.log ++ [.slp_switch self,
        .trace (if ((after_getattr env w self).args self).toBool then .switch else .throw)
          (some ((after_getattr env w self).threads s.thread_state).current_greenlet) self] := by
  unfold after_getattr at hc hns hcur htf ⊢
  unfold g_initialstub
  rw [hs]
  simp only [hrun, hc, hns, Bool.false_eq_true, if_false]
  have hcur2 : ((((w.after (env.getattr_run (w.setErr none) self).1).setErr w.pyerr).setStack self
      (StackState.start (env.mark ((w.after (env.getattr_run (w.setErr none) self).1).setErr
        w.pyerr))
        (((w.after (env.getattr_run (w.setErr none) self).1).setErr w.pyerr).threads
          s.thread_state).current_greenlet
        ((((w.after (env.getattr_run (w.setErr none) self).1).setErr w.pyerr).greenlets
          (((w.after (env.getattr_run (w.setErr none) self).1).setErr w.pyerr).threads
            s.thread_state).current_greenlet).stack_state))).threads
      s.thread_state).current_greenlet ≠ self := by
    simpa using hcur
  rw [g_switchstack_ok env _ self s hcur2 (hslp _ _)]
  have hna : PyGreenlet_ACTIVE (((w.after (env.getattr_run (w.setErr none) self).1).setErr
      w.pyerr).setStack self
      (StackState.start (env.mark ((w.after (env.getattr_run (w.setErr none) self).1).setErr
        w.pyerr))
        (((w.after (env.getattr_run (w.setErr none) self).1).setErr w.pyerr).threads
          s.thread_state).current_greenlet
        ((((w.after (env.getattr_run (w.setErr none) self).1).setErr w.pyerr).greenlets
          (((w.after (env.getattr_run (w.setErr none) self).1).setErr w.pyerr).threads
            s.thread_state).current_greenlet).stack_state))) self = false := by
    simp [PyGreenlet_ACTIVE, World.setStack, StackState.start, StackState.active]
  simp only [hna, Bool.false_eq_true, if_false, if_true]
  refine ⟨_, _, rfl, ?_⟩
  rw [inner_bootstrap_enter_traced env _ self s _ tf (by simpa using htf)]
  have ha : ∀ (W : World), (W.greenlets self).switching_state
      = (((w.after (env.getattr_run (w.setErr none) self).1).setErr w.pyerr).greenlets
        self).switching_state →
      W.args self = ((w.after (env.getattr_run (w.setErr none) self).1).setErr w.pyerr).args
        self := fun W h => args_congr _ _ _ h
  rw [ha _ (by simp)]
  simp

/-- C17: on a thread with a trace function, a switch whose platform switch succeeds
calls the trace function once, with the event `switch` when the request
delivered to the target carries arguments and `throw` when it carries none, and
with the greenlet that was current before the switch and the target: on the
resumption of an active greenlet (`g_switch_finish`) and on the first entry
into a greenlet (`inner_bootstrap`). -/
theorem trace_function_called_on_switch (env : Env) (hslp : SlpSucceeds env) (fuel : Nat)
    (w : World) (t : GId) (s : SwitchingState) (tf : PyObj)
    (hs : (w.greenlets t).switching_state = some s) :
    ((w.threads s.thread_state).tracefunc = some tf →
      ∃ w', (resume_target env w t).world = some w' ∧
        w'.log = w.log ++ [.resume t] ++
          (if (w.threads s.thread_state).current_greenlet = t then []
            else [Event.slp_switch t]) ++
          [.trace (if (w.args t).toBool then .switch else .throw)
            (some (w.threads s.thread_state).current_greenlet) t]) ∧
    (∀ run, (env.getattr_run (w.setErr none) t).2 = some run →
      check_switch_allowed fuel (after_getattr env w t) t s = .allowed →
      PyGreenlet_STARTED (after_getattr env w t) t = false →
      ((after_getattr env w t).threads s.thread_state).current_greenlet ≠ t →
      ((after_getattr env w t).threads s.thread_state).tracefunc = some tf →
      ∃ args w', g_initialstub env fuel w t = .entered args run w' ∧
        w'.log = w.log ++ [.slp_switch t,
          .trace (if ((after_getattr env w t).args t).toBool then .switch else .throw)
            (some ((after_getattr env w t).threads s.thread_state).current_greenlet) t]) :=
  ⟨fun htf => resume_target_traced env w t s tf hs htf (Or.inr (hslp _ _)),
    fun run hrun hc hns hcur htf =>
      g_initialstub_traced env hslp fuel w t s run tf hs hrun hc hns hcur htf⟩

/-- C17, witness: in `demo_traced_resume` the main greenlet resumes the suspended
greenlet `1` with arguments; in `demo_traced_request` it starts the new
greenlet `3`. -/
theorem trace_function_called_on_switch_witness :
    (∃ w', (resume_target Env.plain demo_traced_resume 1).world = some w' ∧
      w'.log = [.resume 1, .slp_switch 1, .trace .switch (some 0) 1]) ∧
    (∃ args w', g_initialstub Env.plain 5 demo_traced_request 3 = .entered args (.obj 99) w' ∧
      w'.log = [.slp_switch 3, .trace .switch (some 0) 3]) :=
  ⟨(trace_function_called_on_switch Env.plain plain_slp_succeeds 5 demo_traced_resume 1
      ⟨⟨some (.tuple [.obj 5]), none⟩, 0⟩ (.obj 7) rfl).1 rfl,
    (trace_function_called_on_switch Env.plain plain_slp_succeeds 5 demo_traced_request 3
      ⟨⟨some (.tuple []), none⟩, 0⟩ (.obj 7) rfl).2 (.obj 99) rfl (by decide) (by decide)
      (by decide) rfl⟩

/-- C18: when the trace function raises, `g_calltrace` removes the trace function of
the running thread and leaves the error of the trace function pending: the
error that was pending before the call is dropped.  When the trace function
returns, the error state from before the call is pending again, and
`g_calltrace` leaves the thread states, the trace function with them, as the
call left them.  In `g_switch_finish` a trace function that raises makes the
switch throw, with the request released. -/
theorem g_calltrace_error_state (env : Env) (w : World) (tf : PyObj) (ev : EventName)
    (origin : Option GId) (target : GId) :
    ((env.call_tracefunc ((w.setErr none).record (.trace ev origin target)) tf ev origin
        target).2 = false →
      (g_calltrace env w tf ev origin target).1 = false ∧
      ((g_calltrace env w tf ev origin target).2.threads w.this_thread).tracefunc = none ∧
      (g_calltrace env w tf ev origin target).2.pyerr
        = (env.call_tracefunc ((w.setErr none).record (.trace ev origin target)) tf ev origin
            target).1.pyerr ∧
      ∀ s, (w.threads s.thread_state).tracefunc = some tf →
        ev = (if (w.args target).toBool then .switch else .throw) →
        ∃ w', g_switch_finish env w target s origin = .throws w' ∧
          w'.args target = SwitchingArgs.empty ∧
          (w'.threads w.this_thread).tracefunc = none ∧
          w'.pyerr = (env.call_tracefunc ((w.setErr none).record (.trace ev origin target)) tf
            ev origin target).1.pyerr) ∧
    ((env.call_tracefunc ((w.setErr none).record (.trace ev origin target)) tf ev origin
        target).2 = true →
      (g_calltrace env w tf ev origin target).1 = true ∧
      (g_calltrace env w tf ev origin target).2.pyerr = w.pyerr ∧
      (g_calltrace env w tf ev origin target).2.threads
        = (env.call_tracefunc ((w.setErr none).record (.trace ev origin target)) tf ev origin
            target).1.threads) := by
  constructor
  · intro h
    have hg : g_calltrace env w tf ev origin target
        = (false, clear_tracefunc (((w.setErr none).record (.trace ev origin target)).after
            (env.call_tracefunc ((w.setErr none).record (.trace ev origin target)) tf ev origin
              target).1) w.this_thread) := by
      unfold g_calltrace
      simp only [h, Bool.false_eq_true, if_false]
      rfl
    refine ⟨by rw [hg], by rw [hg]; simp [clear_tracefunc], by rw [hg]; simp, ?_⟩
    intro s hs hev
    refine ⟨release_args (clear_tracefunc (((w.setErr none).record
      (.trace ev origin target)).after (env.call_tracefunc ((w.setErr none).record
        (.trace ev origin target)) tf ev origin target).1) w.this_thread) target, ?_,
      release_args_empty _ _, by simp [clear_tracefunc], by simp⟩
    unfold g_switch_finish
    simp only [hs, ← hev, hg, Bool.false_and, Bool.false_eq_true, if_false]
  · intro h
    have hg : g_calltrace env w tf ev origin target
        = (true, (((w.setErr none).record (.trace ev origin target)).after
            (env.call_tracefunc ((w.setErr none).record (.trace ev origin target)) tf ev origin
              target).1).setErr w.pyerr) := by
      unfold g_calltrace
      simp only [h, if_true]
    refine ⟨by rw [hg], by rw [hg]; simp, by rw [hg]; simp⟩

/-- C18, witness: in `demo_traced_pending` a `TypeError` is pending; a trace function
that raises `ValueError` leaves the `ValueError` pending and is removed, one
that returns leaves the `TypeError` pending and stays set. -/
theorem g_calltrace_error_state_witness :
    ((g_calltrace Env.trace_raises demo_traced_pending (.obj 7) .switch (some 0) 1).1 = false ∧
      ((g_calltrace Env.trace_raises demo_traced_pending (.obj 7) .switch (some 0)
        1).2.threads 0).tracefunc = none ∧
      (g_calltrace Env.trace_raises demo_traced_pending (.obj 7) .switch (some 0) 1).2.pyerr
        = some ⟨.ValueError, some (.str "trace")⟩) ∧
    ((g_calltrace Env.plain demo_traced_pending (.obj 7) .switch (some 0) 1).1 = true ∧
      (g_calltrace Env.plain demo_traced_pending (.obj 7) .switch (some 0) 1).2.pyerr
        = some ⟨.TypeError, some (.str "pending")⟩ ∧
      ((g_calltrace Env.plain demo_traced_pending (.obj 7) .switch (some 0) 1).2.threads
        0).tracefunc = some (.obj 7)) :=
  ⟨⟨((g_calltrace_error_state Env.trace_raises demo_traced_pending (.obj 7) .switch (some 0)
        1).1 rfl).1,
      ((g_calltrace_error_state Env.trace_raises demo_traced_pending (.obj 7) .switch (some 0)
        1).1 rfl).2.1,
      ((g_calltrace_error_state Env.trace_raises demo_traced_pending (.obj 7) .switch (some 0)
        1).1 rfl).2.2.1⟩,
    ⟨((g_calltrace_error_state Env.plain demo_traced_pending (.obj 7) .switch (some 0)
        1).2 rfl).1,
      ((g_calltrace_error_state Env.plain demo_traced_pending (.obj 7) .switch (some 0)
        1).2 rfl).2.1,
      congrArg (fun th => (th 0).tracefunc)
        ((g_calltrace_error_state Env.plain demo_traced_pending (.obj 7) .switch (some 0)
          1).2 rfl).2.2⟩⟩

/-! ## The first entry into a greenlet -/

theorem args_if_nonempty (a : SwitchingArgs) (b : Bool) :
    (if b then a else SwitchingArgs.empty)
      = if (a.toBool && b) then a else SwitchingArgs.empty := by
  cases b with
  | false => simp
  | true =>
    cases a with
    | mk x k => cases x <;> cases k <;> simp [SwitchingArgs.toBool, SwitchingArgs.empty]

theorem inner_bootstrap_enter_eq (env : Env) (w : World) (self : GId) (s : SwitchingState)
    (origin : Option GId) :
    inner_bootstrap_enter env w self s origin =
      match (w.threads s.thread_state).tracefunc with
      | some tf =>
        ((if (g_calltrace env (entry_world w self s) tf
              (if (w.args self).toBool then .switch else .throw) origin self).1
            then w.args self else SwitchingArgs.empty),
          (g_calltrace env (entry_world w self s) tf
            (if (w.args self).toBool then .switch else .throw) origin self).2)
      | none => (w.args self, entry_world w self s) := by
  have ha : World.args ((w.setStack self (w.greenlets self).stack_state.set_active).setGreenlet
      self { (w.setStack self (w.greenlets self).stack_state.set_active).greenlets self with
        run_callable := none
        main_greenlet_s := some ((w.setStack self
          (w.greenlets self).stack_state.set_active).threads s.thread_state).main_greenlet })
      self = w.args self := args_congr _ _ _ (by simp [World.setStack])
  unfold inner_bootstrap_enter
  simp only [ha]
  have ht : ((release_args ((w.setStack self (w.greenlets self).stack_state.set_active).setGreenlet
      self { (w.setStack self (w.greenlets self).stack_state.set_active).greenlets self with
        run_callable := none
        main_greenlet_s := some ((w.setStack self
          (w.greenlets self).stack_state.set_active).threads s.thread_state).main_greenlet })
      self).threads s.thread_state).tracefunc = (w.threads s.thread_state).tracefunc := by
    simp
  rw [ht]
  cases (w.threads s.thread_state).tracefunc with
  | none => rfl
  | some tf => rfl

/-- C19: `inner_bootstrap` sets the greenlet active and clears `run_callable` before any
code outside the module runs: the trace function, when there is one, is
called in the world so prepared, and the body after it.  The body is
called exactly when the request delivered carries arguments and the trace
function, if there is one, did not raise, and it is called with the args and
kwargs of that request.  When the request carries none (a throw) or the trace
function raised, the body is not called: the greenlet ends as one whose body
raised the pending error at once. -/
theorem inner_bootstrap_invokes_body (env : Env) (sfuel fuel : Nat) (w : World) (self : GId)
    (s : SwitchingState) (origin : Option GId) (run : PyObj)
    (PyCall : World → PyObj → Option PyObj → Option PyObj → World × Option PyObj) :
    (PyGreenlet_ACTIVE (entry_world w self s) self = true ∧
      (PyGreenlet_STARTED w self = true → lifecycle (entry_world w self s) self = .ACTIVE) ∧
      ((entry_world w self s).greenlets self).run_callable = none ∧
      (entry_world w self s).log = w.log ∧
      ((w.threads s.thread_state).tracefunc = none →
        (inner_bootstrap_enter env w self s origin).2 = entry_world w self s) ∧
      (∀ tf, (w.threads s.thread_state).tracefunc = some tf →
        (inner_bootstrap_enter env w self s origin).2
          = (g_calltrace env (entry_world w self s) tf
              (if (w.args self).toBool then .switch else .throw) origin self).2)) ∧
    ((inner_bootstrap_enter env w self s origin).1.toBool
      = ((w.args self).toBool && !entry_trace_raised env w self s origin)) ∧
    ((w.args self).toBool = true → entry_trace_raised env w self s origin = false →
      inner_bootstrap env sfuel fuel w self s origin run PyCall =
        after_body env sfuel fuel
          ((inner_bootstrap_enter env w self s origin).2.after
            (PyCall (inner_bootstrap_enter env w self s origin).2 run (w.args self).args
              (w.args self).kwargs).1) self
          (PyCall (inner_bootstrap_enter env w self s origin).2 run (w.args self).args
            (w.args self).kwargs).2) ∧
    (((w.args self).toBool = false ∨ entry_trace_raised env w self s origin = true) →
      inner_bootstrap env sfuel fuel w self s origin run PyCall =
        after_body env sfuel fuel (inner_bootstrap_enter env w self s origin).2 self none) := by
  have hb1 : (inner_bootstrap_enter env w self s origin).1
      = if (w.args self).toBool && !entry_trace_raised env w self s origin then w.args self
        else SwitchingArgs.empty := by
    rw [inner_bootstrap_enter_eq]
    unfold entry_trace_raised
    cases (w.threads s.thread_state).tracefunc with
    | none =>
      simp only [Bool.not_false]
      exact args_if_nonempty _ true
    | some tf =>
      simp only [Bool.not_not]
      exact args_if_nonempty _ _
  refine ⟨⟨?_, ?_, ?_, ?_, ?_, ?_⟩, ?_, ?_, ?_⟩
  · simp [entry_world, PyGreenlet_ACTIVE, World.setStack, StackState.set_active,
      StackState.active]
  · intro hst
    simp only [PyGreenlet_STARTED, StackState.started] at hst
    simp [entry_world, lifecycle, StackState.lifecycle, World.setStack, StackState.set_active,
      StackState.active, StackState.started, hst]
  · simp [entry_world]
  · simp [entry_world]
  · intro h
    rw [inner_bootstrap_enter_eq, h]
  · intro tf h
    rw [inner_bootstrap_enter_eq, h]
  · rw [hb1]
    cases h : ((w.args self).toBool && !entry_trace_raised env w self s origin) with
    | true =>
      simp only [if_true]
      simp only [Bool.and_eq_true] at h
      exact h.1
    | false => rfl
  · intro ha hr
    unfold inner_bootstrap inner_bootstrap_exit after_body
    simp only [hb1, ha, hr, Bool.not_false, Bool.and_self, if_true, Bool.not_true,
      Bool.false_eq_true, if_false]
  · intro h
    have hcond : ((w.args self).toBool && !entry_trace_raised env w self s origin) = false := by
      rcases h with h | h
      · simp [h]
      · simp [h]
    unfold inner_bootstrap inner_bootstrap_exit after_body
    simp only [hb1, hcond, Bool.false_eq_true, if_false]
    have he : SwitchingArgs.empty.toBool = false := rfl
    simp only [he, Bool.not_false, if_true, after_self]

/-- C19, witness: the first entry into greenlet `3` of `demo_traced_request` with a
request that carries arguments: the body is called when the trace function
returns, and is not called when the trace function raises. -/
theorem inner_bootstrap_invokes_body_witness :
    (demo_traced_request.args 3).toBool = true ∧
    entry_trace_raised Env.plain demo_traced_request 3 ⟨⟨some (.tuple []), none⟩, 0⟩ (some 0)
      = false ∧
    inner_bootstrap Env.plain 5 5 demo_traced_request 3 ⟨⟨some (.tuple []), none⟩, 0⟩ (some 0)
        (.obj 99) PyCall_returns =
      after_body Env.plain 5 5
        ((inner_bootstrap_enter Env.plain demo_traced_request 3 ⟨⟨some (.tuple []), none⟩, 0⟩
          (some 0)).2.after
          (PyCall_returns (inner_bootstrap_enter Env.plain demo_traced_request 3
            ⟨⟨some (.tuple []), none⟩, 0⟩ (some 0)).2 (.obj 99)
            (demo_traced_request.args 3).args (demo_traced_request.args 3).kwargs).1) 3
        (PyCall_returns (inner_bootstrap_enter Env.plain demo_traced_request 3
          ⟨⟨some (.tuple []), none⟩, 0⟩ (some 0)).2 (.obj 99)
          (demo_traced_request.args 3).args (demo_traced_request.args 3).kwargs).2 ∧
    entry_trace_raised Env.trace_raises demo_traced_request 3 ⟨⟨some (.tuple []), none⟩, 0⟩
      (some 0) = true ∧
    inner_bootstrap Env.trace_raises 5 5 demo_traced_request 3 ⟨⟨some (.tuple []), none⟩, 0⟩
        (some 0) (.obj 99) PyCall_returns =
      after_body Env.trace_raises 5 5
        (inner_bootstrap_enter Env.trace_raises demo_traced_request 3
          ⟨⟨some (.tuple []), none⟩, 0⟩ (some 0)).2 3 none :=
  ⟨rfl, rfl,
    (inner_bootstrap_invokes_body Env.plain 5 5 demo_traced_request 3
      ⟨⟨some (.tuple []), none⟩, 0⟩ (some 0) (.obj 99) PyCall_returns).2.2.1 rfl rfl,
    rfl,
    (inner_bootstrap_invokes_body Env.trace_raises 5 5 demo_traced_request 3
      ⟨⟨some (.tuple []), none⟩, 0⟩ (some 0) (.obj 99) PyCall_returns).2.2.2 (Or.inr rfl)⟩

/-! ## The retry of a switch -/

theorem g_initialstub_restores_request (env : Env) (fuel : Nat) (w : World) (self : GId)
    (s : SwitchingState) (run : PyObj)
    (hs : (w.greenlets self).switching_state = some s)
    (hrun : (env.getattr_run (w.setErr none) self).2 = some run)
    (hc : check_switch_allowed fuel (after_getattr env w self) self s = .allowed)
    (hst : PyGreenlet_STARTED (after_getattr env w self) self = true) :
    g_initialstub env fuel w self
        = .started_while_in_python ((after_getattr env w self).setArgs self s.switch_args) ∧
      (∀ g, (((after_getattr env w self).setArgs self s.switch_args).greenlets g).stack_state
        = ((after_getattr env w self).greenlets g).stack_state) ∧
      (((after_getattr env w self).greenlets self).switching_state.isSome = true →
        ((after_getattr env w self).setArgs self s.switch_args).args self = s.switch_args) := by
  refine ⟨?_, fun g => by simp, ?_⟩
  · unfold after_getattr at hc hst ⊢
    unfold g_initialstub
    rw [hs]
    simp only [hrun, hc, hst, if_true]
  · intro h
    cases hsw : ((after_getattr env w self).greenlets self).switching_state with
    | none => rw [hsw] at h; cases h
    | some s1 => exact setArgs_args _ _ _ s1 hsw

/-- C20, the code at the failing input: in `demo_retry` a call of `switch` on the dead
greenlet `7` carries the request `(5,)`; `g_switch` moves it to the parent `5`,
which has not started, and the lookup of `run` starts `5`.  `g_initialstub`
puts the request back on `5`, and the retry in `g_switch` then moves the
request of `7`, empty by now, over it: greenlet `5` is resumed with no object
and no error.  When `switch` is called on `5` itself (`demo_retry_self`) the
retry delivers the request. -/
theorem retry_through_parent_loses_request :
    demo_retry.args 7 = ⟨some (.tuple [.obj 5]), none⟩ ∧
    Resolves demo_retry 7 1 5 ∧
    (g_switch Env.run_lookup_starts 5 demo_retry 7).delivered = some (5, none) ∧
    (g_switch Env.run_lookup_starts 5 demo_retry 7).world.map (fun w => w.pyerr.isNone)
      = some true ∧
    demo_retry_self.args 5 = ⟨some (.tuple [.obj 5]), none⟩ ∧
    (g_switch Env.run_lookup_starts 5 demo_retry_self 5).delivered
      = some (5, some (.tuple [.obj 5])) := by
  refine ⟨rfl, ?_, rfl, by decide, rfl, rfl⟩
  exact Resolves.skip 7 5 5 0 (by decide) (by decide) rfl (Resolves.here 5 (Or.inr (by decide)))

/-! ## Throwing into a greenlet -/

theorem throw_greenlet_eq (env : Env) (fuel : Nat) (w : World) (self : GId) (e : PyErr) :
    throw_greenlet env fuel w self e =
      match g_switch env fuel (throw_request w self e) self with
      | .returned x w1 => .returned (single_result x) w1
      | o => o := rfl

theorem lifecycle_dead_iff (w : World) (g : GId) :
    lifecycle w g = .DEAD ↔ (PyGreenlet_STARTED w g = true ∧ PyGreenlet_ACTIVE w g = false) := by
  unfold lifecycle StackState.lifecycle PyGreenlet_STARTED PyGreenlet_ACTIVE
  cases (w.greenlets g).stack_state.started <;> cases (w.greenlets g).stack_state.active <;>
    simp

theorem args_after_request (w : World) (self : GId) (a : SwitchingArgs) :
    ((w.ensureSwitchingState self).setArgs self a).args self = a := by
  simp [World.args, request_switching_state]

/-- C21: `throw_greenlet` on a dead greenlet (started and not active) with `GreenletExit`
attaches to the greenlet a request that carries the value of the exit, or
`None`, as its args, and leaves no error pending; with another error, or on a
greenlet that is not dead, the request attached is empty (a throw) and the
error stays pending.  `g_switch` is then called on the greenlet in that world. -/
theorem throw_greenlet_request (env : Env) (fuel : Nat) (w : World) (self : GId) (e : PyErr) :
    (throw_greenlet env fuel w self e =
      match g_switch env fuel (throw_request w self e) self with
      | .returned x w1 => .returned (single_result x) w1
      | o => o) ∧
    (lifecycle w self = .DEAD → e.type.matchesGreenletExit = true →
      (throw_request w self e).args self
        = ⟨some (match e.value with | none => PyObj.None | some val => val), none⟩ ∧
      ((throw_request w self e).args self).toBool = true ∧
      (throw_request w self e).pyerr = none) ∧
    ((lifecycle w self ≠ .DEAD ∨ e.type.matchesGreenletExit = false) →
      (throw_request w self e).args self = SwitchingArgs.empty ∧
      (throw_request w self e).pyerr = some e) := by
  refine ⟨rfl, ?_, ?_⟩
  · intro hd hm
    obtain ⟨hst, hact⟩ := (lifecycle_dead_iff w self).mp hd
    have hst' : PyGreenlet_STARTED (w.setErr (some e)) self = true := hst
    have hact' : PyGreenlet_ACTIVE (w.setErr (some e)) self = false := hact
    have hh : g_handle_exit (w.setErr (some e)) none
        = (some (match e.value with | none => PyObj.None | some val => val),
            (w.setErr (some e)).setErr none) := by
      simp [g_handle_exit, hm]
    unfold throw_request
    simp only [hst', hact', Bool.not_false, Bool.and_self, if_true, hh]
    refine ⟨args_after_request _ _ _, ?_, by simp⟩
    rw [args_after_request]
    rfl
  · intro h
    have hcases : (PyGreenlet_STARTED (w.setErr (some e)) self
        && !PyGreenlet_ACTIVE (w.setErr (some e)) self) = false ∨
        g_handle_exit (w.setErr (some e)) none = (none, w.setErr (some e)) := by
      rcases h with h | h
      · left
        have : ¬ (PyGreenlet_STARTED w self = true ∧ PyGreenlet_ACTIVE w self = false) :=
          fun hh => h ((lifecycle_dead_iff w self).mpr hh)
        have e1 : PyGreenlet_STARTED (w.setErr (some e)) self = PyGreenlet_STARTED w self := rfl
        have e2 : PyGreenlet_ACTIVE (w.setErr (some e)) self = PyGreenlet_ACTIVE w self := rfl
        rw [e1, e2]
        cases hs : PyGreenlet_STARTED w self <;> cases ha : PyGreenlet_ACTIVE w self <;>
          simp_all
      · right
        simp [g_handle_exit, h]
    unfold throw_request
    rcases hcases with hc | hc
    · simp only [hc, Bool.false_eq_true, if_false]
      exact ⟨args_after_request _ _ _, by simp⟩
    · by_cases hb : (PyGreenlet_STARTED (w.setErr (some e)) self
          && !PyGreenlet_ACTIVE (w.setErr (some e)) self) = true
      · simp only [hb, if_true, hc]
        exact ⟨args_after_request _ _ _, by simp⟩
      · simp only [hb, if_false]
        exact ⟨args_after_request _ _ _, by simp⟩

/-- C21, witness: in `demo` a `GreenletExit` carrying `3` is thrown into the dead
greenlet `2`, and a `ValueError` into the same greenlet. -/
theorem throw_greenlet_request_witness :
    lifecycle demo 2 = .DEAD ∧
    ((throw_request demo 2 ⟨.GreenletExit, some (.obj 3)⟩).args 2 = ⟨some (.obj 3), none⟩ ∧
      ((throw_request demo 2 ⟨.GreenletExit, some (.obj 3)⟩).args 2).toBool = true ∧
      (throw_request demo 2 ⟨.GreenletExit, some (.obj 3)⟩).pyerr = none) ∧
    ((throw_request demo 2 ⟨.ValueError, some (.obj 3)⟩).args 2 = SwitchingArgs.empty ∧
      (throw_request demo 2 ⟨.ValueError, some (.obj 3)⟩).pyerr
        = some ⟨.ValueError, some (.obj 3)⟩) :=
  ⟨by decide,
    (throw_greenlet_request Env.plain 5 demo 2 ⟨.GreenletExit, some (.obj 3)⟩).2.1
      (by decide) rfl,
    (throw_greenlet_request Env.plain 5 demo 2 ⟨.ValueError, some (.obj 3)⟩).2.2
      (Or.inr rfl)⟩

/-! ## Killing a greenlet -/

/-- C23: `kill_greenlet` called by a thread other than the one the greenlet belongs to
(the main greenlet recorded on the greenlet is not that of the running thread)
sets no error and makes no switch: the pending error, the log of calls and the
current greenlet of every thread stay as they are.  When the main greenlet
still has its thread state, the greenlet is appended to the list of greenlets
to delete of that thread and no greenlet changes; when the thread has exited
(null `thread_state`), the stack state of the greenlet becomes `StackState()`,
which is not active, and nothing else changes. -/
theorem kill_greenlet_other_thread (env : Env) (fuel : Nat) (w : World) (self main : GId)
    (hm : (w.greenlets self).main_greenlet_s = some main)
    (hne : main ≠ (w.threads w.this_thread).main_greenlet) :
    (∀ ts, (w.greenlets main).thread_state = some ts →
      ∃ w', kill_greenlet env fuel w self = .returned w' ∧
        (w'.threads ts).deleteme = (w.threads ts).deleteme ++ [self] ∧
        w'.greenlets = w.greenlets ∧ w'.pyerr = w.pyerr ∧ w'.log = w.log ∧
        (∀ t, (w'.threads t).current_greenlet = (w.threads t).current_greenlet) ∧
        (∀ t, t ≠ ts → w'.threads t = w.threads t)) ∧
    ((w.greenlets main).thread_state = none →
      ∃ w', kill_greenlet env fuel w self = .returned w' ∧
        (w'.greenlets self).stack_state = StackState.new ∧
        PyGreenlet_ACTIVE w' self = false ∧
        (∀ g, g ≠ self → w'.greenlets g = w.greenlets g) ∧
        w'.threads = w.threads ∧ w'.pyerr = w.pyerr ∧ w'.log = w.log) := by
  have hcond : ¬ (some main = some (w.threads w.this_thread).main_greenlet) :=
    fun h => hne (Option.some.inj h)
  constructor
  · intro ts hts
    refine ⟨w.setThread ts { w.threads ts with deleteme := (w.threads ts).deleteme ++ [self] },
      ?_, by simp [World.setThread], rfl, rfl, rfl, ?_, ?_⟩
    · simp only [kill_greenlet, hm, hcond, if_false, hts]
    · intro t
      by_cases h : t = ts
      · subst h; simp [World.setThread]
      · simp [World.setThread, Function.update, h]
    · intro t h
      simp [World.setThread, Function.update, h]
  · intro hts
    refine ⟨w.setStack self StackState.new, ?_, by simp [World.setStack], ?_, ?_, rfl, rfl, rfl⟩
    · simp only [kill_greenlet, hm, hcond, if_false, hts]
    · simp [PyGreenlet_ACTIVE, World.setStack, StackState.new, StackState.active]
    · intro g hg
      simp [World.setStack, World.setGreenlet, Function.update, hg]

/-- C23, witness: thread `0` kills the suspended greenlet `11` of thread `1`: while
thread `1` lives, `11` is put on its list; after thread `1` exited
(`demo_orphan`), the stack state of `11` is reset. -/
theorem kill_greenlet_other_thread_witness :
    (∃ w', kill_greenlet Env.plain 5 (demo.setGreenlet 11 (activeG 10 10 1)) 11 = .returned w' ∧
      (w'.threads 1).deleteme = [11] ∧
      w'.greenlets = (demo.setGreenlet 11 (activeG 10 10 1)).greenlets) ∧
    (∃ w', kill_greenlet Env.plain 5 demo_orphan 11 = .returned w' ∧
      (w'.greenlets 11).stack_state = StackState.new ∧
      PyGreenlet_ACTIVE w' 11 = false) :=
  ⟨by
      obtain ⟨w', h1, h2, h3, _⟩ :=
        (kill_greenlet_other_thread Env.plain 5 (demo.setGreenlet 11 (activeG 10 10 1)) 11 10
          rfl (by decide)).1 1 rfl
      exact ⟨w', h1, h2, h3⟩,
    by
      obtain ⟨w', h1, h2, h3, _⟩ :=
        (kill_greenlet_other_thread Env.plain 5 demo_orphan 11 10 rfl (by decide)).2 rfl
      exact ⟨w', h1, h2, h3⟩⟩

/-- C29: `kill_greenlet` on a greenlet of the running thread calls `kill()` in a world
where the parent of the greenlet is the current greenlet, and assigns the old
parent again when `kill()` comes back, with a value or with an error: the
parent field is then what it was before the call.  When `kill()` switched the
stack, the frame of `kill_greenlet` holds the old parent and assigns it when
control comes back to it, whatever happened to the field meanwhile. -/
theorem kill_greenlet_restores_parent (env : Env) (fuel : Nat) (w : World) (self : GId)
    (hm : (w.greenlets self).main_greenlet_s = some (w.threads w.this_thread).main_greenlet) :
    (((w.setParent self (some (w.threads w.this_thread).current_greenlet)).greenlets self).parent
        = some (w.threads w.this_thread).current_greenlet ∧
      kill_greenlet env fuel w self =
        match kill env fuel
          (w.setParent self (some (w.threads w.this_thread).current_greenlet)) self with
        | .returned _ w1 => .returned (w1.setParent self (w.greenlets self).parent)
        | .raised w1 => .raised (w1.setParent self (w.greenlets self).parent)
        | .null_deref => .null_deref
        | .out_of_fuel => .out_of_fuel
        | o => .suspended (w.greenlets self).parent o) ∧
    (∀ w', kill_greenlet env fuel w self = .returned w' →
      (w'.greenlets self).parent = (w.greenlets self).parent) ∧
    (∀ w', kill_greenlet env fuel w self = .raised w' →
      (w'.greenlets self).parent = (w.greenlets self).parent) ∧
    (∀ oldparent o, kill_greenlet env fuel w self = .suspended oldparent o →
      oldparent = (w.greenlets self).parent ∧
      ∀ w2, ((kill_greenlet_return w2 self oldparent).greenlets self).parent
        = (w.greenlets self).parent) := by
  have heq : kill_greenlet env fuel w self =
      match kill env fuel
        (w.setParent self (some (w.threads w.this_thread).current_greenlet)) self with
      | .returned _ w1 => .returned (w1.setParent self (w.greenlets self).parent)
      | .raised w1 => .raised (w1.setParent self (w.greenlets self).parent)
      | .null_deref => .null_deref
      | .out_of_fuel => .out_of_fuel
      | o => .suspended (w.greenlets self).parent o := by
    simp only [kill_greenlet, hm, if_true]
  refine ⟨⟨by simp, heq⟩, ?_, ?_, ?_⟩
  · intro w' h
    rw [heq] at h
    cases hk : kill env fuel
      (w.setParent self (some (w.threads w.this_thread).current_greenlet)) self <;>
      rw [hk] at h <;> simp only [] at h <;> first
        | (injection h with h; subst h; simp)
        | cases h
  · intro w' h
    rw [heq] at h
    cases hk : kill env fuel
      (w.setParent self (some (w.threads w.this_thread).current_greenlet)) self <;>
      rw [hk] at h <;> simp only [] at h <;> first
        | (injection h with h; subst h; simp)
        | cases h
  · intro oldparent o h
    rw [heq] at h
    have : oldparent = (w.greenlets self).parent := by
      cases hk : kill env fuel
        (w.setParent self (some (w.threads w.this_thread).current_greenlet)) self <;>
        rw [hk] at h <;> simp only [] at h <;> first
          | (injection h with h1 h2; exact h1.symm)
          | cases h
    subst this
    exact ⟨rfl, fun w2 => by simp [kill_greenlet_return]⟩

/-- C29, witness: in `demo` the main greenlet kills the suspended greenlet `1`, whose
parent is the main greenlet `0`: `kill()` switches into `1`, and the frame of
`kill_greenlet` holds the old parent. -/
theorem kill_greenlet_restores_parent_witness :
    (demo.greenlets 1).main_greenlet_s = some (demo.threads demo.this_thread).main_greenlet ∧
    ∃ oldparent o, kill_greenlet Env.plain 5 demo 1 = .suspended oldparent o ∧
      oldparent = (demo.greenlets 1).parent ∧
      ∀ w2, ((kill_greenlet_return w2 1 oldparent).greenlets 1).parent
        = (demo.greenlets 1).parent :=
  ⟨rfl, _, _, rfl, (kill_greenlet_restores_parent Env.plain 5 demo 1 rfl).2.2.2 _ _ rfl⟩

/-! ## Garbage collection of greenlets -/

/-- C25 (as amended): `green_is_gc` returns `0` exactly for a greenlet that is not a main
greenlet, is active, and does not record a main greenlet whose `thread_state`
is null; for every other greenlet (a main greenlet, one that is not active, one
whose thread has exited) it returns `1`. -/
theorem green_is_gc_cases (w : World) (self : GId) :
    (green_is_gc w self = 0 ∨ green_is_gc w self = 1) ∧
    (green_is_gc w self = 0 ↔
      (PyGreenlet_MAIN w self = false ∧ PyGreenlet_ACTIVE w self = true ∧
        ∀ main, (w.greenlets self).main_greenlet_s = some main →
          (w.greenlets main).thread_state ≠ none)) := by
  unfold green_is_gc
  cases hm : (w.greenlets self).main_greenlet_s with
  | none =>
    cases h1 : PyGreenlet_MAIN w self <;> cases h2 : PyGreenlet_ACTIVE w self <;> simp
  | some main =>
    cases ht : (w.greenlets main).thread_state with
    | none =>
      cases h1 : PyGreenlet_MAIN w self <;> cases h2 : PyGreenlet_ACTIVE w self <;> simp [ht]
    | some ts =>
      cases h1 : PyGreenlet_MAIN w self <;> cases h2 : PyGreenlet_ACTIVE w self <;> simp [ht]

/-- C25, counterexample to the claim as stated: in `demo_orphan` the greenlet `11` is
not a main greenlet and is active (suspended), and `green_is_gc` returns `1`
for it, because its thread has exited. -/
theorem green_is_gc_orphan_collectable :
    PyGreenlet_MAIN demo_orphan 11 = false ∧ PyGreenlet_ACTIVE demo_orphan 11 = true ∧
    green_is_gc demo_orphan 11 = 1 := by
  refine ⟨by decide, by decide, by decide⟩

theorem green_clear_flag (w : World) (self : GId) : (green_clear w self).1 = true := by
  simp [green_clear, own_top_frame, World.setGreenlet]

theorem green_dealloc_finish_flag (w : World) (self : GId) :
    (green_dealloc_finish w self).flag = some (own_top_frame w self) := by
  simp only [green_dealloc_finish, Dealloc.flag, own_top_frame, World.setGreenlet,
    Function.update_same]
  cases hm : (w.greenlets self).main_greenlet_s with
  | none => rfl
  | some main =>
    by_cases h : main = self
    · subst h; simp
    · simp [Function.update, h]

/-- C30, the code at the failing input: the dead greenlet `2` of `demo` records the
main greenlet `0`, whose thread lives, so the condition of `green_traverse` is
false on entry.  `green_dealloc` passes `false` to `python_state.tp_clear`;
`green_clear` passes `true`, because it clears `main_greenlet_s` before it
works out the flag. -/
theorem green_clear_flag_differs :
    (demo.greenlets 2).main_greenlet_s = some 0 ∧ (demo.greenlets 0).thread_state = some 0 ∧
    green_traverse demo 2 = false ∧
    (green_dealloc Env.plain 5 demo 2 (fun _ => 1)).flag = some false ∧
    (green_clear demo 2).1 = true := by
  refine ⟨rfl, rfl, by decide, by decide, by decide⟩

/-! ## The exit of a thread -/

/-- C24: `ThreadState_DestroyNoGIL` on a thread state that has a main greenlet sets the
`thread_state` of that main greenlet to null and changes no other greenlet;
when the interpreter is gone it leaves the queue and the pending calls as they
are; otherwise it appends the thread state to the queue and makes one call of
`Py_AddPendingCall` exactly when the queue was empty before.  A null state, and
a state without a main greenlet, change nothing. -/
theorem ThreadState_DestroyNoGIL_cases (w : World) (g : GreenletGlobals) (st : TId)
    (has_main_greenlet : TId → Bool) (PyInterpreterState_Head : Bool) :
    ThreadState_DestroyNoGIL w g none has_main_greenlet PyInterpreterState_Head = (w, g) ∧
    (has_main_greenlet st = false →
      ThreadState_DestroyNoGIL w g (some st) has_main_greenlet PyInterpreterState_Head
        = (w, g)) ∧
    (has_main_greenlet st = true →
      (((ThreadState_DestroyNoGIL w g (some st) has_main_greenlet
          PyInterpreterState_Head).1.greenlets (w.threads st).main_greenlet).thread_state = none ∧
        (∀ x, x ≠ (w.threads st).main_greenlet →
          (ThreadState_DestroyNoGIL w g (some st) has_main_greenlet
            PyInterpreterState_Head).1.greenlets x = w.greenlets x)) ∧
      (PyInterpreterState_Head = false →
        (ThreadState_DestroyNoGIL w g (some st) has_main_greenlet PyInterpreterState_Head).2
          = g) ∧
      (PyInterpreterState_Head = true →
        (ThreadState_DestroyNoGIL w g (some st) has_main_greenlet
          PyInterpreterState_Head).2.thread_states_to_destroy
            = g.thread_states_to_destroy ++ [st] ∧
        (g.thread_states_to_destroy = [] →
          (ThreadState_DestroyNoGIL w g (some st) has_main_greenlet
            PyInterpreterState_Head).2.pending_calls = g.pending_calls + 1) ∧
        (g.thread_states_to_destroy ≠ [] →
          (ThreadState_DestroyNoGIL w g (some st) has_main_greenlet
            PyInterpreterState_Head).2.pending_calls = g.pending_calls))) := by
  refine ⟨rfl, ?_, ?_⟩
  · intro h
    simp [ThreadState_DestroyNoGIL, h]
  · intro h
    have hlen : (g.thread_states_to_destroy ++ [st]).length = 1 ↔
        g.thread_states_to_destroy = [] := by
      cases g.thread_states_to_destroy with
      | nil => simp
      | cons a l => simp
    refine ⟨⟨?_, ?_⟩, ?_, ?_⟩
    · cases PyInterpreterState_Head <;>
        (simp only [ThreadState_DestroyNoGIL, h, if_true, Bool.not_false, Bool.not_true,
          Bool.false_eq_true, if_false]
         try split_ifs
         all_goals simp [World.setGreenlet])
    · intro x hx
      cases PyInterpreterState_Head <;>
        (simp only [ThreadState_DestroyNoGIL, h, if_true, Bool.not_false, Bool.not_true,
          Bool.false_eq_true, if_false]
         try split_ifs
         all_goals simp [World.setGreenlet, Function.update, hx])
    · intro hh
      subst hh
      simp [ThreadState_DestroyNoGIL, h]
    · intro hh
      subst hh
      simp only [ThreadState_DestroyNoGIL, h, if_true, Bool.not_true, Bool.false_eq_true,
        if_false, queue_to_destroy]
      refine ⟨?_, ?_, ?_⟩
      · split_ifs <;> rfl
      · intro he
        rw [if_pos (hlen.mpr he)]
      · intro he
        rw [if_neg (fun hc => he (hlen.mp hc))]

/-- C24, witness: thread `1` of `demo` exits: with an empty queue one pending call is
made; with thread `0` already in the queue none is made. -/
theorem ThreadState_DestroyNoGIL_cases_witness :
    ((ThreadState_DestroyNoGIL demo ⟨[], 0⟩ (some 1) (fun _ => true) true).1.greenlets
      10).thread_state = none ∧
    (ThreadState_DestroyNoGIL demo ⟨[], 0⟩ (some 1) (fun _ => true) true).2.pending_calls = 1 ∧
    (ThreadState_DestroyNoGIL demo ⟨[0], 1⟩ (some 1) (fun _ => true) true).2.pending_calls = 1 ∧
    (ThreadState_DestroyNoGIL demo ⟨[0], 1⟩ (some 1) (fun _ => true) true
      ).2.thread_states_to_destroy = [0, 1] ∧
    (ThreadState_DestroyNoGIL demo ⟨[0], 1⟩ (some 1) (fun _ => true) false).2 = ⟨[0], 1⟩ :=
  ⟨((ThreadState_DestroyNoGIL_cases demo ⟨[], 0⟩ 1 (fun _ => true) true).2.2 rfl).1.1,
    (((ThreadState_DestroyNoGIL_cases demo ⟨[], 0⟩ 1 (fun _ => true) true).2.2 rfl).2.2
      rfl).2.1 rfl,
    (((ThreadState_DestroyNoGIL_cases demo ⟨[0], 1⟩ 1 (fun _ => true) true).2.2 rfl).2.2
      rfl).2.2 (List.cons_ne_nil _ _),
    (((ThreadState_DestroyNoGIL_cases demo ⟨[0], 1⟩ 1 (fun _ => true) true).2.2 rfl).2.2
      rfl).1,
    ((ThreadState_DestroyNoGIL_cases demo ⟨[0], 1⟩ 1 (fun _ => true) false).2.2 rfl).2.1 rfl⟩

/-! ## The target of a switch is found -/

theorem resolves_of_chain (w : World) : ∀ (n : Nat) (self main : GId),
    nth_parent w n self = some main → PyGreenlet_ACTIVE w main = true →
    ∃ k r, k ≤ n ∧ Resolves w self k r := by
  intro n
  induction n with
  | zero =>
    intro self main h hm
    simp only [nth_parent, Option.some.injEq] at h
    subst h
    exact ⟨0, self, Nat.le_refl 0, Resolves.here self (Or.inl hm)⟩
  | succ n ih =>
    intro self main h hm
    by_cases hlive : PyGreenlet_ACTIVE w self = true ∨ PyGreenlet_STARTED w self = false
    · exact ⟨0, self, Nat.zero_le _, Resolves.here self hlive⟩
    · have ha : PyGreenlet_ACTIVE w self = false := by
        cases hx : PyGreenlet_ACTIVE w self with
        | false => rfl
        | true => exact absurd (Or.inl hx) hlive
      have hs : PyGreenlet_STARTED w self = true := by
        cases hx : PyGreenlet_STARTED w self with
        | true => rfl
        | false => exact absurd (Or.inr hx) hlive
      rw [nth_parent_succ] at h
      cases hp : (w.greenlets self).parent with
      | none => simp [hp] at h
      | some p =>
        rw [hp] at h
        obtain ⟨k, r, hk, hr⟩ := ih p main h hm
        exact ⟨k + 1, r, by omega, Resolves.skip self p r k ha hs hp hr⟩

theorem g_initialstub_returns_state (env : Env) (fuel : Nat) (w : World) (self : GId)
    (err : switchstack_result_t) (w' : World)
    (h : g_initialstub env fuel w self = .returns err w') :
    err.status < 0 ∨ err.the_state_that_switched = some self := by
  unfold g_initialstub at h
  cases hs : (w.greenlets self).switching_state with
  | none => simp [hs] at h
  | some s =>
    simp only [hs] at h
    cases hr : (env.getattr_run (w.setErr none) self).2 with
    | none => simp [hr] at h
    | some run =>
      simp only [hr] at h
      split at h
      · cases h
      · cases h
      · split_ifs at h with h1 h2 h3
        · injection h with h1' h2'
          subst h1'
          exact Or.inl h3
        · injection h with h1' h2'
          subst h1'
          rcases g_switchstack_state env _ self s with hneg | ⟨hst, _⟩
          · exact absurd hneg h3
          · exact Or.inr hst

theorem g_switch_loop_finish (env : Env) : ∀ (fuel : Nat) (w : World) (self : GId)
    (target : Option GId) (twm : Bool),
    g_switch_loop env fuel w self target twm
      = (g_switch_loop_end env fuel w self target twm).finish env := by
  intro fuel
  induction fuel with
  | zero => intro w self target twm; rfl
  | succ n ih =>
    intro w self target twm
    cases target with
    | none => rfl
    | some t =>
      rw [g_switch_loop, g_switch_loop_end]
      by_cases hact : PyGreenlet_ACTIVE w t = true
      · simp only [hact, if_true]
        cases hm : (if twm = true then some w else move_args w self t) with
        | none => rfl
        | some w1 =>
          simp only [resume_target]
          cases (w1.greenlets t).switching_state with
          | none => rfl
          | some s => rfl
      · simp only [hact, Bool.false_eq_true, if_false]
        by_cases hst : PyGreenlet_STARTED w t = true
        · simp only [hst, Bool.not_true, Bool.false_eq_true, if_false]
          exact ih w self _ false
        · have hst' : PyGreenlet_STARTED w t = false := by
            cases hx : PyGreenlet_STARTED w t with
            | false => rfl
            | true => exact absurd hx hst
          simp only [hst', Bool.not_false, if_true]
          cases hm : (if twm = true then some w
              else move_args (w.ensureSwitchingState t) self t) with
          | none => rfl
          | some w1 =>
            simp only [bootstrap_target]
            cases hg : g_initialstub env (n + 1) (w1.record (.bootstrap t)) t with
            | returns err w2 => rfl
            | entered a r w2 => rfl
            | throws w2 => rfl
            | started_while_in_python w2 => exact ih w2 self _ twm
            | null_deref => rfl
            | out_of_fuel => rfl

theorem g_switch_loop_end_skip (env : Env) (w : World) (self : GId) :
    ∀ (t r : GId) (k : Nat), Resolves w t k r → ∀ (fuel : Nat) (twm : Bool), k < fuel →
      g_switch_loop_end env fuel w self (some t) twm
        = g_switch_loop_end env (fuel - k) w self (some r) (twm && decide (k = 0)) := by
  intro t r k h
  induction h with
  | here g _ => intro fuel twm _; simp
  | skip g p r k hact hst hpar _ ih =>
    intro fuel twm hf
    obtain ⟨n, rfl⟩ : ∃ n, fuel = n + 1 := ⟨fuel - 1, by omega⟩
    rw [g_switch_loop_end]
    simp only [hact, hst, Bool.false_eq_true, if_false, Bool.not_true, hpar]
    rw [ih n false (by omega)]
    simp

theorem nth_parent_of_links (w w1 : World)
    (hp : ∀ g, (w1.greenlets g).parent = (w.greenlets g).parent) :
    ∀ (k : Nat) (g : GId), nth_parent w1 k g = nth_parent w k g := by
  intro k
  induction k with
  | zero => intro g; rfl
  | succ k ih =>
    intro g
    rw [nth_parent_succ, nth_parent_succ, hp]
    cases (w.greenlets g).parent with
    | none => rfl
    | some p => exact ih p

theorem endsActive_congr (w w1 : World) (g : GId)
    (hp : ∀ h, (w1.greenlets h).parent = (w.greenlets h).parent)
    (hs : ∀ h, (w1.greenlets h).stack_state = (w.greenlets h).stack_state)
    (h : EndsActive w g) : EndsActive w1 g := by
  obtain ⟨n, m, hn, hm⟩ := h
  refine ⟨n, m, ?_, ?_⟩
  · rw [nth_parent_of_links w w1 hp]; exact hn
  · simpa [PyGreenlet_ACTIVE, hs] using hm

theorem endsActive_parent (w : World) (g : GId) (h : EndsActive w g)
    (hact : PyGreenlet_ACTIVE w g = false) :
    ∃ p, (w.greenlets g).parent = some p ∧ EndsActive w p := by
  obtain ⟨n, m, hn, hm⟩ := h
  cases n with
  | zero =>
    simp only [nth_parent, Option.some.injEq] at hn
    subst hn
    rw [hact] at hm
    cases hm
  | succ n =>
    rw [nth_parent_succ] at hn
    cases hp : (w.greenlets g).parent with
    | none => simp [hp] at hn
    | some p =>
      rw [hp] at hn
      exact ⟨p, rfl, n, m, hn, hm⟩

theorem move_args_links (w w1 : World) (self target : GId) (h : move_args w self target = some w1) :
    (∀ g, (w1.greenlets g).parent = (w.greenlets g).parent) ∧
    (∀ g, (w1.greenlets g).stack_state = (w.greenlets g).stack_state) := by
  unfold move_args at h
  cases hs : (w.greenlets target).switching_state with
  | none => simp [hs] at h
  | some s0 =>
    simp only [hs] at h
    split_ifs at h
    · injection h with h; subst h; exact ⟨fun _ => rfl, fun _ => rfl⟩
    · injection h with h; subst h; exact ⟨fun g => by simp, fun g => by simp⟩

theorem g_initialstub_retry_world (env : Env) (fuel : Nat) (w w2 : World) (self : GId)
    (h : g_initialstub env fuel w self = .started_while_in_python w2) :
    (∀ g, (w2.greenlets g).parent
      = ((env.getattr_run (w.setErr none) self).1.greenlets g).parent) ∧
    (∀ g, (w2.greenlets g).stack_state
      = ((env.getattr_run (w.setErr none) self).1.greenlets g).stack_state) := by
  unfold g_initialstub at h
  cases hs : (w.greenlets self).switching_state with
  | none => simp [hs] at h
  | some s =>
    simp only [hs] at h
    cases hr : (env.getattr_run (w.setErr none) self).2 with
    | none => simp [hr] at h
    | some run =>
      simp only [hr] at h
      split at h
      · cases h
      · cases h
      · split_ifs at h with h1 h2 h3
        · injection h with h
          subst h
          exact ⟨fun g => by simp, fun g => by simp⟩

theorem g_switch_loop_end_state (env : Env) (hget : LookupKeepsChains env) :
    ∀ (fuel : Nat) (w : World) (self target : GId) (twm : Bool) (err : switchstack_result_t)
      (w1 : World), EndsActive w target →
      g_switch_loop_end env fuel w self (some target) twm = .exits err w1 →
      ¬ err.status < 0 → ∃ r, err.the_state_that_switched = some r := by
  intro fuel
  induction fuel with
  | zero => intro w self target twm err w1 _ h; simp [g_switch_loop_end] at h
  | succ n ih =>
    intro w self target twm err w1 hE h hneg
    rw [g_switch_loop_end] at h
    by_cases hact : PyGreenlet_ACTIVE w target = true
    · simp only [hact, if_true] at h
      cases hm : (if twm = true then some w else move_args w self target) with
      | none => simp [hm] at h
      | some w0 =>
        simp only [hm] at h
        cases hs : (w0.greenlets target).switching_state with
        | none => simp [hs] at h
        | some s =>
          simp only [hs] at h
          injection h with h1 h2
          subst h1
          rcases g_switchstack_state env (w0.record (.resume target)) target s with hx | ⟨hx, _⟩
          · exact absurd hx hneg
          · exact ⟨target, hx⟩
    · have hact' : PyGreenlet_ACTIVE w target = false := by
        cases hx : PyGreenlet_ACTIVE w target with
        | false => rfl
        | true => exact absurd hx hact
      simp only [hact', Bool.false_eq_true, if_false] at h
      by_cases hst : PyGreenlet_STARTED w target = true
      · simp only [hst, Bool.not_true, Bool.false_eq_true, if_false] at h
        obtain ⟨p, hp, hEp⟩ := endsActive_parent w target hE hact'
        rw [hp] at h
        exact ih w self p false err w1 hEp h hneg
      · have hst' : PyGreenlet_STARTED w target = false := by
          cases hx : PyGreenlet_STARTED w target with
          | false => rfl
          | true => exact absurd hx hst
        simp only [hst', Bool.not_false, if_true] at h
        cases hm : (if twm = true then some w
            else move_args (w.ensureSwitchingState target) self target) with
        | none => simp [hm] at h
        | some w0 =>
          simp only [hm] at h
          have hw0 : (∀ g, (w0.greenlets g).parent = (w.greenlets g).parent) ∧
              (∀ g, (w0.greenlets g).stack_state = (w.greenlets g).stack_state) := by
            cases twm with
            | true =>
              simp only [if_true, Option.some.injEq] at hm
              subst hm
              exact ⟨fun _ => rfl, fun _ => rfl⟩
            | false =>
              simp only [Bool.false_eq_true, if_false] at hm
              obtain ⟨a, b⟩ := move_args_links _ _ _ _ hm
              exact ⟨fun g => by rw [a]; simp, fun g => by rw [b]; simp⟩
          cases hg : g_initialstub env (n + 1) (w0.record (.bootstrap target)) target with
          | returns e w2 =>
            simp only [hg] at h
            injection h with h1 h2
            subst h1
            rcases g_initialstub_returns_state env _ _ target e w2 hg with hx | hx
            · exact absurd hx hneg
            · exact ⟨target, hx⟩
          | entered a r w2 => simp [hg] at h
          | throws w2 => simp [hg] at h
          | started_while_in_python w2 =>
            simp only [hg] at h
            obtain ⟨a, b⟩ := g_initialstub_retry_world env _ _ w2 target hg
            have hE0 : EndsActive ((w0.record (.bootstrap target)).setErr none) target :=
              endsActive_congr w _ target (fun g => by simp [hw0.1]) (fun g => by simp [hw0.2]) hE
            exact ih w2 self target twm err w1
              (endsActive_congr _ w2 target a b (hget _ target hE0)) h hneg
          | null_deref => simp [hg] at h
          | out_of_fuel => simp [hg] at h

theorem plain_lookup_keeps_chains : LookupKeepsChains Env.plain := by
  intro w g h
  simp only [Env.plain]
  split
  · exact h
  · exact endsActive_congr w _ g (fun _ => rfl) (fun _ => rfl) h

/-- C27: in a state where validation passes and the parent chain of the target ends,
after `n` links, in a greenlet that is active (the main greenlet), the loop of
`g_switch` reaches a greenlet `r` that is ACTIVE or NOT_STARTED after skipping
`k ≤ n` dead ones, with fuel to spare: the chain is not exhausted.  `g_switch`
is its loop followed by the statements that read `err`, and whenever the loop
is left with an `err` whose status is not negative, `the_state_that_switched`
of that `err` is not null; this holds through the retries of the loop, when the
lookup of `run` leaves states whose chains still end in an active greenlet.
On an ACTIVE `r` the loop is left at once: with the `err` of `g_switchstack`,
or at the dereference of a null `target->switching_state` before it. -/
theorem g_switch_target_found (env : Env) (hget : LookupKeepsChains env) (fuel : Nat) (w : World)
    (self main : GId) (n : Nat)
    (s : SwitchingState) (hs : (w.greenlets self).switching_state = some s)
    (hc : check_switch_allowed fuel w self s = .allowed)
    (hchain : nth_parent w n self = some main) (hmain : PyGreenlet_ACTIVE w main = true)
    (hf : n < fuel) :
    g_switch env fuel w self = (g_switch_loop_end env fuel w self (some self) true).finish env ∧
    (∀ err w1, g_switch_loop_end env fuel w self (some self) true = .exits err w1 →
      ¬ err.status < 0 → ∃ t, err.the_state_that_switched = some t) ∧
    ∃ k r, k ≤ n ∧ Resolves w self k r ∧
      (PyGreenlet_ACTIVE w r = true ∨ PyGreenlet_STARTED w r = false) ∧
      g_switch_loop_end env fuel w self (some self) true
        = g_switch_loop_end env (fuel - k) w self (some r) (decide (k = 0)) ∧
      0 < fuel - k ∧
      (PyGreenlet_ACTIVE w r = true →
        g_switch_loop_end env fuel w self (some self) true = .null_state r ∨
        ∃ err w1, g_switch_loop_end env fuel w self (some self) true = .exits err w1 ∧
          (¬ err.status < 0 → err.the_state_that_switched = some r)) := by
  have hE : EndsActive w self := ⟨n, main, hchain, hmain⟩
  obtain ⟨k, r, hk, hr⟩ := resolves_of_chain w n self main hchain hmain
  have hskip : g_switch_loop_end env fuel w self (some self) true
      = g_switch_loop_end env (fuel - k) w self (some r) (decide (k = 0)) := by
    rw [g_switch_loop_end_skip env w self self r k hr fuel true (by omega)]
    simp
  refine ⟨?_, fun err w1 h hneg => g_switch_loop_end_state env hget fuel w self self true err w1
    hE h hneg, k, r, hk, hr, resolves_live w self r k hr, hskip, by omega, ?_⟩
  · simp only [g_switch, hs, hc]
    exact g_switch_loop_finish env fuel w self (some self) true
  · intro hact
    rw [hskip]
    obtain ⟨m, hm⟩ : ∃ m, fuel - k = m + 1 := ⟨fuel - k - 1, by omega⟩
    rw [hm, g_switch_loop_end]
    simp only [hact, if_true]
    cases hmv : (if decide (k = 0) = true then some w else move_args w self r) with
    | none => exact Or.inl rfl
    | some w0 =>
      simp only []
      cases hs0 : (w0.greenlets r).switching_state with
      | none => exact Or.inl rfl
      | some s0 =>
        refine Or.inr ⟨_, _, rfl, fun hneg => ?_⟩
        rcases g_switchstack_state env (w0.record (.resume r)) r s0 with hx | ⟨hx, _⟩
        · exact absurd hx hneg
        · exact hx

theorem run_lookup_starts_keeps_chains : LookupKeepsChains Env.run_lookup_starts := by
  intro w g _
  exact ⟨0, g, rfl, by simp [Env.run_lookup_starts, PyGreenlet_ACTIVE, StackState.active]⟩

/-- C27, witness: in `demo_request_dead` a switch to the dead greenlet `2`, whose chain
ends in the main greenlet after two links, skips `2` and leaves the loop with
the `err` of the switch into the suspended greenlet `1`.  In `demo_retry`, where
the lookup of `run` starts the greenlet `5`, a switch to the dead greenlet `7`
skips `7`, retries on `5` and leaves the loop with the `err` of the switch into
`5`. -/
theorem g_switch_target_found_witness :
    (nth_parent demo_request_dead 2 2 = some 0 ∧ PyGreenlet_ACTIVE demo_request_dead 0 = true ∧
      (∃ err w1, g_switch_loop_end Env.plain 5 demo_request_dead 2 (some 2) true
          = .exits err w1 ∧ err.status = 0 ∧ err.the_state_that_switched = some 1) ∧
      (∀ err w1, g_switch_loop_end Env.plain 5 demo_request_dead 2 (some 2) true
          = .exits err w1 → ¬ err.status < 0 → ∃ t, err.the_state_that_switched = some t)) ∧
    (nth_parent demo_retry 2 7 = some 0 ∧ PyGreenlet_ACTIVE demo_retry 0 = true ∧
      (∃ err w1, g_switch_loop_end Env.run_lookup_starts 5 demo_retry 7 (some 7) true
          = .exits err w1 ∧ err.status = 0 ∧ err.the_state_that_switched = some 5) ∧
      (∀ err w1, g_switch_loop_end Env.run_lookup_starts 5 demo_retry 7 (some 7) true
          = .exits err w1 → ¬ err.status < 0 → ∃ t, err.the_state_that_switched = some t)) :=
  ⟨⟨rfl, rfl, ⟨_, _, rfl, rfl, rfl⟩,
      (g_switch_target_found Env.plain plain_lookup_keeps_chains 5 demo_request_dead 2 0 2
        ⟨⟨some (.tuple [.obj 5]), none⟩, 0⟩ rfl (by decide) rfl rfl (by decide)).2.1⟩,
    ⟨rfl, rfl, ⟨_, _, rfl, rfl, rfl⟩,
      (g_switch_target_found Env.run_lookup_starts run_lookup_starts_keeps_chains 5 demo_retry
        7 0 2 ⟨⟨some (.tuple [.obj 5]), none⟩, 0⟩ rfl (by decide) rfl rfl (by decide)).2.1⟩⟩

/-! ## A greenlet killed in the middle of a switch -/

/-- The branch of `inner_bootstrap` for a body that ended with `GreenletExit` while the
request of the greenlet itself is not empty: the request is packaged and the
error is cleared. -/
theorem inner_bootstrap_result_request (w : World) (self : GId) (e : PyErr) (v : PyObj)
    (he : w.pyerr = some e) (hm : e.type.matchesGreenletExit = true)
    (ha : (w.args self).toBool = true)
    (hv : single_result (result_from_args (w.args self)) = some v) :
    inner_bootstrap_result w self none =
      (some (.tuple [v]),
        (release_args ((release_args w self).setErr none) self).setStack self
          (w.greenlets self).stack_state.set_inactive) := by
  have hst : ((release_args ((release_args w self).setErr none) self).greenlets self).stack_state
      = (w.greenlets self).stack_state := by simp
  unfold inner_bootstrap_result
  simp only [he, hm, ha, Option.isNone_none, Bool.and_self, if_true, hv, g_handle_exit, hst]

/-! ## The copy of a stack region to the heap and back -/

theorem read_length (mem : NativeStack) (lo n : Nat) : (mem.read lo n).length = n := by
  simp [NativeStack.read]

theorem read_getD (mem : NativeStack) (lo n i : Nat) (h : i < n) :
    (mem.read lo n).getD i 0 = mem (lo + i) := by
  simp [NativeStack.read, List.getD_eq_getElem?_getD, h]

/-- C26: a stack region whose heap copy holds its first `stack_saved` bytes is saved up
to `upto` and then restored onto a native stack that may have been overwritten
meanwhile: every byte of the region that was on the native stack is back at
its address, every byte that was in the heap copy is at its address behind
`stack_start`, `stack_saved` is `0` and the heap copy is gone; outside the
region the native stack is as the restore found it.  For a region with nothing
in the heap before, the native stack holds exactly the original bytes of the
region. -/
theorem stack_round_trip (s : StackState) (mem mem' : NativeStack) (start upto : Nat)
    (hs : s.stack_start = some start) (hinv : s.stack_copy.length = s.stack_saved)
    (hle : start + s.stack_saved ≤ upto) :
    (s.copy_stack_to_heap mem upto).stack_saved = upto - start ∧
    (s.copy_stack_to_heap mem upto).stack_copy.length = upto - start ∧
    (∀ i, s.stack_saved ≤ i → i < upto - start →
      ((s.copy_stack_to_heap mem upto).copy_heap_to_stack mem').1 (start + i)
        = mem (start + i)) ∧
    (∀ i, i < s.stack_saved →
      ((s.copy_stack_to_heap mem upto).copy_heap_to_stack mem').1 (start + i)
        = s.stack_copy.getD i 0) ∧
    (∀ a, a < start ∨ upto ≤ a →
      ((s.copy_stack_to_heap mem upto).copy_heap_to_stack mem').1 a = mem' a) ∧
    ((s.copy_stack_to_heap mem upto).copy_heap_to_stack mem').2.stack_saved = 0 ∧
    ((s.copy_stack_to_heap mem upto).copy_heap_to_stack mem').2.stack_copy = [] ∧
    (s.stack_saved = 0 → ∀ a, start ≤ a → a < upto →
      ((s.copy_stack_to_heap mem upto).copy_heap_to_stack mem').1 a = mem a) := by
  have hsave : (s.copy_stack_to_heap mem upto).stack_start = some start ∧
      (s.copy_stack_to_heap mem upto).stack_saved = upto - start ∧
      (s.copy_stack_to_heap mem upto).stack_copy
        = s.stack_copy ++ mem.read (start + s.stack_saved) (upto - start - s.stack_saved) := by
    unfold StackState.copy_stack_to_heap
    rw [hs]
    simp only []
    by_cases h : s.stack_saved < upto - start
    · rw [if_pos h]
      exact ⟨rfl, rfl, rfl⟩
    · rw [if_neg h]
      have h0 : upto - start - s.stack_saved = 0 := by omega
      refine ⟨hs, by omega, ?_⟩
      rw [h0]
      simp [NativeStack.read]
  obtain ⟨h1, h2, h3⟩ := hsave
  have hlen : (s.copy_stack_to_heap mem upto).stack_copy.length = upto - start := by
    rw [h3, List.length_append, read_length, hinv]; omega
  have hmem : ∀ a, ((s.copy_stack_to_heap mem upto).copy_heap_to_stack mem').1 a
      = if start ≤ a ∧ a < start + (upto - start)
        then (s.stack_copy ++ mem.read (start + s.stack_saved)
          (upto - start - s.stack_saved)).getD (a - start) 0
        else mem' a := by
    intro a
    unfold StackState.copy_heap_to_stack
    rw [h1]
    simp only [NativeStack.write]
    rw [hlen, h3]
  have hnat : ∀ i, s.stack_saved ≤ i → i < upto - start →
      ((s.copy_stack_to_heap mem upto).copy_heap_to_stack mem').1 (start + i)
        = mem (start + i) := by
    intro i hi1 hi2
    rw [hmem]
    have hc : start ≤ start + i ∧ start + i < start + (upto - start) := ⟨by omega, by omega⟩
    rw [if_pos hc, Nat.add_sub_cancel_left, List.getD_append_right _ _ _ _ (by omega), hinv,
      read_getD _ _ _ _ (by omega)]
    congr 1
    omega
  refine ⟨h2, hlen, hnat, ?_, ?_, ?_, ?_, ?_⟩
  · intro i hi
    rw [hmem]
    have hc : start ≤ start + i ∧ start + i < start + (upto - start) := ⟨by omega, by omega⟩
    rw [if_pos hc, Nat.add_sub_cancel_left, List.getD_append _ _ _ _ (by omega)]
  · intro a ha
    rw [hmem]
    have hc : ¬ (start ≤ a ∧ a < start + (upto - start)) := by omega
    rw [if_neg hc]
  · unfold StackState.copy_heap_to_stack
    rw [h1]
  · unfold StackState.copy_heap_to_stack
    rw [h1]
  · intro h0 a ha1 ha2
    have := hnat (a - start) (by omega) (by omega)
    have e : start + (a - start) = a := by omega
    rw [e] at this
    exact this

/-- C26, witness: a region of three bytes at the addresses `10`, `11`, `12`, all on the
native stack, is saved and restored onto a native stack filled with zeros. -/
theorem stack_round_trip_witness :
    (((⟨some 10, some 13, [], 0, none⟩ : StackState).copy_stack_to_heap (fun x => x + 100)
      13).copy_heap_to_stack (fun _ => 0)).1 11 = 11 + 100 ∧
    (((⟨some 10, some 13, [], 0, none⟩ : StackState).copy_stack_to_heap (fun x => x + 100)
      13).copy_heap_to_stack (fun _ => 0)).2.stack_saved = 0 :=
  ⟨(stack_round_trip ⟨some 10, some 13, [], 0, none⟩ (fun x => x + 100) (fun _ => 0) 10 13 rfl
      rfl (by decide)).2.2.2.2.2.2.2 rfl 11 (by decide) (by decide),
    (stack_round_trip ⟨some 10, some 13, [], 0, none⟩ (fun x => x + 100) (fun _ => 0) 10 13 rfl
      rfl (by decide)).2.2.2.2.2.1⟩

/-! ## The kill of a suspended greenlet -/

theorem g_switch_resume_world (env : Env) (fuel : Nat) (w : World) (p : GId)
    (s : SwitchingState) (hs : (w.greenlets p).switching_state = some s)
    (h : CanResume env fuel w p) :
    g_switch env fuel w p =
      (if w.pyerr.isNone then .resumed p (result_from_args (w.args p)) (resume_world env w p s)
       else .resumed_raise p (resume_world env w p s)) := by
  obtain ⟨s', hs', hc, hact, hcur, hslp, htr⟩ := h
  have hss : s' = s := by rw [hs] at hs'; exact (Option.some.inj hs').symm
  subst hss
  have hfuel : fuel ≠ 0 := by
    rintro rfl
    simp [check_switch_allowed, find_and_borrow_main_greenlet_in_lineage] at hc
  obtain ⟨n, rfl⟩ : ∃ n, fuel = n + 1 := ⟨fuel - 1, by omega⟩
  have hcur' : ((w.record (.resume p)).threads s'.thread_state).current_greenlet ≠ p := by
    simpa using hcur
  have hact' : PyGreenlet_ACTIVE (w.record (.resume p)) p = true := hact
  simp only [g_switch, hs, hc, g_switch_loop, hact, if_true, resume_target]
  rw [g_switchstack_ok env _ p s' hcur' hslp]
  simp only [hact', if_true, g_switch_end]
  have hlt : ¬ ((0 : Int) < 0) := by decide
  simp only [hlt, if_false]
  simp only [setThread_greenlets, setStacks_switching_state, record_greenlets, hs]
  rw [g_switch_finish_untraced]
  · simp only [setThread_pyerr, setStacks_pyerr, record_pyerr, record_threads]
    have hne : ¬ (some (w.threads s'.thread_state).current_greenlet = some p) := by
      simpa using hcur
    have hargs : World.args ((((w.record (.resume p)).record (.slp_switch p)).setStacks
        (env.slp_switch (w.record (.resume p)) p).2).setThread s'.thread_state
        { w.threads s'.thread_state with current_greenlet := p }) p = w.args p :=
      args_congr _ _ _ (by simp)
    cases hp : w.pyerr with
    | none =>
      simp only [Option.isNone_none, if_true, hne, if_false, hargs]
      rfl
    | some e => simp only [Option.isNone_some, hne, if_false]; rfl
  · simp [htr]

theorem resume_world_facts (env : Env) (w : World) (p : GId) (s : SwitchingState) :
    (resume_world env w p s).pyerr = w.pyerr ∧
    (∀ g, ((resume_world env w p s).greenlets g).parent = (w.greenlets g).parent) ∧
    (∀ g, ((resume_world env w p s).greenlets g).stack_state
      = (env.slp_switch (w.record (.resume p)) p).2 g) ∧
    ((resume_world env w p s).threads s.thread_state).current_greenlet = p ∧
    (resume_world env w p s).args p = SwitchingArgs.empty := by
  refine ⟨by simp [resume_world], fun g => by simp [resume_world],
    fun g => by simp [resume_world], by simp [resume_world], ?_⟩
  unfold resume_world
  exact release_args_empty _ _

theorem lifecycle_set_inactive (s : StackState) (h : s.lifecycle = .ACTIVE) :
    s.set_inactive.lifecycle = .DEAD := by
  unfold StackState.lifecycle StackState.started StackState.active at *
  cases hs : s.stack_stop <;> cases ha : s.stack_start <;>
    simp_all [StackState.set_inactive]

theorem lifecycle_dead_bounds (s : StackState) (h : s.lifecycle = .DEAD) :
    s.stack_start = none ∧ s.stack_stop ≠ none := by
  unfold StackState.lifecycle StackState.started StackState.active at *
  cases hs : s.stack_stop <;> cases ha : s.stack_start <;> simp_all

/-- C22 (as amended): a suspended greenlet of the running thread is killed, and its body
lets the `GreenletExit` propagate.  When the switch into the greenlet and the
switch back to the greenlet that asked for the kill go through, and the
platform switch keeps lifecycle states, control comes back to the requester
with no error pending, the greenlet is DEAD, its `stack_start` is null and its
`stack_stop` is still set (so its stack state is not the empty value), and its
parent is what it was before the kill. -/
theorem kill_suspended_greenlet (env : Env) (fuel : Nat) (w : World) (self : GId)
    (s : SwitchingState)
    (hm : (w.greenlets self).main_greenlet_s = some (w.threads w.this_thread).main_greenlet)
    (hs : (w.greenlets self).switching_state = some s)
    (hl : lifecycle w self = .ACTIVE)
    (hk : SlpKeepsLifecycle env)
    (h1 : CanResume env fuel
      ((w.setParent self (some (w.threads w.this_thread).current_greenlet)).raise .GreenletExit
        "Killing the greenlet because all references have vanished.") self)
    (h2 : CanResume env fuel
      (offer (inner_bootstrap_result (killed_world env w self s) self none).2
        (w.threads w.this_thread).current_greenlet
        (some (.str "Killing the greenlet because all references have vanished.")))
      (w.threads w.this_thread).current_greenlet) :
    ∃ w', kill_unwinding env fuel w self
        = some ((w.threads w.this_thread).current_greenlet, w') ∧
      w'.pyerr = none ∧
      lifecycle w' self = .DEAD ∧
      (w'.greenlets self).stack_state.stack_start = none ∧
      (w'.greenlets self).stack_state.stack_stop ≠ none ∧
      (w'.greenlets self).stack_state.stack_stop ≠ StackState.new.stack_stop ∧
      (w'.greenlets self).parent = (w.greenlets self).parent := by
  have hfuel : fuel ≠ 0 := by
    rintro rfl
    obtain ⟨s', -, hc, -⟩ := h1
    simp [check_switch_allowed, find_and_borrow_main_greenlet_in_lineage] at hc
  obtain ⟨n, rfl⟩ : ∃ n, fuel = n + 1 := ⟨fuel - 1, by omega⟩
  have hg1 := g_switch_resume_world env (n + 1) _ self s (by simpa using hs) h1
  simp only [raise_pyerr, Option.isNone_some] at hg1
  have hk1 : kill_greenlet env (n + 1) w self =
      .suspended (w.greenlets self).parent (.resumed_raise self (killed_world env w self s)) := by
    simp only [kill_greenlet, hm, if_true, kill]
    rw [hg1]
    rfl
  obtain ⟨f1, f2, f3, -, f5⟩ := resume_world_facts env
    ((w.setParent self (some (w.threads w.this_thread).current_greenlet)).raise .GreenletExit
      "Killing the greenlet because all references have vanished.") self s
  have hib := inner_bootstrap_result_exit (killed_world env w self s) self
    ⟨.GreenletExit, some (.str "Killing the greenlet because all references have vanished.")⟩
    (by rw [killed_world, f1]; rfl) rfl (by rw [killed_world, f5]; rfl)
  simp only [] at hib
  have hl1 : ((killed_world env w self s).greenlets self).stack_state.lifecycle = .ACTIVE := by
    rw [killed_world, f3, hk]
    simpa [lifecycle] using hl
  rw [hib] at h2
  obtain ⟨s2, hs2, -⟩ := id h2
  have hg2 := g_switch_resume_world env (n + 1) _ (w.threads w.this_thread).current_greenlet
    s2 hs2 h2
  obtain ⟨e1, e2, e3, -, -⟩ := resume_world_facts env
    (offer (((release_args (killed_world env w self s) self).setErr none).setStack self
        ((killed_world env w self s).greenlets self).stack_state.set_inactive)
      (w.threads w.this_thread).current_greenlet
      (some (.str "Killing the greenlet because all references have vanished.")))
    (w.threads w.this_thread).current_greenlet s2
  simp only [offer_pyerr, setStack_pyerr, setErr_pyerr, Option.isNone_none, if_true,
    offer_args, result_from_args_single] at hg2
  have hpar : (((((release_args (killed_world env w self s) self).setErr none).setStack self
      ((killed_world env w self s).greenlets self).stack_state.set_inactive).greenlets
        self).parent) = some (w.threads w.this_thread).current_greenlet := by
    simp only [setStack_parent, setErr_greenlets, release_args_parent]
    rw [killed_world, f2]
    simp
  have hab : after_body env (n + 1) (n + 1) (killed_world env w self s) self none =
      .resumed (w.threads w.this_thread).current_greenlet
        (some (.str "Killing the greenlet because all references have vanished."))
        (resume_world env
          (offer (((release_args (killed_world env w self s) self).setErr none).setStack self
              ((killed_world env w self s).greenlets self).stack_state.set_inactive)
            (w.threads w.this_thread).current_greenlet
            (some (.str "Killing the greenlet because all references have vanished.")))
          (w.threads w.this_thread).current_greenlet s2) := by
    simp only [after_body, hib, hpar]
    unfold parent_loop
    rw [hg2]
  have hdead : lifecycle (kill_greenlet_return (resume_world env
      (offer (((release_args (killed_world env w self s) self).setErr none).setStack self
          ((killed_world env w self s).greenlets self).stack_state.set_inactive)
        (w.threads w.this_thread).current_greenlet
        (some (.str "Killing the greenlet because all references have vanished.")))
      (w.threads w.this_thread).current_greenlet s2) self (w.greenlets self).parent) self
      = .DEAD := by
    simp only [lifecycle, kill_greenlet_return, setParent_stack_state]
    rw [e3, hk]
    simp only [record_greenlets, offer]
    simpa using lifecycle_set_inactive _ hl1
  refine ⟨_, ?_, ?_, hdead, (lifecycle_dead_bounds _ hdead).1, (lifecycle_dead_bounds _ hdead).2,
    (lifecycle_dead_bounds _ hdead).2, ?_⟩
  · simp only [kill_unwinding, hk1, if_true, hab]
  · simp only [kill_greenlet_return, setParent_pyerr]
    rw [e1]
    simp
  · simp [kill_greenlet_return]

/-- C22, witness: in `demo` the main greenlet `0` kills the suspended greenlet `1`. -/
theorem kill_suspended_greenlet_witness :
    ∃ w', kill_unwinding Env.plain 5 demo 1 = some (0, w') ∧
      w'.pyerr = none ∧
      lifecycle w' 1 = .DEAD ∧
      (w'.greenlets 1).stack_state.stack_start = none ∧
      (w'.greenlets 1).stack_state.stack_stop ≠ none ∧
      (w'.greenlets 1).stack_state.stack_stop ≠ StackState.new.stack_stop ∧
      (w'.greenlets 1).parent = some 0 :=
  kill_suspended_greenlet Env.plain 5 demo 1 ⟨SwitchingArgs.empty, 0⟩ rfl rfl rfl
    (fun _ _ _ => rfl)
    ⟨⟨SwitchingArgs.empty, 0⟩, rfl, rfl, rfl, by decide, rfl, rfl⟩
    ⟨⟨⟨some (.str "Killing the greenlet because all references have vanished."), none⟩, 0⟩,
      rfl, rfl, rfl, by decide, rfl, rfl⟩

/-- C22, counterexample: in `demo` the main greenlet `0` kills the suspended greenlet `1`,
whose body lets the `GreenletExit` propagate.  Control comes back to greenlet
`0` and greenlet `1` is DEAD, but its `stack_stop` is still `1000`, where the
empty stack state has none: the bounds were not reset to the empty value. -/
theorem kill_keeps_stack_stop :
    (kill_unwinding Env.plain 5 demo 1).map (fun r => r.1) = some 0 ∧
    (kill_unwinding Env.plain 5 demo 1).map (fun r => lifecycle r.2 1) = some .DEAD ∧
    (kill_unwinding Env.plain 5 demo 1).map
      (fun r => (r.2.greenlets 1).stack_state.stack_stop) = some (some 1000) ∧
    (kill_unwinding Env.plain 5 demo 1).map
      (fun r => decide ((r.2.greenlets 1).stack_state.stack_stop = StackState.new.stack_stop))
        = some false ∧
    StackState.new.stack_stop = none :=
  ⟨rfl, rfl, rfl, rfl, rfl⟩

/-! ## A greenlet killed while it holds a request -/

theorem inner_bootstrap_enter_takes_request (env : Env) (w : World) (self : GId)
    (s : SwitchingState) (origin : Option GId)
    (htr : (w.threads s.thread_state).tracefunc = none) :
    (inner_bootstrap_enter env w self s origin).2.args self = SwitchingArgs.empty := by
  have h : (inner_bootstrap_enter env w self s origin).2
      = release_args ((w.setStack self (w.greenlets self).stack_state.set_active).setGreenlet self
          { (w.setStack self (w.greenlets self).stack_state.set_active).greenlets self with
            run_callable := none
            main_greenlet_s := some ((w.setStack self
              (w.greenlets self).stack_state.set_active).threads s.thread_state).main_greenlet })
          self := by
    simp [inner_bootstrap_enter, htr]
  rw [h]
  exact release_args_empty _ _

theorem offer_args_other (w : World) (p g : GId) (r : Option PyObj) (hne : g ≠ p) :
    (offer w p r).args g = w.args g :=
  (args_congr ((w.ensureSwitchingState p).setArgs p ⟨r, none⟩) (offer w p r) g
    (by simp [offer])).trans ((setArgs_args_other _ _ _ _ hne).trans (ensure_args _ _ _))

theorem resume_world_args_other (env : Env) (w : World) (p : GId) (s : SwitchingState)
    (g : GId) (hne : g ≠ p) : (resume_world env w p s).args g = w.args g := by
  unfold resume_world release_args
  rw [setArgs_args_other _ _ _ _ hne]
  exact args_congr _ _ _ (by simp)

/-- C1, the code at the failing input: `demo_reparented` is reached from the start of a
thread by calls of the module alone.  In it the greenlet `1` is running, the
greenlet `2` is DEAD and has the main greenlet `0` as its parent, and `0` is
ACTIVE and has no switching state.  For `switch(5)` on `2` validation passes
and the first greenlet of the chain that is not DEAD is `0`, which should be
resumed; the loop of `g_switch` dereferences the null
`target->switching_state` of `0` instead, and the call ends there. -/
theorem switch_to_fresh_main_dereferences_null :
    demo_reparented.map (fun w => ((w.threads 0).current_greenlet, lifecycle w 2,
        (w.greenlets 2).parent, lifecycle w 0, (w.greenlets 0).switching_state.isSome))
      = some (1, .DEAD, some 0, .ACTIVE, false) ∧
    demo_reparented.map (fun w =>
        (switch_request w 2 (.tuple [.obj 5]) none).args 2)
      = some ⟨some (.tuple [.obj 5]), none⟩ ∧
    demo_reparented.map (fun w =>
        match ((switch_request w 2 (.tuple [.obj 5]) none).greenlets 2).switching_state with
        | some s => decide (check_switch_allowed 9
            (switch_request w 2 (.tuple [.obj 5]) none) 2 s = .allowed)
        | none => false) = some true ∧
    demo_reparented.map (fun w =>
        (g_switch_loop_end Env.plain 9 (switch_request w 2 (.tuple [.obj 5]) none) 2
          (some 2) true).nullStateOf) = some (some 0) ∧
    demo_reparented.map (fun w =>
        (green_switch Env.plain 9 w 2 (.tuple [.obj 5]) none).isNullDeref) = some true :=
  ⟨rfl, rfl, rfl, rfl, rfl⟩

end Greenlet
